import Mathlib

/-!
# ogl_practice: a verification development of `Source.cpp`

The renderer of `Source.cpp` is embedded as pure functions on an explicit state:
the members of `OglRenderer` together with the part of the OpenGL context the
program touches (object stores, bindings, and the list of rendering commands
issued so far).

Conventions of the embedding.

* In the state machine `float` and `double` values are elements of a field
  `K`, every arithmetic operation exact; this is what the properties of calls,
  bindings and objects are proved over.  The elementary functions glm obtains
  from the C math library (`cos`, `sin`, `tan`, `inversesqrt`) are the fields of
  `Libm K`.
* Where the value of a float expression decides a property, the expression is
  embedded a second time on `F32`, IEEE 754 binary32 with every operation
  rounded to nearest-even (names ending in `F`).
* A glm matrix is a Mathlib `Matrix` in mathematical indexing: the glm
  expression `m[c][r]` (column `c`, row `r`) is `m r c` here, and the glm
  product `a * b` is the matrix product.
* `int` values are `Int`; OpenGL object names (`GLuint`) are `Nat`.
* What the OpenGL driver, the image decoder and uninitialised locals supply is
  the record `Driver`.
-/

namespace OglPractice

/-! ## glm -/

/-- The elementary functions glm takes from the C math library. -/
structure Libm (K : Type) where
  cos : K → K
  sin : K → K
  tan : K → K
  inversesqrt : K → K

abbrev Vec2 (K : Type) := Fin 2 → K
abbrev Vec3 (K : Type) := Fin 3 → K
abbrev Vec4 (K : Type) := Fin 4 → K
abbrev Mat3 (K : Type) := Matrix (Fin 3) (Fin 3) K
abbrev Mat4 (K : Type) := Matrix (Fin 4) (Fin 4) K

section Glm

variable {K : Type} [Field K]

/-- `glm::radians`: degrees times the constant glm uses for pi/180. -/
def radians (degrees : K) : K :=
  degrees * (1745329251994329576923690768489 / 100000000000000000000000000000000)

/-- `glm::dot` on `vec3`. -/
def dot (x y : Vec3 K) : K := x 0 * y 0 + x 1 * y 1 + x 2 * y 2

/-- `glm::cross`. -/
def cross (x y : Vec3 K) : Vec3 K :=
  ![x 1 * y 2 - y 1 * x 2, x 2 * y 0 - y 2 * x 0, x 0 * y 1 - y 0 * x 1]

/-- `glm::normalize`: `v * inversesqrt(dot(v, v))`. -/
def normalize (L : Libm K) (v : Vec3 K) : Vec3 K :=
  fun i => v i * L.inversesqrt (dot v v)

/-- `glm::vec3(s)`: the vector with all three components `s`. -/
def vec3 (s : K) : Vec3 K := ![s, s, s]

/-- `glm::vec4(s)`. -/
def vec4 (s : K) : Vec4 K := ![s, s, s, s]

/-- `glm::mat3(m)` for a `mat4` `m`: the upper-left 3x3 block. -/
def mat3 (m : Mat4 K) : Mat3 K :=
  Matrix.of fun i j => m (Fin.castSucc i) (Fin.castSucc j)

/-- `glm::transpose`. -/
def transpose (m : Mat3 K) : Mat3 K := Matrix.transpose m

/-- `glm::inverse` on `mat3`: the cofactors times one over the determinant,
entry by entry as glm computes them (`Inverse[c][r]` is entry `r c` here). -/
def inverse (m : Mat3 K) : Mat3 K :=
  let OneOverDeterminant : K := 1 / (
      m 0 0 * (m 1 1 * m 2 2 - m 1 2 * m 2 1)
    - m 0 1 * (m 1 0 * m 2 2 - m 1 2 * m 2 0)
    + m 0 2 * (m 1 0 * m 2 1 - m 1 1 * m 2 0))
  !![  (m 1 1 * m 2 2 - m 1 2 * m 2 1) * OneOverDeterminant,
      -(m 0 1 * m 2 2 - m 0 2 * m 2 1) * OneOverDeterminant,
       (m 0 1 * m 1 2 - m 0 2 * m 1 1) * OneOverDeterminant;
      -(m 1 0 * m 2 2 - m 1 2 * m 2 0) * OneOverDeterminant,
       (m 0 0 * m 2 2 - m 0 2 * m 2 0) * OneOverDeterminant,
      -(m 0 0 * m 1 2 - m 0 2 * m 1 0) * OneOverDeterminant;
       (m 1 0 * m 2 1 - m 1 1 * m 2 0) * OneOverDeterminant,
      -(m 0 0 * m 2 1 - m 0 1 * m 2 0) * OneOverDeterminant,
       (m 0 0 * m 1 1 - m 0 1 * m 1 0) * OneOverDeterminant]

/-- The matrix glm multiplies onto `m` in `glm::translate(m, v)`. -/
def translation (v : Vec3 K) : Mat4 K :=
  !![1, 0, 0, v 0;
     0, 1, 0, v 1;
     0, 0, 1, v 2;
     0, 0, 0, 1]

/-- `glm::translate(m, v)`: the last column becomes
`m[0] * v[0] + m[1] * v[1] + m[2] * v[2] + m[3]`, the others are kept. -/
def translate (m : Mat4 K) (v : Vec3 K) : Mat4 K := m * translation v

/-- The matrix `Rotate` built in `glm::rotate(m, angle, v)`, bordered to 4x4. -/
def rotation (L : Libm K) (angle : K) (v : Vec3 K) : Mat4 K :=
  let c := L.cos angle
  let s := L.sin angle
  let axis := normalize L v
  let temp : Vec3 K := fun i => (1 - c) * axis i
  !![c + temp 0 * axis 0, temp 1 * axis 0 - s * axis 2, temp 2 * axis 0 + s * axis 1, 0;
     temp 0 * axis 1 + s * axis 2, c + temp 1 * axis 1, temp 2 * axis 1 - s * axis 0, 0;
     temp 0 * axis 2 - s * axis 1, temp 1 * axis 2 + s * axis 0, c + temp 2 * axis 2, 0;
     0, 0, 0, 1]

/-- `glm::rotate(m, angle, v)`: the first three columns of the result are the
columns of `m` combined by `Rotate`, the last column is `m[3]`. -/
def rotate (L : Libm K) (m : Mat4 K) (angle : K) (v : Vec3 K) : Mat4 K :=
  m * rotation L angle v

/-- `glm::scale(m, v)`: column `i` of `m` times `v[i]`, the last column kept. -/
def scale (m : Mat4 K) (v : Vec3 K) : Mat4 K :=
  m * !![v 0, 0, 0, 0;
         0, v 1, 0, 0;
         0, 0, v 2, 0;
         0, 0, 0, 1]

/-- `glm::lookAt` (right-handed, the glm default). -/
def lookAt (L : Libm K) (eye center up : Vec3 K) : Mat4 K :=
  let f := normalize L (center - eye)
  let s := normalize L (cross f up)
  let u := cross s f
  !![s 0, s 1, s 2, -dot s eye;
     u 0, u 1, u 2, -dot u eye;
     -f 0, -f 1, -f 2, dot f eye;
     0, 0, 0, 1]

/-- `glm::perspective` (right-handed, depth range -1 to 1, the glm default). -/
def perspective (L : Libm K) (fovy aspect zNear zFar : K) : Mat4 K :=
  let tanHalfFovy := L.tan (fovy / 2)
  !![1 / (aspect * tanHalfFovy), 0, 0, 0;
     0, 1 / tanHalfFovy, 0, 0;
     0, 0, -(zFar + zNear) / (zFar - zNear), -(2 * zFar * zNear) / (zFar - zNear);
     0, 0, -1, 0]

/-- The expression `glm::transpose(glm::inverse(glm::mat3(mViewMat.view * xform)))`
that `mGlDraw` evaluates before each draw call. -/
def normalMatrix (view xform : Mat4 K) : Mat3 K :=
  transpose (inverse (mat3 (view * xform)))

end Glm

/-! ## The OpenGL context -/

/-- A finite table from keys to values, most recent entry first. -/
abbrev Table (κ α : Type) := List (κ × α)

/-- The value stored under key `k`, if any. -/
def Table.get {κ α : Type} [DecidableEq κ] (m : Table κ α) (k : κ) : Option α :=
  (m.find? fun p => decide (p.1 = k)).map Prod.snd

/-- The table with the entries of key `k` removed. -/
def Table.del {κ α : Type} [DecidableEq κ] (m : Table κ α) (k : κ) : Table κ α :=
  m.filter fun p => decide (p.1 ≠ k)

/-- The table with `k` mapped to `v`. -/
def Table.put {κ α : Type} [DecidableEq κ] (m : Table κ α) (k : κ) (v : α) : Table κ α :=
  (k, v) :: m.del k

/-- The table with an entry for `k`: the one it has, or else `d`. -/
def Table.ensure {κ α : Type} [DecidableEq κ] (m : Table κ α) (k : κ) (d : α) : Table κ α :=
  m.put k ((m.get k).getD d)

/-- Object stores are tables keyed by the object name. -/
abbrev Objects (α : Type) := Table Nat α

/-- `struct ViewMatrix`. -/
structure ViewMatrix (K : Type) where
  view : Mat4 K
  projection : Mat4 K
  viewprojection : Mat4 K

/-- `struct LightInfo`. -/
structure LightInfo (K : Type) where
  lightDir : Vec4 K
  La : Vec4 K
  Ld : Vec4 K
  Ls : Vec4 K

/-- `enum Settings`. -/
def ALL_OFF : Nat := 0
def LIGHT_ON : Nat := 1 <<< 0
def BUMP_ON : Nat := 1 <<< 1

/-- What `glBufferData` copies into a buffer's data store: the program uploads
vectors of `vec3`, of `vec2`, of `unsigned int`, and its two uniform structs. -/
inductive BufferData (K : Type) where
  | none
  | vec3s (xs : List (Vec3 K))
  | vec2s (xs : List (Vec2 K))
  | uints (xs : List Nat)
  | viewMatrix (m : ViewMatrix K)
  | lightInfo (l : LightInfo K)

/-- The internal formats the program requests for texture images. -/
inductive InternalFormat where
  | GL_RGB
  | GL_RGBA
  | GL_DEPTH24_STENCIL8
deriving DecidableEq, Repr

/-- The level-0 image of a texture as `glTexImage2D` specifies it. -/
structure TexImage where
  internalformat : InternalFormat
  width : Int
  height : Int
deriving DecidableEq, Repr

/-- A texture object: its level-0 image, and whether `glGenerateMipmap` ran on
it.  Sampler parameters (`glTexParameteri`) are not part of the state kept. -/
structure Texture where
  image : Option TexImage
  mipmap : Bool
deriving DecidableEq, Repr

/-- A framebuffer object: the names of the textures attached to
`GL_COLOR_ATTACHMENT0` and to `GL_DEPTH_STENCIL_ATTACHMENT` (0: nothing). -/
structure Framebuffer where
  color0 : Nat
  depthStencil : Nat
deriving DecidableEq, Repr

/-- One generic vertex attribute of a vertex array object. -/
structure VertexAttrib where
  buffer : Nat
  size : Nat
  enabled : Bool
deriving DecidableEq, Repr

/-- A vertex array object. -/
structure VertexArray where
  attribs : Table Nat VertexAttrib
  elementArrayBuffer : Nat
deriving DecidableEq, Repr

inductive ShaderType where
  | GL_VERTEX_SHADER
  | GL_FRAGMENT_SHADER
deriving DecidableEq, Repr

/-- The three GLSL sources of `mSetupGLSLProgram`, by the name of the local
that holds the text. -/
inductive ShaderSource where
  | vtx_plain
  | frag_mono_color
  | frag_tex
deriving DecidableEq, Repr

/-- A shader object. -/
structure Shader where
  type : ShaderType
  source : Option ShaderSource
  compileStatus : Bool
  infoLog : String
  deleteStatus : Bool
deriving DecidableEq, Repr

/-- A program object: the shaders attached, and from the last `glLinkProgram`
the stages that were linked (type, source, compile status), the link status
and the info log. -/
structure Program where
  attached : List Nat
  stages : List (ShaderType × Option ShaderSource × Bool)
  linkStatus : Bool
  infoLog : String
deriving DecidableEq, Repr

/-- What lies outside the program text: the verdicts and info logs of the GLSL
compiler and linker, and what `stbi_load` decodes (`none`: a null pointer, the
out-parameters untouched), and the indeterminate initial values of the locals
`width` and `height` of `mLoadTextures`. -/
structure Driver where
  compile : ShaderType → ShaderSource → Bool × String
  link : List (ShaderType × Option ShaderSource × Bool) → Bool × String
  stbi_load : String → Option (Int × Int)
  indeterminate : Int × Int

/-- A value of a default-block uniform. -/
inductive UniformValue (K : Type) where
  | int (i : Nat)
  | float (x : K)
  | fvec3 (v : Vec3 K)
  | fvec4 (v : Vec4 K)
  | fmat3 (m : Mat3 K)
  | fmat4 (m : Mat4 K)

inductive Capability where
  | GL_DEBUG_OUTPUT
  | GL_DEPTH_TEST
  | GL_CULL_FACE
  | GL_MULTISAMPLE
deriving DecidableEq, Repr

/-- The OpenGL context state the program reads or writes. -/
structure Context (K : Type) where
  lastBuffer : Nat
  lastTexture : Nat
  lastFramebuffer : Nat
  lastVertexArray : Nat
  lastShader : Nat
  buffers : Objects (BufferData K)
  textures : Objects Texture
  framebuffers : Objects Framebuffer
  vertexArrays : Objects VertexArray
  shaders : Objects Shader
  programs : Objects Program
  uniforms : Table (Nat × Nat) (UniformValue K)
  arrayBuffer : Nat
  uniformBuffer : Nat
  uniformBufferBase : Table Nat Nat
  vertexArray : Nat
  framebuffer : Nat
  activeTexture : Nat
  texture2D : Table Nat Nat
  program : Nat
  viewport : Int × Int × Int × Int
  clearColor : Vec4 K
  enabled : List Capability

/-- The rendering commands of the program: those that write pixels. -/
inductive Command where
  | clear (color depth stencil : Bool)
  | drawElements (count : Int)
  | blitNamedFramebuffer (readFramebuffer drawFramebuffer : Nat)
      (src dst : Int × Int × Int × Int)
deriving DecidableEq, Repr

section Gl

variable {K : Type} [Field K]

/-- The context right after `glfwMakeContextCurrent`: no objects, everything
unbound, the clear color at its initial value (0, 0, 0, 0). -/
def Context.fresh (width height : Int) : Context K where
  lastBuffer := 0
  lastTexture := 0
  lastFramebuffer := 0
  lastVertexArray := 0
  lastShader := 0
  buffers := []
  textures := []
  framebuffers := []
  vertexArrays := []
  shaders := []
  programs := []
  uniforms := []
  arrayBuffer := 0
  uniformBuffer := 0
  uniformBufferBase := []
  vertexArray := 0
  framebuffer := 0
  activeTexture := 0
  texture2D := []
  program := 0
  viewport := (0, 0, width, height)
  clearColor := ![0, 0, 0, 0]
  enabled := []

/-- `glGenBuffers(1, &name)`: a name not in use before, and not 0; the context
keeps the last name it gave out. -/
def glGenBuffers (g : Context K) : Nat × Context K :=
  (g.lastBuffer + 1, { g with lastBuffer := g.lastBuffer + 1 })

/-- `glGenTextures(1, &name)`. -/
def glGenTextures (g : Context K) : Nat × Context K :=
  (g.lastTexture + 1, { g with lastTexture := g.lastTexture + 1 })

/-- `glGenFramebuffers(1, &name)`. -/
def glGenFramebuffers (g : Context K) : Nat × Context K :=
  (g.lastFramebuffer + 1, { g with lastFramebuffer := g.lastFramebuffer + 1 })

/-- `glGenVertexArrays(1, &name)`. -/
def glGenVertexArrays (g : Context K) : Nat × Context K :=
  (g.lastVertexArray + 1, { g with lastVertexArray := g.lastVertexArray + 1 })

/-- The buffer store once `name` has been bound: a name bound for the first
time gets a buffer object with no data store; name 0 is no object. -/
def ensureBuffer (g : Context K) (name : Nat) : Objects (BufferData K) :=
  if name = 0 then g.buffers else g.buffers.ensure name BufferData.none

/-- `glBindBuffer(GL_ARRAY_BUFFER, name)`. -/
def glBindArrayBuffer (g : Context K) (name : Nat) : Context K :=
  { g with buffers := ensureBuffer g name, arrayBuffer := name }

/-- `glBindBuffer(GL_UNIFORM_BUFFER, name)`. -/
def glBindUniformBuffer (g : Context K) (name : Nat) : Context K :=
  { g with buffers := ensureBuffer g name, uniformBuffer := name }

/-- The vertex array bound, or the default one of an empty state. -/
def currentVertexArray (g : Context K) : VertexArray :=
  (g.vertexArrays.get g.vertexArray).getD ⟨[], 0⟩

/-- `glBindBuffer(GL_ELEMENT_ARRAY_BUFFER, name)`: the binding is state of the
vertex array object bound. -/
def glBindElementArrayBuffer (g : Context K) (name : Nat) : Context K :=
  { g with
    buffers := ensureBuffer g name
    vertexArrays :=
      g.vertexArrays.put g.vertexArray { currentVertexArray g with elementArrayBuffer := name } }

/-- The data store of buffer `name` replaced; name 0 is no buffer object and
the call is then an error without effect. -/
def bufferData (g : Context K) (name : Nat) (data : BufferData K) : Context K :=
  { g with buffers := if name = 0 then g.buffers else g.buffers.put name data }

/-- `glBufferData(GL_ARRAY_BUFFER, ...)`. -/
def glArrayBufferData (g : Context K) (data : BufferData K) : Context K :=
  bufferData g g.arrayBuffer data

/-- `glBufferData(GL_UNIFORM_BUFFER, ...)`. -/
def glUniformBufferData (g : Context K) (data : BufferData K) : Context K :=
  bufferData g g.uniformBuffer data

/-- `glBufferData(GL_ELEMENT_ARRAY_BUFFER, ...)`. -/
def glElementArrayBufferData (g : Context K) (data : BufferData K) : Context K :=
  bufferData g (currentVertexArray g).elementArrayBuffer data

/-- `glBindBufferBase(GL_UNIFORM_BUFFER, index, name)`: binds the indexed
binding point and the generic one. -/
def glBindBufferBase (g : Context K) (index name : Nat) : Context K :=
  { g with
    buffers := ensureBuffer g name
    uniformBuffer := name
    uniformBufferBase := g.uniformBufferBase.put index name }

/-- `glBindVertexArray(name)`: a name bound for the first time gets a vertex
array object in its initial state. -/
def glBindVertexArray (g : Context K) (name : Nat) : Context K :=
  { g with
    vertexArrays :=
      if name = 0 then g.vertexArrays else g.vertexArrays.ensure name ⟨[], 0⟩
    vertexArray := name }

/-- `glVertexAttribPointer(index, size, GL_FLOAT, GL_FALSE, stride, 0)`: the
attribute sources the buffer bound to `GL_ARRAY_BUFFER`. -/
def glVertexAttribPointer (g : Context K) (index size : Nat) : Context K :=
  let vao := currentVertexArray g
  let enabled := ((vao.attribs.get index).map VertexAttrib.enabled).getD false
  { g with
    vertexArrays :=
      g.vertexArrays.put g.vertexArray
        { vao with attribs := vao.attribs.put index ⟨g.arrayBuffer, size, enabled⟩ } }

/-- `glEnableVertexAttribArray(index)`. -/
def glEnableVertexAttribArray (g : Context K) (index : Nat) : Context K :=
  let vao := currentVertexArray g
  let a := (vao.attribs.get index).getD ⟨0, 4, false⟩
  { g with
    vertexArrays :=
      g.vertexArrays.put g.vertexArray
        { vao with attribs := vao.attribs.put index { a with enabled := true } } }

/-- `glActiveTexture(GL_TEXTURE0 + unit)`. -/
def glActiveTexture (g : Context K) (unit : Nat) : Context K :=
  { g with activeTexture := unit }

/-- The texture bound to `GL_TEXTURE_2D` on the active unit. -/
def currentTexture2D (g : Context K) : Nat :=
  (g.texture2D.get g.activeTexture).getD 0

/-- `glBindTexture(GL_TEXTURE_2D, name)`: a name bound for the first time gets
a texture object without image; name 0 is the default texture. -/
def glBindTexture (g : Context K) (name : Nat) : Context K :=
  { g with
    textures := g.textures.ensure name ⟨none, false⟩
    texture2D := g.texture2D.put g.activeTexture name }

/-- `glTexImage2D(GL_TEXTURE_2D, 0, internalformat, width, height, ...)`: the
level-0 image of the texture bound on the active unit is specified anew. -/
def glTexImage2D (g : Context K) (internalformat : InternalFormat) (width height : Int) :
    Context K :=
  let t := (g.textures.get (currentTexture2D g)).getD ⟨none, false⟩
  { g with
    textures :=
      g.textures.put (currentTexture2D g)
        { t with image := some ⟨internalformat, width, height⟩ } }

/-- `glGenerateMipmap(GL_TEXTURE_2D)`. -/
def glGenerateMipmap (g : Context K) : Context K :=
  let t := (g.textures.get (currentTexture2D g)).getD ⟨none, false⟩
  { g with textures := g.textures.put (currentTexture2D g) { t with mipmap := true } }

/-- `glBindFramebuffer(GL_FRAMEBUFFER, name)`: a name bound for the first time
gets a framebuffer object without attachments; name 0 is the window. -/
def glBindFramebuffer (g : Context K) (name : Nat) : Context K :=
  { g with
    framebuffers :=
      if name = 0 then g.framebuffers else g.framebuffers.ensure name ⟨0, 0⟩
    framebuffer := name }

/-- `glFramebufferTexture2D(GL_FRAMEBUFFER, GL_COLOR_ATTACHMENT0, GL_TEXTURE_2D,
texture, 0)`; an error without effect while framebuffer 0 is bound. -/
def glFramebufferColor0 (g : Context K) (texture : Nat) : Context K :=
  { g with
    framebuffers :=
      match g.framebuffers.get g.framebuffer with
      | some f => g.framebuffers.put g.framebuffer { f with color0 := texture }
      | none => g.framebuffers }

/-- `glFramebufferTexture2D(GL_FRAMEBUFFER, GL_DEPTH_STENCIL_ATTACHMENT,
GL_TEXTURE_2D, texture, 0)`. -/
def glFramebufferDepthStencil (g : Context K) (texture : Nat) : Context K :=
  { g with
    framebuffers :=
      match g.framebuffers.get g.framebuffer with
      | some f => g.framebuffers.put g.framebuffer { f with depthStencil := texture }
      | none => g.framebuffers }

/-- `glDeleteFramebuffers(1, &name)`: the framebuffer object goes, and only it:
the textures attached to it are objects of their own and stay; if the
framebuffer was bound, the binding reverts to 0. -/
def glDeleteFramebuffers (g : Context K) (name : Nat) : Context K :=
  { g with
    framebuffers := g.framebuffers.del name
    framebuffer := if g.framebuffer = name then 0 else g.framebuffer }

/-- `glViewport`. -/
def glViewport (g : Context K) (x y width height : Int) : Context K :=
  { g with viewport := (x, y, width, height) }

/-- `glClearColor`. -/
def glClearColor (g : Context K) (red green blue alpha : K) : Context K :=
  { g with clearColor := ![red, green, blue, alpha] }

/-- `glEnable`. -/
def glEnable (g : Context K) (cap : Capability) : Context K :=
  { g with enabled := cap :: g.enabled.filter fun c => decide (c ≠ cap) }

/-- `glUseProgram`. -/
def glUseProgram (g : Context K) (program : Nat) : Context K :=
  { g with program := program }

/-- `glUniform*(location, ...)`: the uniform of the program in use. -/
def glUniform (g : Context K) (location : Nat) (v : UniformValue K) : Context K :=
  { g with uniforms := g.uniforms.put (g.program, location) v }

/-- `glCreateShader(type)`. -/
def glCreateShader (g : Context K) (type : ShaderType) : Nat × Context K :=
  (g.lastShader + 1,
    { g with
      lastShader := g.lastShader + 1
      shaders := g.shaders.put (g.lastShader + 1) ⟨type, none, false, "", false⟩ })

/-- `glShaderSource(shader, 1, &source, nullptr)`. -/
def glShaderSource (g : Context K) (shader : Nat) (source : ShaderSource) : Context K :=
  { g with
    shaders :=
      match g.shaders.get shader with
      | some sh => g.shaders.put shader { sh with source := some source }
      | none => g.shaders }

/-- The shader object after `glCompileShader`: status and info log are the
driver's. -/
def compiled (D : Driver) (sh : Shader) : Shader :=
  match sh.source with
  | some src => { sh with compileStatus := (D.compile sh.type src).1
                          infoLog := (D.compile sh.type src).2 }
  | none => sh

/-- `glCompileShader(shader)`. -/
def glCompileShader (D : Driver) (g : Context K) (shader : Nat) : Context K :=
  { g with
    shaders :=
      match g.shaders.get shader with
      | some sh => g.shaders.put shader (compiled D sh)
      | none => g.shaders }

/-- `glGetShaderiv(shader, GL_COMPILE_STATUS, &success)`. -/
def glGetShaderiv (g : Context K) (shader : Nat) : Bool :=
  ((g.shaders.get shader).map Shader.compileStatus).getD false

/-- `glGetShaderInfoLog(shader, maxLength, NULL, infolog)`: at most
`maxLength - 1` characters of the info log, then the terminator. -/
def glGetShaderInfoLog (g : Context K) (shader maxLength : Nat) : String :=
  (((g.shaders.get shader).map Shader.infoLog).getD "").take (maxLength - 1)

/-- `glCreateProgram()`; shader and program names share one name space. -/
def glCreateProgram (g : Context K) : Nat × Context K :=
  (g.lastShader + 1,
    { g with
      lastShader := g.lastShader + 1
      programs := g.programs.put (g.lastShader + 1) ⟨[], [], false, ""⟩ })

/-- `glAttachShader(program, shader)`. -/
def glAttachShader (g : Context K) (program shader : Nat) : Context K :=
  { g with
    programs :=
      match g.programs.get program with
      | some p => g.programs.put program { p with attached := p.attached ++ [shader] }
      | none => g.programs }

/-- The program object after `glLinkProgram`: status and info log are the
driver's, from the shaders attached. -/
def linked (D : Driver) (shaders : Objects Shader) (p : Program) : Program :=
  let stages := p.attached.filterMap fun n =>
    (shaders.get n).map fun sh => (sh.type, sh.source, sh.compileStatus)
  { p with stages := stages, linkStatus := (D.link stages).1, infoLog := (D.link stages).2 }

/-- `glLinkProgram(program)`. -/
def glLinkProgram (D : Driver) (g : Context K) (program : Nat) : Context K :=
  { g with
    programs :=
      match g.programs.get program with
      | some p => g.programs.put program (linked D g.shaders p)
      | none => g.programs }

/-- `glDeleteShader(shader)`: a shader attached to a program is flagged for
deletion and lives on until detached. -/
def glDeleteShader (g : Context K) (shader : Nat) : Context K :=
  { g with
    shaders :=
      if g.programs.any fun p => decide (shader ∈ p.2.attached) then
        match g.shaders.get shader with
        | some sh => g.shaders.put shader { sh with deleteStatus := true }
        | none => g.shaders
      else g.shaders.del shader }

attribute [simp] glGenBuffers glGenTextures glGenFramebuffers glGenVertexArrays ensureBuffer
  glBindArrayBuffer glBindUniformBuffer currentVertexArray glBindElementArrayBuffer bufferData
  glArrayBufferData glUniformBufferData glElementArrayBufferData glBindBufferBase
  glBindVertexArray glVertexAttribPointer glEnableVertexAttribArray glActiveTexture
  currentTexture2D glBindTexture glTexImage2D glGenerateMipmap glBindFramebuffer
  glFramebufferColor0 glFramebufferDepthStencil glDeleteFramebuffers glViewport glClearColor
  glEnable glUseProgram glUniform glCreateShader glShaderSource glCompileShader glGetShaderiv
  glGetShaderInfoLog glCreateProgram glAttachShader glLinkProgram glDeleteShader

end Gl

/-! ## `OglRenderer` -/

/-- Constants of `glfw3.h`. -/
def GLFW_MOUSE_BUTTON_LEFT : Int := 0
def GLFW_PRESS : Int := 1
def GLFW_RELEASE : Int := 0

/-- The members of `class OglRenderer` that the program reads or writes
(`window` and `mWorldXform` are never read), with the OpenGL context current on
its thread, the rendering commands issued so far (each with the context state
it was issued in, oldest first), and the lines written to `std::cout`. -/
structure OglRenderer (K : Type) where
  mViewportSize : Int × Int
  mViewportDirty : Bool
  mPrg0ID : Nat
  mPrg1ID : Nat
  mViewMatrixUniformIdx : Nat
  mLightUniformIdx : Nat
  mvao : Nat
  mVtxBuffer : Nat
  mTexCoordBuffer : Nat
  mNormBuffer : Nat
  mTangBuffer : Nat
  mDiffuseTexID : Nat
  mNormalMapTexID : Nat
  mNumElements : Int
  mViewMat : ViewMatrix K
  mLightInfo : LightInfo K
  mSettings : Nat
  mPrevMouseLocation : K × K
  mLeftMouseButtonPressed : Bool
  mFBO : Nat
  gl : Context K
  commands : List (Command × Context K)
  cout : List String

section Renderer

variable {K : Type} [Field K]

/-- The value `~0` of a `GLuint`. -/
def allOnes : Nat := 4294967295

/-- `OglRenderer::OglRenderer()` with the default member initialisers; the
members without one (`mViewMat`, `mLightInfo`, `mPrevMouseLocation`) are given
zeros here, and the context is the one `init` makes current. -/
def OglRenderer.construct (gl : Context K) : OglRenderer K where
  mViewportSize := (800, 600)
  mViewportDirty := true
  mPrg0ID := allOnes
  mPrg1ID := allOnes
  mViewMatrixUniformIdx := allOnes
  mLightUniformIdx := allOnes
  mvao := allOnes
  mVtxBuffer := allOnes
  mTexCoordBuffer := allOnes
  mNormBuffer := allOnes
  mTangBuffer := allOnes
  mDiffuseTexID := allOnes
  mNormalMapTexID := allOnes
  mNumElements := 0
  mViewMat := ⟨0, 0, 0⟩
  mLightInfo := ⟨0, 0, 0, 0⟩
  mSettings := ALL_OFF
  mPrevMouseLocation := (0, 0)
  mLeftMouseButtonPressed := false
  mFBO := allOnes
  gl := gl
  commands := []
  cout := []

/-- The member functions of `OglRenderer` are state transformers; a result
is the value of a local. -/
abbrev Act (K : Type) (α : Type) := StateM (OglRenderer K) α

/-- The state an action ends in. -/
def exec {α : Type} (a : Act K α) (s : OglRenderer K) : OglRenderer K := (a.run s).2

/-- An assignment to members. -/
def assign (f : OglRenderer K → OglRenderer K) : Act K Unit := modify f

/-- A call of an OpenGL function that only changes context state; its
arguments may read members. -/
def call (f : OglRenderer K → Context K → Context K) : Act K Unit :=
  modify fun s => { s with gl := f s s.gl }

/-- A call of an OpenGL function that changes context state and returns a name. -/
def gen (f : Context K → Nat × Context K) : Act K Nat :=
  modifyGet fun s => ((f s.gl).1, { s with gl := (f s.gl).2 })

/-- A rendering command, recorded with the context state it runs in. -/
def issue (c : Command) : Act K Unit :=
  modify fun s => { s with commands := s.commands ++ [(c, s.gl)] }

/-- `std::cout << line << std::endl`. -/
def print (line : String) : Act K Unit :=
  modify fun s => { s with cout := s.cout ++ [line] }

/-- `glClear(GL_COLOR_BUFFER_BIT | GL_DEPTH_BUFFER_BIT | GL_STENCIL_BUFFER_BIT)`. -/
def glClear : Act K Unit := issue (Command.clear true true true)

/-- `glDrawElements(GL_TRIANGLES, count, GL_UNSIGNED_INT, 0)`. -/
def glDrawElements (count : Int) : Act K Unit := issue (Command.drawElements count)

/-- `glBlitNamedFramebuffer(read, draw, srcX0, srcY0, srcX1, srcY1, dstX0, dstY0,
dstX1, dstY1, color | depth | stencil, GL_NEAREST)`. -/
def glBlitNamedFramebuffer (readFramebuffer drawFramebuffer : Nat)
    (src dst : Int × Int × Int × Int) : Act K Unit :=
  issue (Command.blitNamedFramebuffer readFramebuffer drawFramebuffer src dst)

/-- `OglRenderer::resizeCallback`. -/
def resizeCallback (width height : Int) : Act K Unit := do
  assign fun s => { s with mViewportSize := (width, s.mViewportSize.2) }
  assign fun s => { s with mViewportSize := (s.mViewportSize.1, height) }
  assign fun s => { s with mViewportDirty := true }

/-- `OglRenderer::handleMouseMove`: the rotation built while the button is
down is a temporary that nothing receives. -/
def handleMouseMove (L : Libm K) (xpos ypos : K) : Act K Unit := do
  if (← get).mLeftMouseButtonPressed then
    let _temporary : Mat4 K :=
      rotate L 1 ((xpos - (← get).mPrevMouseLocation.1) * (1 / 10)) ![0, 0, 1]
    pure ()
  assign fun s => { s with mPrevMouseLocation := (xpos, s.mPrevMouseLocation.2) }
  assign fun s => { s with mPrevMouseLocation := (s.mPrevMouseLocation.1, ypos) }

/-- `OglRenderer::handleMouseButton`. -/
def handleMouseButton (button action _mods : Int) : Act K Unit := do
  if button = GLFW_MOUSE_BUTTON_LEFT then
    if action = GLFW_PRESS then
      assign fun s => { s with mLeftMouseButtonPressed := true }
    else if action = GLFW_RELEASE then
      assign fun s => { s with mLeftMouseButtonPressed := false }

/-- The block `if (!success) { char infolog[512]; glGetShaderInfoLog(shader,
512, NULL, infolog); std::cout << infolog << std::endl; }` that follows each of
the three compilations in `mSetupGLSLProgram`. -/
def mSetupGLSLProgram_infolog (success : Bool) (shader : Nat) : Act K Unit := do
  if !success then
    let infolog := glGetShaderInfoLog (← get).gl shader 512
    print infolog

/-- `OglRenderer::mSetupGLSLProgram`. -/
def mSetupGLSLProgram (D : Driver) : Act K Unit := do
  let vtx_plain_id ← gen fun g => glCreateShader g ShaderType.GL_VERTEX_SHADER
  call fun _ g => glShaderSource g vtx_plain_id ShaderSource.vtx_plain
  call fun _ g => glCompileShader D g vtx_plain_id
  let success := glGetShaderiv (← get).gl vtx_plain_id
  mSetupGLSLProgram_infolog success vtx_plain_id
  let frag_mono_color_id ← gen fun g => glCreateShader g ShaderType.GL_FRAGMENT_SHADER
  call fun _ g => glShaderSource g frag_mono_color_id ShaderSource.frag_mono_color
  call fun _ g => glCompileShader D g frag_mono_color_id
  let success := glGetShaderiv (← get).gl frag_mono_color_id
  mSetupGLSLProgram_infolog success frag_mono_color_id
  let frag_tex_id ← gen fun g => glCreateShader g ShaderType.GL_FRAGMENT_SHADER
  call fun _ g => glShaderSource g frag_tex_id ShaderSource.frag_tex
  call fun _ g => glCompileShader D g frag_tex_id
  let success := glGetShaderiv (← get).gl frag_tex_id
  mSetupGLSLProgram_infolog success frag_tex_id
  let name ← gen glCreateProgram
  assign fun s => { s with mPrg0ID := name }
  call fun s g => glAttachShader g s.mPrg0ID vtx_plain_id
  call fun s g => glAttachShader g s.mPrg0ID frag_mono_color_id
  call fun s g => glLinkProgram D g s.mPrg0ID
  let name ← gen glCreateProgram
  assign fun s => { s with mPrg1ID := name }
  call fun s g => glAttachShader g s.mPrg1ID vtx_plain_id
  call fun s g => glAttachShader g s.mPrg1ID frag_tex_id
  call fun s g => glLinkProgram D g s.mPrg1ID
  call fun _ g => glDeleteShader g vtx_plain_id
  call fun _ g => glDeleteShader g frag_mono_color_id
  call fun _ g => glDeleteShader g frag_tex_id

/-- The vector `vtx` of `mSetupBuffers`. -/
def vtx : List (Vec3 K) :=
  [![-(1 / 2), 1 / 2, 0], ![1 / 2, 1 / 2, 0], ![1 / 2, -(1 / 2), 0], ![-(1 / 2), -(1 / 2), 0]]

/-- The vector `idx` of `mSetupBuffers`. -/
def idx : List Nat := [0, 3, 2, 0, 2, 1]

/-- The vector `texCoord` of `mSetupBuffers`. -/
def texCoord : List (Vec2 K) := [![0, 1], ![1, 1], ![1, 0], ![0, 0]]

/-- The vector `norm` of `mSetupBuffers`. -/
def norm : List (Vec3 K) := [![0, 0, 1], ![0, 0, 1], ![0, 0, 1], ![0, 0, 1]]

/-- The vector `tang` of `mSetupBuffers`. -/
def tang : List (Vec3 K) := [![1, 0, 0], ![1, 0, 0], ![1, 0, 0], ![1, 0, 0]]

/-- `OglRenderer::mSetupBuffers`. -/
def mSetupBuffers : Act K Unit := do
  assign fun s => { s with mNumElements := ((idx.length : Nat) : Int) }
  let name ← gen glGenVertexArrays
  assign fun s => { s with mvao := name }
  call fun s g => glBindVertexArray g s.mvao
  let name ← gen glGenBuffers
  assign fun s => { s with mVtxBuffer := name }
  call fun s g => glBindArrayBuffer g s.mVtxBuffer
  call fun _ g => glArrayBufferData g (BufferData.vec3s vtx)
  call fun _ g => glVertexAttribPointer g 0 3
  call fun _ g => glEnableVertexAttribArray g 0
  let name ← gen glGenBuffers
  assign fun s => { s with mTexCoordBuffer := name }
  call fun s g => glBindArrayBuffer g s.mTexCoordBuffer
  call fun _ g => glArrayBufferData g (BufferData.vec2s texCoord)
  call fun _ g => glVertexAttribPointer g 1 2
  call fun _ g => glEnableVertexAttribArray g 1
  let name ← gen glGenBuffers
  assign fun s => { s with mNormBuffer := name }
  call fun s g => glBindArrayBuffer g s.mNormBuffer
  call fun _ g => glArrayBufferData g (BufferData.vec3s OglPractice.norm)
  call fun _ g => glVertexAttribPointer g 2 3
  call fun _ g => glEnableVertexAttribArray g 2
  let name ← gen glGenBuffers
  assign fun s => { s with mTangBuffer := name }
  call fun s g => glBindArrayBuffer g s.mTangBuffer
  call fun _ g => glArrayBufferData g (BufferData.vec3s tang)
  call fun _ g => glVertexAttribPointer g 3 3
  call fun _ g => glEnableVertexAttribArray g 3
  let ebo ← gen glGenBuffers
  call fun _ g => glBindElementArrayBuffer g ebo
  call fun _ g => glElementArrayBufferData g (BufferData.uints idx)

/-- `OglRenderer::mLoadTextures`: `stbi_load` fills `width` and `height` when
it succeeds and leaves them as they were when it fails. -/
def mLoadTextures (D : Driver) : Act K Unit := do
  let mut size : Int × Int := D.indeterminate
  size := (D.stbi_load "textures/green_grass.jpg").getD size
  let name ← gen glGenTextures
  assign fun s => { s with mDiffuseTexID := name }
  call fun s g => glBindTexture g s.mDiffuseTexID
  call fun _ g => glTexImage2D g InternalFormat.GL_RGB size.1 size.2
  call fun _ g => glGenerateMipmap g
  size := (0, 0)
  size := (D.stbi_load "textures/green_grass_normalmap.png").getD size
  let name ← gen glGenTextures
  assign fun s => { s with mNormalMapTexID := name }
  call fun s g => glBindTexture g s.mNormalMapTexID
  call fun _ g => glTexImage2D g InternalFormat.GL_RGB size.1 size.2

/-- `OglRenderer::mSetupRenderTarget`. -/
def mSetupRenderTarget : Act K Unit := do
  let name ← gen glGenFramebuffers
  assign fun s => { s with mFBO := name }
  call fun s g => glBindFramebuffer g s.mFBO
  let colorTexID ← gen glGenTextures
  call fun _ g => glBindTexture g colorTexID
  call fun s g => glTexImage2D g InternalFormat.GL_RGBA s.mViewportSize.1 s.mViewportSize.2
  call fun _ g => glFramebufferColor0 g colorTexID
  let depthTexID ← gen glGenTextures
  call fun _ g => glBindTexture g depthTexID
  call fun s g =>
    glTexImage2D g InternalFormat.GL_DEPTH24_STENCIL8 s.mViewportSize.1 s.mViewportSize.2
  call fun _ g => glFramebufferDepthStencil g depthTexID

/-- The expression `glm::perspective(glm::radians(30.f),
(float)mViewportSize.x / mViewportSize.y, 0.001f, 1000.f)` of `mGlInit` and
`mGlDraw`: the cast makes the quotient a division of floats. -/
def projectionFor (L : Libm K) (mViewportSize : Int × Int) : Mat4 K :=
  perspective L (radians 30) ((mViewportSize.1 : K) / (mViewportSize.2 : K)) (1 / 1000) 1000

/-- The statements of `mGlInit` that fill `mViewMat` and upload it. -/
def mGlInit_viewMatrix (L : Libm K) : Act K Unit := do
  assign fun s => { s with mViewMat :=
    { s.mViewMat with view := lookAt L ![0, 2, 5] ![0, 0, 0] ![0, 1, 0] } }
  assign fun s => { s with mViewMat :=
    { s.mViewMat with projection := projectionFor L s.mViewportSize } }
  assign fun s => { s with mViewMat :=
    { s.mViewMat with viewprojection := s.mViewMat.projection * s.mViewMat.view } }
  let name ← gen glGenBuffers
  assign fun s => { s with mViewMatrixUniformIdx := name }
  call fun s g => glBindUniformBuffer g s.mViewMatrixUniformIdx
  call fun s g => glUniformBufferData g (BufferData.viewMatrix s.mViewMat)

/-- The statements of `mGlInit` that fill `mLightInfo` and upload it. -/
def mGlInit_light : Act K Unit := do
  assign fun s => { s with mLightInfo := { s.mLightInfo with La := vec4 1 } }
  assign fun s => { s with mLightInfo := { s.mLightInfo with Ld := vec4 1 } }
  assign fun s => { s with mLightInfo := { s.mLightInfo with Ls := vec4 1 } }
  assign fun s => { s with mLightInfo := { s.mLightInfo with lightDir := ![0, 0, 5, 1] } }
  let name ← gen glGenBuffers
  assign fun s => { s with mLightUniformIdx := name }
  call fun s g => glBindUniformBuffer g s.mLightUniformIdx
  call fun s g => glUniformBufferData g (BufferData.lightInfo s.mLightInfo)

/-- `OglRenderer::mGlInit`, block by block (the debug-output calls only
register `mDebugCallback`). -/
def mGlInit (D : Driver) (L : Libm K) : Act K Unit := do
  call fun _ g => glEnable g Capability.GL_DEBUG_OUTPUT
  mSetupGLSLProgram D
  mSetupBuffers
  mGlInit_viewMatrix L
  mSetupRenderTarget
  assign fun s => { s with mViewportDirty := false }
  mGlInit_light
  mLoadTextures D

/-- `OglRenderer::init`: the window and its context are created at the size
the constructor stored, then `mGlInit` runs. -/
def init (D : Driver) (L : Libm K) : OglRenderer K :=
  exec (mGlInit D L) (OglRenderer.construct (Context.fresh 800 600))

/-- The block `if (mViewportDirty == true)` of `mGlDraw`. -/
def mGlDraw_viewportDirty (L : Libm K) : Act K Unit := do
  assign fun s => { s with mViewMat :=
    { s.mViewMat with projection := projectionFor L s.mViewportSize } }
  assign fun s => { s with mViewMat :=
    { s.mViewMat with viewprojection := s.mViewMat.projection * s.mViewMat.view } }
  call fun s g => glBindUniformBuffer g s.mViewMatrixUniformIdx
  call fun s g => glUniformBufferData g (BufferData.viewMatrix s.mViewMat)
  call fun s g => glDeleteFramebuffers g s.mFBO
  mSetupRenderTarget
  assign fun s => { s with mViewportDirty := false }

/-- The statements of `mGlDraw` from `glBindFramebuffer` up to
`mSettings |= LIGHT_ON`. -/
def mGlDraw_begin : Act K Unit := do
  call fun s g => glBindFramebuffer g s.mFBO
  call fun s g => glViewport g 0 0 s.mViewportSize.1 s.mViewportSize.2
  glClear
  call fun _ g => glClearColor g 0 0 0 1
  call fun _ g => glEnable g Capability.GL_DEPTH_TEST
  call fun _ g => glEnable g Capability.GL_CULL_FACE
  call fun _ g => glEnable g Capability.GL_MULTISAMPLE
  call fun s g => glUseProgram g s.mPrg0ID
  call fun s g => glBindBufferBase g 0 s.mViewMatrixUniformIdx
  call fun s g => glBindBufferBase g 1 s.mLightUniformIdx
  assign fun s => { s with mSettings := s.mSettings ||| LIGHT_ON }

/-- The block `// Front wall` of `mGlDraw`. -/
def mGlDraw_frontWall (Ka Kd Ks : Vec3 K) (shininess : K) : Act K Unit := do
  let xform : Mat4 K := translate 1 ![0, 1 / 2, 1 / 2]
  call fun _ g => glUniform g 0 (UniformValue.fmat4 xform)
  let color : Vec4 K := ![1 / 2, 1 / 2, 1 / 10, 1]
  call fun _ g => glUniform g 1 (UniformValue.fvec4 color)
  call fun s g => glUniform g 2 (UniformValue.int s.mSettings)
  call fun _ g => glUniform g 3 (UniformValue.fvec3 Ka)
  call fun _ g => glUniform g 4 (UniformValue.fvec3 Kd)
  call fun _ g => glUniform g 5 (UniformValue.fvec3 Ks)
  call fun _ g => glUniform g 6 (UniformValue.float shininess)
  let normalMatrix := OglPractice.normalMatrix (← get).mViewMat.view xform
  call fun _ g => glUniform g 7 (UniformValue.fmat3 normalMatrix)
  call fun s g => glBindVertexArray g s.mvao
  glDrawElements (← get).mNumElements

/-- The block `// right wall` of `mGlDraw`. -/
def mGlDraw_rightWall (L : Libm K) (Ka Kd Ks : Vec3 K) (shininess : K) : Act K Unit := do
  let mut xform : Mat4 K := rotate L 1 (radians 90) ![0, 1, 0]
  xform := translate 1 ![1 / 2, 1 / 2, 0] * xform
  call fun _ g => glUniform g 0 (UniformValue.fmat4 xform)
  let color : Vec4 K := ![0, 0, 1, 1]
  call fun _ g => glUniform g 1 (UniformValue.fvec4 color)
  call fun s g => glUniform g 2 (UniformValue.int s.mSettings)
  call fun _ g => glUniform g 3 (UniformValue.fvec3 Ka)
  call fun _ g => glUniform g 4 (UniformValue.fvec3 Kd)
  call fun _ g => glUniform g 5 (UniformValue.fvec3 Ks)
  call fun _ g => glUniform g 6 (UniformValue.float shininess)
  let normalMatrix := OglPractice.normalMatrix (← get).mViewMat.view xform
  call fun _ g => glUniform g 7 (UniformValue.fmat3 normalMatrix)
  glDrawElements (← get).mNumElements

/-- The block `// left wall` of `mGlDraw`. -/
def mGlDraw_leftWall (L : Libm K) (Ka Kd Ks : Vec3 K) (shininess : K) : Act K Unit := do
  let mut xform : Mat4 K := rotate L 1 (radians (-90)) ![0, 1, 0]
  xform := translate 1 ![-(1 / 2), 1 / 2, 0] * xform
  call fun _ g => glUniform g 0 (UniformValue.fmat4 xform)
  let color : Vec4 K := ![1, 0, 0, 1]
  call fun _ g => glUniform g 1 (UniformValue.fvec4 color)
  call fun s g => glUniform g 2 (UniformValue.int s.mSettings)
  call fun _ g => glUniform g 3 (UniformValue.fvec3 Ka)
  call fun _ g => glUniform g 4 (UniformValue.fvec3 Kd)
  call fun _ g => glUniform g 5 (UniformValue.fvec3 Ks)
  call fun _ g => glUniform g 6 (UniformValue.float shininess)
  let normalMatrix := OglPractice.normalMatrix (← get).mViewMat.view xform
  call fun _ g => glUniform g 7 (UniformValue.fmat3 normalMatrix)
  glDrawElements (← get).mNumElements

/-- The block `// back wall` of `mGlDraw`. -/
def mGlDraw_backWall (L : Libm K) (Ka Kd Ks : Vec3 K) (shininess : K) : Act K Unit := do
  let mut xform : Mat4 K := rotate L 1 (radians 180) ![0, 1, 0]
  xform := translate 1 ![0, 1 / 2, -(1 / 2)] * xform
  call fun _ g => glUniform g 0 (UniformValue.fmat4 xform)
  let color : Vec4 K := ![0, 1, 0, 1]
  call fun _ g => glUniform g 1 (UniformValue.fvec4 color)
  call fun s g => glUniform g 2 (UniformValue.int s.mSettings)
  call fun _ g => glUniform g 3 (UniformValue.fvec3 Ka)
  call fun _ g => glUniform g 4 (UniformValue.fvec3 Kd)
  call fun _ g => glUniform g 5 (UniformValue.fvec3 Ks)
  call fun _ g => glUniform g 6 (UniformValue.float shininess)
  let normalMatrix := OglPractice.normalMatrix (← get).mViewMat.view xform
  call fun _ g => glUniform g 7 (UniformValue.fmat3 normalMatrix)
  glDrawElements (← get).mNumElements

/-- The block `// Floor` of `mGlDraw`. -/
def mGlDraw_floor (L : Libm K) (Ka Kd Ks : Vec3 K) (shininess : K) : Act K Unit := do
  let mut xform : Mat4 K := rotate L 1 (radians (-90)) ![1, 0, 0]
  xform := xform * scale 1 ![3, 3, 1]
  call fun _ g => glUniform g 0 (UniformValue.fmat4 xform)
  call fun s g => glUniform g 2 (UniformValue.int (s.mSettings ||| BUMP_ON))
  call fun _ g => glUniform g 3 (UniformValue.fvec3 Ka)
  call fun _ g => glUniform g 4 (UniformValue.fvec3 Kd)
  call fun _ g => glUniform g 5 (UniformValue.fvec3 Ks)
  call fun _ g => glUniform g 6 (UniformValue.float shininess)
  call fun _ g => glActiveTexture g 0
  call fun s g => glBindTexture g s.mDiffuseTexID
  call fun _ g => glActiveTexture g 1
  call fun s g => glBindTexture g s.mNormalMapTexID
  let normalMatrix := OglPractice.normalMatrix (← get).mViewMat.view xform
  call fun _ g => glUniform g 7 (UniformValue.fmat3 normalMatrix)
  glDrawElements (← get).mNumElements

/-- The closing statements of `mGlDraw`. -/
def mGlDraw_end : Act K Unit := do
  call fun _ g => glBindVertexArray g 0
  call fun _ g => glBindFramebuffer g 0
  let s ← get
  glBlitNamedFramebuffer s.mFBO 0 (0, 0, s.mViewportSize.1, s.mViewportSize.2)
    (0, 0, s.mViewportSize.1, s.mViewportSize.2)

/-- `OglRenderer::mGlDraw`, block by block; the locals `Ka`, `Kd`, `Ks` and
`shininess` pass from one block to the next. -/
def mGlDraw (L : Libm K) : Act K Unit := do
  if (← get).mViewportDirty = true then
    mGlDraw_viewportDirty L
  mGlDraw_begin
  let mut Ka : Vec3 K := vec3 1
  let mut Kd : Vec3 K := vec3 1
  let mut Ks : Vec3 K := vec3 1
  let shininess : K := 120
  Ka := vec3 (8 / 10)
  Kd := vec3 (8 / 10)
  Ks := vec3 1
  mGlDraw_frontWall Ka Kd Ks shininess
  Ka := vec3 1
  Kd := vec3 1
  Ks := vec3 1
  mGlDraw_rightWall L Ka Kd Ks shininess
  mGlDraw_leftWall L Ka Kd Ks shininess
  mGlDraw_backWall L Ka Kd Ks shininess
  call fun s g => glUseProgram g s.mPrg1ID
  Ka := vec3 (4 / 10)
  Kd := vec3 0
  Ks := vec3 1
  mGlDraw_floor L Ka Kd Ks shininess
  mGlDraw_end

/-- What reaches the renderer between `init` and `cleanup`: the callbacks of
the window system and the frames of `run`. -/
inductive Event (K : Type) where
  | resize (width height : Int)
  | mouseMove (xpos ypos : K)
  | mouseButton (button action mods : Int)
  | draw

/-- The member function an event invokes. -/
def Event.act (L : Libm K) : Event K → Act K Unit
  | Event.resize width height => resizeCallback width height
  | Event.mouseMove xpos ypos => handleMouseMove L xpos ypos
  | Event.mouseButton button action mods => handleMouseButton button action mods
  | Event.draw => mGlDraw L

/-- The state after an event. -/
def step (L : Libm K) (s : OglRenderer K) (e : Event K) : OglRenderer K :=
  exec (e.act L) s

/-- The state after a sequence of events, first event first. -/
def run (L : Libm K) (s : OglRenderer K) (es : List (Event K)) : OglRenderer K :=
  es.foldl (step L) s

end Renderer

/-! ## Vocabulary of the properties -/

section Vocabulary

variable {K : Type} [Field K]

/-- The weakest precondition of an action for a postcondition on its result
and final state. -/
def wp {α : Type} (a : Act K α) (Q : α → OglRenderer K → Prop) (s : OglRenderer K) : Prop :=
  Q (a.run s).1 (a.run s).2

/-- The indexed draw calls among rendering commands, in order: for each, the
program in use when it was issued and its index count. -/
def drawCalls (cs : List (Command × Context K)) : List (Nat × Int) :=
  cs.filterMap fun c =>
    match c.1 with
    | Command.drawElements count => some (c.2.program, count)
    | _ => none

/-- The members and outputs that no block of `mGlDraw` assigns. -/
structure Frame (s t : OglRenderer K) : Prop where
  mViewportSize : t.mViewportSize = s.mViewportSize
  mPrg0ID : t.mPrg0ID = s.mPrg0ID
  mPrg1ID : t.mPrg1ID = s.mPrg1ID
  mViewMatrixUniformIdx : t.mViewMatrixUniformIdx = s.mViewMatrixUniformIdx
  mLightUniformIdx : t.mLightUniformIdx = s.mLightUniformIdx
  mvao : t.mvao = s.mvao
  mVtxBuffer : t.mVtxBuffer = s.mVtxBuffer
  mTexCoordBuffer : t.mTexCoordBuffer = s.mTexCoordBuffer
  mNormBuffer : t.mNormBuffer = s.mNormBuffer
  mTangBuffer : t.mTangBuffer = s.mTangBuffer
  mDiffuseTexID : t.mDiffuseTexID = s.mDiffuseTexID
  mNormalMapTexID : t.mNormalMapTexID = s.mNormalMapTexID
  mNumElements : t.mNumElements = s.mNumElements
  view : t.mViewMat.view = s.mViewMat.view
  mLightInfo : t.mLightInfo = s.mLightInfo
  mPrevMouseLocation : t.mPrevMouseLocation = s.mPrevMouseLocation
  mLeftMouseButtonPressed : t.mLeftMouseButtonPressed = s.mLeftMouseButtonPressed
  cout : t.cout = s.cout

/-- The counters and bindings `mGlInit` relies on while it runs from a fresh
context at 800x600. -/
def Stage (s : OglRenderer K) (nb nt nf nv : Nat) : Prop :=
  s.mViewportSize = (800, 600) ∧ s.commands = [] ∧ s.gl.lastBuffer = nb ∧ s.gl.lastTexture = nt ∧
    s.gl.lastFramebuffer = nf ∧ s.gl.lastVertexArray = nv ∧ s.gl.activeTexture = 0

/-- The stages program `program` was linked from: type and source of each. -/
def stagesOf (pr : Objects Program) (program : Nat) : List (ShaderType × Option ShaderSource) :=
  ((pr.get program).map fun p => p.stages.map fun t => (t.1, t.2.1)).getD []

/-- The two programs: `mPrg0ID` is linked from the vertex stage and the
mono-color fragment stage, `mPrg1ID` from the vertex stage and the textured
fragment stage. -/
def Programs (s : OglRenderer K) : Prop :=
  s.mPrg0ID = 4 ∧ s.mPrg1ID = 5 ∧
    stagesOf s.gl.programs 4 =
      [(ShaderType.GL_VERTEX_SHADER, some ShaderSource.vtx_plain),
        (ShaderType.GL_FRAGMENT_SHADER, some ShaderSource.frag_mono_color)] ∧
    stagesOf s.gl.programs 5 =
      [(ShaderType.GL_VERTEX_SHADER, some ShaderSource.vtx_plain),
        (ShaderType.GL_FRAGMENT_SHADER, some ShaderSource.frag_tex)]

/-- The attribute `index` of vertex array `vao`: the buffer it sources, its
component count and whether it is enabled. -/
def attribOf (va : Objects VertexArray) (vao index : Nat) : Option VertexAttrib :=
  (va.get vao).bind fun v => v.attribs.get index

/-- The buffer bound to `GL_ELEMENT_ARRAY_BUFFER` in vertex array `vao`. -/
def elementBufferOf (va : Objects VertexArray) (vao : Nat) : Option Nat :=
  (va.get vao).map VertexArray.elementArrayBuffer

/-- The level-0 image of texture `name`. -/
def imageOf (tx : Objects Texture) (name : Nat) : Option TexImage :=
  (tx.get name).bind Texture.image

/-- The quad as `mSetupBuffers` leaves it: the names of the vertex array and
of the attribute buffers, and the contents of the five buffers. -/
def Geometry (s : OglRenderer K) : Prop :=
  s.mNumElements = 6 ∧ s.mvao = 1 ∧ s.mVtxBuffer = 1 ∧ s.mTexCoordBuffer = 2 ∧ s.mNormBuffer = 3 ∧
    s.mTangBuffer = 4 ∧
    s.gl.buffers.get 1 = some (BufferData.vec3s vtx) ∧
    s.gl.buffers.get 2 = some (BufferData.vec2s texCoord) ∧
    s.gl.buffers.get 3 = some (BufferData.vec3s OglPractice.norm) ∧
    s.gl.buffers.get 4 = some (BufferData.vec3s tang) ∧
    s.gl.buffers.get 5 = some (BufferData.uints idx) ∧
    attribOf s.gl.vertexArrays 1 0 = some ⟨1, 3, true⟩ ∧
    attribOf s.gl.vertexArrays 1 1 = some ⟨2, 2, true⟩ ∧
    attribOf s.gl.vertexArrays 1 2 = some ⟨3, 3, true⟩ ∧
    attribOf s.gl.vertexArrays 1 3 = some ⟨4, 3, true⟩ ∧
    elementBufferOf s.gl.vertexArrays 1 = some 5

/-- The camera block exists under its name and `mViewMat.view` is the view of
`mGlInit`. -/
def Camera (L : Libm K) (s : OglRenderer K) : Prop :=
  s.mViewMatrixUniformIdx = 6 ∧
    s.mViewMat.view = lookAt L ![0, 2, 5] ![0, 0, 0] ![0, 1, 0] ∧
    ∃ m, s.gl.buffers.get 6 = some (BufferData.viewMatrix m)

/-- The light block as `mGlInit` uploads it. -/
def Light (s : OglRenderer K) : Prop :=
  s.mLightUniformIdx = 7 ∧
    s.mLightInfo = ⟨![0, 0, 5, 1], vec4 1, vec4 1, vec4 1⟩ ∧
    s.gl.buffers.get 7 = some (BufferData.lightInfo s.mLightInfo)

/-- The sizes `mLoadTextures` passes to `glTexImage2D` for the diffuse image
and for the normal map. -/
def imageSizes (D : Driver) : (Int × Int) × (Int × Int) :=
  ((D.stbi_load "textures/green_grass.jpg").getD D.indeterminate,
    (D.stbi_load "textures/green_grass_normalmap.png").getD (0, 0))

/-- The two image textures under their names, which are among the texture
names given out. -/
def Images (D : Driver) (s : OglRenderer K) : Prop :=
  s.mDiffuseTexID = 3 ∧ s.mNormalMapTexID = 4 ∧ 4 ≤ s.gl.lastTexture ∧
    imageOf s.gl.textures 3 =
      some ⟨InternalFormat.GL_RGB, (imageSizes D).1.1, (imageSizes D).1.2⟩ ∧
    imageOf s.gl.textures 4 =
      some ⟨InternalFormat.GL_RGB, (imageSizes D).2.1, (imageSizes D).2.2⟩

/-- What holds of every state from the end of `init` on. -/
def Ready (D : Driver) (L : Libm K) (s : OglRenderer K) : Prop :=
  Programs s ∧ Geometry s ∧ Camera L s ∧ Light s ∧ Images D s

/-- What every block of `mGlDraw` after the block `if (mViewportDirty == true)`
leaves alone: the members but `mSettings`, the name counters, and every buffer,
texture image, framebuffer and vertex array that exists. -/
def Stable (s t : OglRenderer K) : Prop :=
  Frame s t ∧ t.mViewportDirty = s.mViewportDirty ∧ t.mViewMat = s.mViewMat ∧ t.mFBO = s.mFBO ∧
    t.gl.lastTexture = s.gl.lastTexture ∧ t.gl.lastFramebuffer = s.gl.lastFramebuffer ∧
    t.gl.programs = s.gl.programs ∧
    (∀ n, imageOf t.gl.textures n = imageOf s.gl.textures n) ∧
    (∀ v i, attribOf t.gl.vertexArrays v i = attribOf s.gl.vertexArrays v i) ∧
    (∀ v e, elementBufferOf s.gl.vertexArrays v = some e →
      elementBufferOf t.gl.vertexArrays v = some e) ∧
    (∀ k v, s.gl.buffers.get k = some v → t.gl.buffers.get k = some v) ∧
    (∀ k, k ≠ s.mViewMatrixUniformIdx → k ≠ s.mLightUniformIdx →
      t.gl.buffers.get k = s.gl.buffers.get k) ∧
    ∀ k f, s.gl.framebuffers.get k = some f → t.gl.framebuffers.get k = some f

/-- A block of `mGlDraw` that issues one indexed draw call under the program
in use. -/
def Drawn (s t : OglRenderer K) : Prop :=
  Stable s t ∧ t.gl.program = s.gl.program ∧
    drawCalls t.commands = drawCalls s.commands ++ [(s.gl.program, s.mNumElements)]

/-- A block of `mGlDraw` that issues no draw call and leaves `program` in use. -/
def Kept (program : Nat) (s t : OglRenderer K) : Prop :=
  Stable s t ∧ t.gl.program = program ∧ drawCalls t.commands = drawCalls s.commands

/-- What the block `if (mViewportDirty == true)` of `mGlDraw` does to the
members, the counters and the objects that were there, `L` giving the
projection. -/
def Refreshed (L : Libm K) (s t : OglRenderer K) : Prop :=
  Frame s t ∧ t.mViewportDirty = false ∧ t.commands = s.commands ∧ t.mSettings = s.mSettings ∧
    t.mViewMat.projection = projectionFor L s.mViewportSize ∧
    t.mViewMat.viewprojection = t.mViewMat.projection * t.mViewMat.view ∧
    t.mFBO = s.gl.lastFramebuffer + 1 ∧ t.gl.lastFramebuffer = s.gl.lastFramebuffer + 1 ∧
    t.gl.lastTexture = s.gl.lastTexture + 2 ∧ t.gl.program = s.gl.program ∧
    t.gl.programs = s.gl.programs ∧ t.gl.vertexArrays = s.gl.vertexArrays ∧
    (∀ n, n ≤ s.gl.lastTexture → imageOf t.gl.textures n = imageOf s.gl.textures n) ∧
    ∀ k, k ≠ s.mViewMatrixUniformIdx → t.gl.buffers.get k = s.gl.buffers.get k

/-- The render target after the block `if (mViewportDirty == true)` of
`mGlDraw`: a new framebuffer with two new textures of the viewport size; the
old framebuffer is gone, every other one is as it was. -/
def Rebuilt (s t : OglRenderer K) : Prop :=
  t.gl.framebuffers.get t.mFBO = some ⟨s.gl.lastTexture + 1, s.gl.lastTexture + 2⟩ ∧
    imageOf t.gl.textures (s.gl.lastTexture + 1) =
      some ⟨InternalFormat.GL_RGBA, s.mViewportSize.1, s.mViewportSize.2⟩ ∧
    imageOf t.gl.textures (s.gl.lastTexture + 2) =
      some ⟨InternalFormat.GL_DEPTH24_STENCIL8, s.mViewportSize.1, s.mViewportSize.2⟩ ∧
    (t.mFBO ≠ s.mFBO → t.gl.framebuffers.get s.mFBO = none) ∧
    ∀ k, k ≠ s.mFBO → k ≠ t.mFBO → t.gl.framebuffers.get k = s.gl.framebuffers.get k

/-- The images attached to the framebuffer `mFBO`: color, then depth and
stencil. -/
def renderTarget (s : OglRenderer K) : Option (TexImage × TexImage) :=
  (s.gl.framebuffers.get s.mFBO).bind fun f =>
    (imageOf s.gl.textures f.color0).bind fun c =>
      (imageOf s.gl.textures f.depthStencil).map fun d => (c, d)

/-- How many times, along the events `es` from state `s`, the dirty flag goes
from true to false. -/
def dirtyCleared (L : Libm K) : OglRenderer K → List (Event K) → Nat
  | _, [] => 0
  | s, e :: es =>
    (if s.mViewportDirty = true ∧ (step L s e).mViewportDirty = false then 1 else 0) +
      dirtyCleared L (step L s e) es

/-- An orthogonal 3x3 matrix: a rotation, possibly with a reflection, and no
scale. -/
def Orthogonal (m : Mat3 K) : Prop := transpose m * m = 1

/-- In state `t` the program that was in use in state `s` has a model matrix
at location 0 and, at location 7, a normal matrix that is the upper-left 3x3
block of `mViewMat.view` times that model matrix. -/
def NormalIsRotationPart (s t : OglRenderer K) : Prop :=
  ∃ xform : Mat4 K,
    t.gl.uniforms.get (s.gl.program, 0) = some (UniformValue.fmat4 xform) ∧
    t.gl.uniforms.get (s.gl.program, 7) =
      some (UniformValue.fmat3 (mat3 (s.mViewMat.view * xform)))

/-- The framebuffer of `mGlInit` with its two attachments at 800x600. -/
def FirstTarget (s : OglRenderer K) : Prop :=
  s.mFBO = 1 ∧ s.gl.framebuffers.get 1 = some ⟨1, 2⟩ ∧
    imageOf s.gl.textures 1 = some ⟨InternalFormat.GL_RGBA, 800, 600⟩ ∧
    imageOf s.gl.textures 2 = some ⟨InternalFormat.GL_DEPTH24_STENCIL8, 800, 600⟩

/-- The camera block as `mGlInit` uploads it. -/
def FirstCamera (L : Libm K) (s : OglRenderer K) : Prop :=
  s.mViewMat.projection = projectionFor L (800, 600) ∧
    s.mViewMat.viewprojection = s.mViewMat.projection * s.mViewMat.view ∧
    s.gl.buffers.get 6 = some (BufferData.viewMatrix s.mViewMat)

/-- The viewport size and `mViewMat` are the same in both states. -/
def SameView (s t : OglRenderer K) : Prop :=
  t.mViewportSize = s.mViewportSize ∧ t.mViewMat = s.mViewMat

/-- Vertex `i` of the quad: entry `i` of `vtx`. -/
def vertex (i : Nat) : Vec3 K := vtx.getD i 0

/-- The corners of triangle `k` of the index list: the vertices at entries
`3k`, `3k+1`, `3k+2` of `idx`. -/
def triangle (k : Nat) : Vec3 K × Vec3 K × Vec3 K :=
  (vertex (idx.getD (3 * k) 0), vertex (idx.getD (3 * k + 1) 0), vertex (idx.getD (3 * k + 2) 0))

/-- Twice the signed area, in the XY plane, of the triangle `a b c`: positive
when `a`, `b`, `c` run counter-clockwise seen from +Z. -/
def edge (a b c : Vec3 K) : K := (b 0 - a 0) * (c 1 - a 1) - (c 0 - a 0) * (b 1 - a 1)

/-- The face normal of a triangle as its winding gives it:
`cross(b - a, c - a)`. -/
def windingNormal (t : Vec3 K × Vec3 K × Vec3 K) : Vec3 K := cross (t.2.1 - t.1) (t.2.2 - t.1)

/-- What `mSetupGLSLProgram` writes after compiling a stage: nothing if the
stage compiled, else the info log cut to the 511 characters that fit the
buffer. -/
def compileReport (D : Driver) (type : ShaderType) (source : ShaderSource) : List String :=
  if (D.compile type source).1 then [] else [((D.compile type source).2).take 511]

/-- A driver under which every stage compiles and no program links. -/
def Driver.linkFails : Driver where
  compile := fun _ _ => (true, "")
  link := fun _ => (false, "error: link failed")
  stbi_load := fun _ => some (512, 512)
  indeterminate := (0, 0)

/-- A driver for concrete runs: every stage compiles, both programs link,
both images decode to 512x512. -/
def Driver.sample : Driver where
  compile := fun _ _ => (true, "")
  link := fun _ => (true, "")
  stbi_load := fun _ => some (512, 512)
  indeterminate := (0, 0)

/-- Elementary functions over the rationals for concrete runs; their values
meet `cos a ^ 2 + sin a ^ 2 = 1` and `tan a ≠ 0`. -/
def Libm.sample : Libm ℚ where
  cos := fun _ => 3 / 5
  sin := fun _ => 4 / 5
  tan := fun _ => 1 / 4
  inversesqrt := fun _ => 1

/-- What the blocks of `mGlDraw` that follow `mGlDraw_begin` leave as it was in
the context: the indexed uniform-buffer bindings, the viewport and the clear
color. -/
def Bindings (s t : OglRenderer K) : Prop :=
  t.gl.uniformBufferBase = s.gl.uniformBufferBase ∧ t.gl.viewport = s.gl.viewport ∧
    t.gl.clearColor = s.gl.clearColor

/-- A block that issues the one rendering command `c`, as its last call: the
command is recorded with the context the block ends in. -/
def Issued (c : Command) (s t : OglRenderer K) : Prop :=
  t.commands = s.commands ++ [(c, t.gl)]

/-- The camera block, the light block and the render target agree with the
members: the camera block holds the view, the projection for `mViewportSize`
and their product, the light block holds `mLightInfo`, and both attachments of
`mFBO` have the size `mViewportSize`. -/
def Synced (L : Libm K) (s : OglRenderer K) : Prop :=
  s.gl.buffers.get s.mViewMatrixUniformIdx =
      some (BufferData.viewMatrix ⟨s.mViewMat.view, projectionFor L s.mViewportSize,
        projectionFor L s.mViewportSize * s.mViewMat.view⟩) ∧
    s.gl.buffers.get s.mLightUniformIdx = some (BufferData.lightInfo s.mLightInfo) ∧
    renderTarget s =
      some (⟨InternalFormat.GL_RGBA, s.mViewportSize.1, s.mViewportSize.2⟩,
        ⟨InternalFormat.GL_DEPTH24_STENCIL8, s.mViewportSize.1, s.mViewportSize.2⟩)

/-- In the context `g`, uniform slot 0 is bound to the camera block and slot 1
to the light block, and the blocks and the render target agree with the
members of `t`. -/
def Applied (L : Libm K) (t : OglRenderer K) (g : Context K) : Prop :=
  g.uniformBufferBase.get 0 = some t.mViewMatrixUniformIdx ∧
    g.uniformBufferBase.get 1 = some t.mLightUniformIdx ∧ Synced L { t with gl := g }

/-- The event is a frame. -/
def Event.isDraw : Event K → Bool
  | Event.draw => true
  | _ => false

end Vocabulary

section Ordered

variable {K : Type} [LinearOrderedField K]

/-- The laws of exact arithmetic for the elementary functions: cosine and
sine of an angle lie on the unit circle, and `inversesqrt x` squared times `x`
is 1 for positive `x`. -/
def Exact (L : Libm K) : Prop :=
  (∀ a, L.cos a ^ 2 + L.sin a ^ 2 = 1) ∧ ∀ x, 0 < x → L.inversesqrt x ^ 2 * x = 1

/-- The point `p` lies in the triangle `t`, whose corners run
counter-clockwise. -/
def inTriangle (t : Vec3 K × Vec3 K × Vec3 K) (p : Vec3 K) : Prop :=
  0 ≤ edge t.1 t.2.1 p ∧ 0 ≤ edge t.2.1 t.2.2 p ∧ 0 ≤ edge t.2.2 t.1 p

/-- The point `p` lies in the unit square of the XY plane centered at the
origin. -/
def inUnitSquare (p : Vec3 K) : Prop :=
  -(1 / 2) ≤ p 0 ∧ p 0 ≤ 1 / 2 ∧ -(1 / 2) ≤ p 1 ∧ p 1 ≤ 1 / 2 ∧ p 2 = 0

end Ordered

/-! ## The 32-bit floats of the program

The program computes in `float`. What follows is IEEE 754 binary32 with
round-to-nearest-even, each operation rounded on its own, and the glm functions
and source expressions the claims on exact values need, operation by operation
in glm's order. -/

/-- An IEEE 754 binary32 value. `finite neg m e` is `(-1)^neg * m * 2^e`, kept
in canonical form: `m < 2^24` and `-149 ≤ e ≤ 104`, with `2^23 ≤ m` unless
`e = -149` (subnormals and the two zeros, which have `m = 0`). -/
inductive F32 where
  | finite (neg : Bool) (m : Nat) (e : Int)
  | inf (neg : Bool)
  | nan
deriving DecidableEq, Repr

namespace F32

/-- The floor of the base-2 logarithm of `n ≥ 1`, by halving; `fuel` bounds the
number of halvings. -/
def ilog2 : Nat → Nat → Nat
  | 0, _ => 0
  | fuel + 1, n => if n < 2 then 0 else ilog2 fuel (n / 2) + 1

/-- The floor of the base-2 logarithm of `n ≥ 1`. -/
def log2 (n : Nat) : Nat := ilog2 n n

/-- Whether `n / d < 2 ^ k`. -/
def belowPow (n d : Nat) (k : Int) : Bool :=
  if 0 ≤ k then decide (n < d * 2 ^ k.toNat) else decide (n * 2 ^ (-k).toNat < d)

/-- The exponent of the quantum in which `n / d` (`n, d ≥ 1`) is rounded: 23
below the binade of `n / d`, and -149 in the subnormal range. -/
def quantum (n d : Nat) : Int :=
  let e0 : Int := (log2 n : Int) - (log2 d : Int)
  let e : Int := if belowPow n d e0 then e0 - 1 else e0
  max (e - 23) (-149)

/-- The integer nearest to `N / D`, ties to even. -/
def nearestEven (N D : Nat) : Nat :=
  let q := N / D
  let r := N % D
  if 2 * r < D then q else if D < 2 * r then q + 1 else if q % 2 = 0 then q else q + 1

/-- The binary32 value nearest to `(-1)^neg * n / d` (`d ≥ 1`), ties to even;
from `2^128 - 2^103` on the result is an infinity. -/
def round (neg : Bool) (n d : Nat) : F32 :=
  if n = 0 then finite neg 0 (-149)
  else
    let qe := quantum n d
    let m :=
      if qe < 0 then nearestEven (n * 2 ^ (-qe).toNat) d else nearestEven n (d * 2 ^ qe.toNat)
    if m = 2 ^ 24 then
      if 104 < qe + 1 then inf neg else finite neg (2 ^ 23) (qe + 1)
    else if 104 < qe then inf neg
    else finite neg m qe

/-- The value of a finite float as a rational; 0 for infinities and NaN. -/
def toRat : F32 → ℚ
  | finite neg m e => (if neg then -1 else 1) * (m : ℚ) * (2 : ℚ) ^ e
  | _ => 0

/-- A float literal or an integer constant converted at compile time: the
float nearest to `n / d`. -/
def lit (n d : Nat) : F32 := round false n d

/-- The conversion `(float)i` of an `int`. -/
def ofInt (i : Int) : F32 := round (decide (i < 0)) i.natAbs 1

/-- Unary minus. -/
def neg : F32 → F32
  | finite s m e => finite (!s) m e
  | inf s => inf (!s)
  | nan => nan

/-- Float multiplication. -/
def mul : F32 → F32 → F32
  | nan, _ => nan
  | _, nan => nan
  | inf s, inf t => inf (xor s t)
  | inf s, finite t m _ => if m = 0 then nan else inf (xor s t)
  | finite s m _, inf t => if m = 0 then nan else inf (xor s t)
  | finite s m e, finite t m' e' =>
    if 0 ≤ e + e' then round (xor s t) (m * m' * 2 ^ (e + e').toNat) 1
    else round (xor s t) (m * m') (2 ^ (-(e + e')).toNat)

/-- Float division. -/
def div : F32 → F32 → F32
  | nan, _ => nan
  | _, nan => nan
  | inf _, inf _ => nan
  | inf s, finite t _ _ => inf (xor s t)
  | finite s _ _, inf t => finite (xor s t) 0 (-149)
  | finite s m e, finite t m' e' =>
    if m' = 0 then (if m = 0 then nan else inf (xor s t))
    else if 0 ≤ e - e' then round (xor s t) (m * 2 ^ (e - e').toNat) m'
    else round (xor s t) m (m' * 2 ^ (e' - e).toNat)

/-- Float addition. -/
def add : F32 → F32 → F32
  | nan, _ => nan
  | _, nan => nan
  | inf s, inf t => if s = t then inf s else nan
  | inf s, finite _ _ _ => inf s
  | finite _ _ _, inf t => inf t
  | finite s m e, finite t m' e' =>
    let E : Int := min e e'
    let a : Int := (if s then -1 else 1) * ((m * 2 ^ (e - E).toNat : Nat) : Int)
    let b : Int := (if t then -1 else 1) * ((m' * 2 ^ (e' - E).toNat : Nat) : Int)
    let c : Int := a + b
    if c = 0 then finite (s && t) 0 (-149)
    else if 0 ≤ E then round (decide (c < 0)) (c.natAbs * 2 ^ E.toNat) 1
    else round (decide (c < 0)) c.natAbs (2 ^ (-E).toNat)

/-- Float subtraction. -/
def sub (x y : F32) : F32 := add x (neg y)

/-- The integer square root, bit by bit from bit `b - 1` down. -/
def isqrt (X : Nat) : Nat → Nat → Nat
  | 0, r => r
  | b + 1, r => if (r + 2 ^ b) * (r + 2 ^ b) ≤ X then isqrt X b (r + 2 ^ b) else isqrt X b r

/-- The correctly rounded square root (`sqrtf`). The argument is scaled by an
even power of two to an integer of more than 60 bits; the integer square root
and whether it is exact decide the rounding. -/
def sqrt : F32 → F32
  | nan => nan
  | inf s => if s then nan else inf false
  | finite s m e =>
    if m = 0 then finite s 0 (-149)
    else if s then nan
    else
      let sh : Int := if (e - 60) % 2 = 0 then 60 else 61
      let X : Nat := m * 2 ^ sh.toNat
      let r : Nat := isqrt X (log2 X / 2 + 1) 0
      let n : Nat := 2 * r + (if r * r = X then 0 else 1)
      let h : Int := (e - sh) / 2
      if 0 ≤ h then round false (n * 2 ^ h.toNat) 2 else round false n (2 * 2 ^ (-h).toNat)

end F32

/-- The function of the C math library that `glm::perspective` calls on a
float, which need not round correctly. -/
structure Libm32 where
  tan : F32 → F32

/-- A math library for concrete runs: `tanf` returns `8990883 * 2^-25`, the float
nearest to the tangent of `radians(30.f) / 2`. -/
def Libm32.sample : Libm32 where
  tan := fun _ => F32.finite false 8990883 (-25)

/-- A `mat4` of floats, entry `r c` being glm's `m[c][r]`. -/
abbrev Mat4F := Fin 4 → Fin 4 → F32

section GlmF

/-- `glm::radians` on `float`: degrees times the float nearest to glm's
constant for pi/180, `9370165 * 2^-29`. -/
def radiansF (degrees : F32) : F32 := F32.mul degrees (F32.finite false 9370165 (-29))

/-- `glm::perspective` (right-handed, depth range -1 to 1) on floats. -/
def perspectiveF (L : Libm32) (fovy aspect zNear zFar : F32) : Mat4F :=
  let tanHalfFovy := L.tan (F32.div fovy (F32.lit 2 1))
  let zero := F32.lit 0 1
  ![![F32.div (F32.lit 1 1) (F32.mul aspect tanHalfFovy), zero, zero, zero],
    ![zero, F32.div (F32.lit 1 1) tanHalfFovy, zero, zero],
    ![zero, zero, F32.div (F32.neg (F32.add zFar zNear)) (F32.sub zFar zNear),
      F32.div (F32.neg (F32.mul (F32.mul (F32.lit 2 1) zFar) zNear)) (F32.sub zFar zNear)],
    ![zero, zero, F32.neg (F32.lit 1 1), zero]]

/-- The expression `glm::perspective(glm::radians(30.f), (float)mViewportSize.x /
mViewportSize.y, 0.001f, 1000.f)` of `mGlInit` and `mGlDraw`, on floats. -/
def projectionForF (L : Libm32) (size : Int × Int) : Mat4F :=
  perspectiveF L (radiansF (F32.lit 30 1)) (F32.div (F32.ofInt size.1) (F32.ofInt size.2))
    (F32.lit 1 1000) (F32.lit 1000 1)

end GlmF

/-! ## Lookup in tables -/

section TableLemmas

variable {κ α : Type} [DecidableEq κ]


@[simp]
theorem Table.get_nil (k : κ) : Table.get ([] : Table κ α) k = none := rfl

theorem Table.get_cons (p : κ × α) (m : Table κ α) (k : κ) :
    Table.get (p :: m) k = if p.1 = k then some p.2 else Table.get m k := by
  unfold Table.get
  by_cases h : p.1 = k <;> simp [List.find?_cons, h]

@[simp]
theorem Table.get_del (m : Table κ α) (k k' : κ) :
    (m.del k).get k' = if k' = k then none else m.get k' := by
  induction m with
  | nil => simp [Table.del, Table.get]
  | cons p m ih =>
    have hd : Table.del (p :: m) k = if p.1 = k then Table.del m k else p :: Table.del m k := by
      unfold Table.del
      by_cases h : p.1 = k <;> simp [List.filter_cons, h]
    rw [hd, Table.get_cons]
    by_cases hp : p.1 = k
    · rw [if_pos hp, ih]
      by_cases hk : k' = k
      · simp [hk]
      · have : ¬ p.1 = k' := by rw [hp]; exact fun h => hk h.symm
        simp [hk, this]
    · rw [if_neg hp, Table.get_cons, ih]
      by_cases hk : p.1 = k'
      · have : ¬ k' = k := by rw [← hk]; exact hp
        simp [hk, this]
      · simp [hk]

@[simp]
theorem Table.get_put (m : Table κ α) (k k' : κ) (v : α) :
    (m.put k v).get k' = if k' = k then some v else m.get k' := by
  unfold Table.put
  rw [Table.get_cons, Table.get_del]
  by_cases hk : k' = k
  · simp [hk]
  · have : ¬ k = k' := fun h => hk h.symm
    simp [hk, this]

@[simp]
theorem Table.get_ensure (m : Table κ α) (k k' : κ) (d : α) :
    (m.ensure k d).get k' = if k' = k then some ((m.get k).getD d) else m.get k' := by
  simp [Table.ensure]

/-- An entry that exists is the same after any `ensure`. -/
theorem Table.get_ensure_of_some (m : Table κ α) (k k' : κ) (d v : α) (h : m.get k' = some v) :
    (m.ensure k d).get k' = some v := by
  by_cases hk : k' = k
  · subst hk
    simp [h]
  · simp [hk, h]

theorem Table.get_ite (c : Prop) [Decidable c] (m m' : Table κ α) (k : κ) :
    (if c then m else m').get k = if c then m.get k else m'.get k := by
  split <;> rfl

/-- Binding a name anew leaves every attribute as it was. -/
@[simp]
theorem attribOf_ensure (va : Objects VertexArray) (k vao index : Nat) :
    attribOf (va.ensure k ⟨[], 0⟩) vao index = attribOf va vao index := by
  unfold attribOf
  by_cases h : vao = k
  · subst h
    cases hv : va.get vao <;> simp [hv]
  · simp [h]

/-- Binding an existing vertex array leaves its element buffer as it was. -/
theorem elementBufferOf_ensure (va : Objects VertexArray) (k vao e : Nat)
    (h : elementBufferOf va vao = some e) :
    elementBufferOf (va.ensure k ⟨[], 0⟩) vao = some e := by
  unfold elementBufferOf at h ⊢
  by_cases hk : vao = k
  · subst hk
    cases hv : va.get vao
    · simp [hv] at h
    · simpa [hv] using h
  · simpa [hk] using h

/-- Binding a name anew leaves every texture image as it was. -/
@[simp]
theorem imageOf_ensure (tx : Objects Texture) (k name : Nat) :
    imageOf (tx.ensure k ⟨none, false⟩) name = imageOf tx name := by
  unfold imageOf
  by_cases h : name = k
  · subst h
    cases hv : tx.get name <;> simp [hv]
  · simp [h]

/-- The image of a texture whose image was just specified, and of the others. -/
theorem imageOf_put (tx : Objects Texture) (k name : Nat) (t : Texture) :
    imageOf (tx.put k t) name = if name = k then t.image else imageOf tx name := by
  unfold imageOf
  by_cases h : name = k <;> simp [h]

end TableLemmas

/-! ## Symbolic execution of actions -/

section Exec

variable {K : Type}

@[simp]
theorem wp_bind {α β : Type} (a : Act K α) (k : α → Act K β) (Q : β → OglRenderer K → Prop)
    (s : OglRenderer K) : wp (a >>= k) Q s = wp a (fun x t => wp (k x) Q t) s := rfl

@[simp]
theorem wp_pure {α : Type} (x : α) (Q : α → OglRenderer K → Prop) (s : OglRenderer K) :
    wp (pure x) Q s = Q x s := rfl

@[simp]
theorem wp_get (Q : OglRenderer K → OglRenderer K → Prop) (s : OglRenderer K) :
    wp get Q s = Q s s := rfl

@[simp]
theorem wp_gen (f : Context K → Nat × Context K) (Q : Nat → OglRenderer K → Prop)
    (s : OglRenderer K) : wp (gen f) Q s = Q (f s.gl).1 { s with gl := (f s.gl).2 } := rfl

@[simp]
theorem wp_call (f : OglRenderer K → Context K → Context K) (Q : Unit → OglRenderer K → Prop)
    (s : OglRenderer K) : wp (call f) Q s = Q () { s with gl := f s s.gl } := rfl

@[simp]
theorem wp_assign (f : OglRenderer K → OglRenderer K) (Q : Unit → OglRenderer K → Prop)
    (s : OglRenderer K) : wp (assign f) Q s = Q () (f s) := rfl

@[simp]
theorem wp_issue (c : Command) (Q : Unit → OglRenderer K → Prop) (s : OglRenderer K) :
    wp (issue c) Q s = Q () { s with commands := s.commands ++ [(c, s.gl)] } := rfl

@[simp]
theorem wp_print (line : String) (Q : Unit → OglRenderer K → Prop) (s : OglRenderer K) :
    wp (print line) Q s = Q () { s with cout := s.cout ++ [line] } := rfl

theorem wp_ite {α : Type} (c : Prop) [Decidable c] (a b : Act K α)
    (Q : α → OglRenderer K → Prop) (s : OglRenderer K) :
    wp (if c then a else b) Q s = if c then wp a Q s else wp b Q s := by
  split <;> rfl

/-- A conditional print changes `cout` alone, so nothing after it branches. -/
@[simp]
theorem wp_ite_print (c : Prop) [Decidable c] (line : String)
    (Q : Unit → OglRenderer K → Prop) (s : OglRenderer K) :
    wp (if c then print line else pure PUnit.unit) Q s =
      Q () { s with cout := if c then s.cout ++ [line] else s.cout } := by
  split <;> rfl

/-- The report after a compilation changes `cout` alone. -/
@[simp]
theorem wp_infolog (success : Bool) (shader : Nat) (Q : Unit → OglRenderer K → Prop)
    (s : OglRenderer K) :
    wp (mSetupGLSLProgram_infolog success shader) Q s =
      Q () { s with cout :=
        if success then s.cout else s.cout ++ [glGetShaderInfoLog s.gl shader 512] } := by
  cases success <;> rfl

/-- A property of the final state is a weakest precondition. -/
theorem exec_wp {α : Type} (a : Act K α) (P : OglRenderer K → Prop) (s : OglRenderer K) :
    P (exec a s) = wp a (fun _ t => P t) s := rfl

/-- To show a property of the final state, show the weakest precondition. -/
theorem wp_exec {α : Type} (a : Act K α) (P : OglRenderer K → Prop) (s : OglRenderer K)
    (h : wp a (fun _ t => P t) s) : P (exec a s) := h

@[simp]
theorem exec_call (f : OglRenderer K → Context K → Context K) (s : OglRenderer K) :
    exec (call f) s = { s with gl := f s s.gl } := rfl

@[simp]
theorem exec_assign (f : OglRenderer K → OglRenderer K) (s : OglRenderer K) :
    exec (assign f) s = f s := rfl

theorem exec_seq {β : Type} (a : Act K Unit) (b : Act K β) (s : OglRenderer K) :
    exec (a >>= fun _ => b) s = exec b (exec a s) := rfl

theorem exec_get {β : Type} (k : OglRenderer K → Act K β) (s : OglRenderer K) :
    exec (get >>= k) s = exec (k s) s := rfl

theorem exec_pure {α : Type} (x : α) (s : OglRenderer K) : exec (pure x : Act K α) s = s := rfl

end Exec

/-! ## `init` -/

section Init

variable {K : Type} [Field K]

theorem exec_mGlInit (D : Driver) (L : Libm K) (s : OglRenderer K) :
    exec (mGlInit D L) s =
      exec (mLoadTextures D)
        (exec mGlInit_light
          (exec (assign fun s => { s with mViewportDirty := false })
            (exec mSetupRenderTarget
              (exec (mGlInit_viewMatrix L)
                (exec mSetupBuffers
                  (exec (mSetupGLSLProgram D)
                    (exec (call fun _ g => glEnable g Capability.GL_DEBUG_OUTPUT) s))))))) := by
  unfold mGlInit
  simp only [exec_seq]

theorem init_stage0 :
    Stage (exec (call fun _ g => glEnable g Capability.GL_DEBUG_OUTPUT)
      (OglRenderer.construct (Context.fresh 800 600) : OglRenderer K)) 0 0 0 0 ∧
    (exec (call fun _ g => glEnable g Capability.GL_DEBUG_OUTPUT)
      (OglRenderer.construct (Context.fresh 800 600) : OglRenderer K)).gl.lastShader = 0 := by
  simp [Stage, OglRenderer.construct, Context.fresh]

theorem init_stage1 (D : Driver) (s : OglRenderer K)
    (h : Stage s 0 0 0 0 ∧ s.gl.lastShader = 0) :
    Stage (exec (mSetupGLSLProgram D) s) 0 0 0 0 ∧ Programs (exec (mSetupGLSLProgram D) s) := by
  show wp (mSetupGLSLProgram D) (fun _ t => Stage t 0 0 0 0 ∧ Programs t) _
  simp only [Stage] at h
  simp [mSetupGLSLProgram, Stage, Programs, stagesOf, linked, compiled, h]

theorem init_stage2 (s : OglRenderer K) (h : Stage s 0 0 0 0 ∧ Programs s) :
    Stage (exec mSetupBuffers s) 5 0 0 1 ∧ Programs (exec mSetupBuffers s) ∧
      Geometry (exec mSetupBuffers s) := by
  show wp mSetupBuffers (fun _ t => Stage t 5 0 0 1 ∧ Programs t ∧ Geometry t) s
  simp only [Stage, Programs] at h
  simp [mSetupBuffers, Stage, Programs, Geometry, attribOf, elementBufferOf, h, idx]

theorem init_stage3 (L : Libm K) (s : OglRenderer K)
    (h : Stage s 5 0 0 1 ∧ Programs s ∧ Geometry s) :
    Stage (exec (mGlInit_viewMatrix L) s) 6 0 0 1 ∧ Programs (exec (mGlInit_viewMatrix L) s) ∧
      Geometry (exec (mGlInit_viewMatrix L) s) ∧ Camera L (exec (mGlInit_viewMatrix L) s) ∧
      FirstCamera L (exec (mGlInit_viewMatrix L) s) := by
  show wp (mGlInit_viewMatrix L)
    (fun _ t => Stage t 6 0 0 1 ∧ Programs t ∧ Geometry t ∧ Camera L t ∧ FirstCamera L t) s
  simp only [Stage, Programs, Geometry] at h
  simp [mGlInit_viewMatrix, Stage, Programs, Geometry, Camera, FirstCamera, h]

theorem init_stage4 (L : Libm K) (s : OglRenderer K)
    (h : Stage s 6 0 0 1 ∧ Programs s ∧ Geometry s ∧ Camera L s ∧ FirstCamera L s) :
    Stage (exec mSetupRenderTarget s) 6 2 1 1 ∧ Programs (exec mSetupRenderTarget s) ∧
      Geometry (exec mSetupRenderTarget s) ∧ Camera L (exec mSetupRenderTarget s) ∧
      FirstCamera L (exec mSetupRenderTarget s) ∧ FirstTarget (exec mSetupRenderTarget s) := by
  show wp mSetupRenderTarget (fun _ t => Stage t 6 2 1 1 ∧ Programs t ∧ Geometry t ∧
    Camera L t ∧ FirstCamera L t ∧ FirstTarget t) s
  simp only [Stage, Programs, Geometry, Camera, FirstCamera] at h
  simp [mSetupRenderTarget, Stage, Programs, Geometry, Camera, FirstCamera, FirstTarget, h,
    imageOf_put]

theorem init_stage5 (L : Libm K) (s : OglRenderer K)
    (h : Stage s 6 2 1 1 ∧ Programs s ∧ Geometry s ∧ Camera L s ∧ FirstCamera L s ∧
      FirstTarget s) :
    Stage (exec (assign fun s => { s with mViewportDirty := false }) s) 6 2 1 1 ∧
      Programs (exec (assign fun s => { s with mViewportDirty := false }) s) ∧
      Geometry (exec (assign fun s => { s with mViewportDirty := false }) s) ∧
      Camera L (exec (assign fun s => { s with mViewportDirty := false }) s) ∧
      FirstCamera L (exec (assign fun s => { s with mViewportDirty := false }) s) ∧
      FirstTarget (exec (assign fun s => { s with mViewportDirty := false }) s) ∧
      (exec (assign fun s => { s with mViewportDirty := false }) s).mViewportDirty = false := by
  simp only [Stage, Programs, Geometry, Camera, FirstCamera, FirstTarget] at h
  simp [Stage, Programs, Geometry, Camera, FirstCamera, FirstTarget, h]

theorem init_stage6 (L : Libm K) (s : OglRenderer K)
    (h : Stage s 6 2 1 1 ∧ Programs s ∧ Geometry s ∧ Camera L s ∧ FirstCamera L s ∧
      FirstTarget s ∧ s.mViewportDirty = false) :
    Stage (exec mGlInit_light s) 7 2 1 1 ∧ Programs (exec mGlInit_light s) ∧
      Geometry (exec mGlInit_light s) ∧ Camera L (exec mGlInit_light s) ∧
      FirstCamera L (exec mGlInit_light s) ∧ FirstTarget (exec mGlInit_light s) ∧
      (exec mGlInit_light s).mViewportDirty = false ∧ Light (exec mGlInit_light s) ∧
      (exec mGlInit_light s).gl.uniformBuffer = (exec mGlInit_light s).mLightUniformIdx := by
  show wp mGlInit_light (fun _ t => Stage t 7 2 1 1 ∧ Programs t ∧ Geometry t ∧ Camera L t ∧
    FirstCamera L t ∧ FirstTarget t ∧ t.mViewportDirty = false ∧ Light t ∧
    t.gl.uniformBuffer = t.mLightUniformIdx) s
  simp only [Stage, Programs, Geometry, Camera, FirstCamera, FirstTarget] at h
  simp [mGlInit_light, Stage, Programs, Geometry, Camera, FirstCamera, FirstTarget, Light, h]

theorem init_stage7 (D : Driver) (L : Libm K) (s : OglRenderer K)
    (h : Stage s 7 2 1 1 ∧ Programs s ∧ Geometry s ∧ Camera L s ∧ FirstCamera L s ∧
      FirstTarget s ∧ s.mViewportDirty = false ∧ Light s ∧
      s.gl.uniformBuffer = s.mLightUniformIdx) :
    Stage (exec (mLoadTextures D) s) 7 4 1 1 ∧ Ready D L (exec (mLoadTextures D) s) ∧
      FirstCamera L (exec (mLoadTextures D) s) ∧ FirstTarget (exec (mLoadTextures D) s) ∧
      (exec (mLoadTextures D) s).mViewportDirty = false ∧
      (exec (mLoadTextures D) s).gl.uniformBuffer = (exec (mLoadTextures D) s).mLightUniformIdx := by
  show wp (mLoadTextures D) (fun _ t => Stage t 7 4 1 1 ∧ Ready D L t ∧ FirstCamera L t ∧
    FirstTarget t ∧ t.mViewportDirty = false ∧ t.gl.uniformBuffer = t.mLightUniformIdx) s
  simp only [Stage, Programs, Geometry, Camera, FirstCamera, FirstTarget, Light] at h
  simp [mLoadTextures, Stage, Ready, Programs, Geometry, Camera, FirstCamera, FirstTarget, Light,
    Images, imageSizes, h, imageOf_put]

/-- What `init` establishes. -/
theorem init_spec (D : Driver) (L : Libm K) :
    Stage (init D L) 7 4 1 1 ∧ Ready D L (init D L) ∧ FirstCamera L (init D L) ∧
      FirstTarget (init D L) ∧ (init D L).mViewportDirty = false ∧
      (init D L).gl.uniformBuffer = (init D L).mLightUniformIdx := by
  unfold init
  rw [exec_mGlInit]
  exact init_stage7 D L _ (init_stage6 L _ (init_stage5 L _ (init_stage4 L _
    (init_stage3 L _ (init_stage2 _ (init_stage1 D _ init_stage0))))))

end Init

/-! ## The blocks of `mGlDraw` -/

section Draw

variable {K : Type} [Field K]

theorem Frame.same (s : OglRenderer K) : Frame s s := by
  constructor <;> rfl

theorem Frame.andThen {s t u : OglRenderer K} (h₁ : Frame s t) (h₂ : Frame t u) : Frame s u := by
  constructor
  · exact h₂.mViewportSize.trans h₁.mViewportSize
  · exact h₂.mPrg0ID.trans h₁.mPrg0ID
  · exact h₂.mPrg1ID.trans h₁.mPrg1ID
  · exact h₂.mViewMatrixUniformIdx.trans h₁.mViewMatrixUniformIdx
  · exact h₂.mLightUniformIdx.trans h₁.mLightUniformIdx
  · exact h₂.mvao.trans h₁.mvao
  · exact h₂.mVtxBuffer.trans h₁.mVtxBuffer
  · exact h₂.mTexCoordBuffer.trans h₁.mTexCoordBuffer
  · exact h₂.mNormBuffer.trans h₁.mNormBuffer
  · exact h₂.mTangBuffer.trans h₁.mTangBuffer
  · exact h₂.mDiffuseTexID.trans h₁.mDiffuseTexID
  · exact h₂.mNormalMapTexID.trans h₁.mNormalMapTexID
  · exact h₂.mNumElements.trans h₁.mNumElements
  · exact h₂.view.trans h₁.view
  · exact h₂.mLightInfo.trans h₁.mLightInfo
  · exact h₂.mPrevMouseLocation.trans h₁.mPrevMouseLocation
  · exact h₂.mLeftMouseButtonPressed.trans h₁.mLeftMouseButtonPressed
  · exact h₂.cout.trans h₁.cout

theorem frame_iff (s t : OglRenderer K) :
    Frame s t ↔
      t.mViewportSize = s.mViewportSize ∧ t.mPrg0ID = s.mPrg0ID ∧ t.mPrg1ID = s.mPrg1ID ∧
      t.mViewMatrixUniformIdx = s.mViewMatrixUniformIdx ∧
      t.mLightUniformIdx = s.mLightUniformIdx ∧ t.mvao = s.mvao ∧ t.mVtxBuffer = s.mVtxBuffer ∧
      t.mTexCoordBuffer = s.mTexCoordBuffer ∧ t.mNormBuffer = s.mNormBuffer ∧
      t.mTangBuffer = s.mTangBuffer ∧ t.mDiffuseTexID = s.mDiffuseTexID ∧
      t.mNormalMapTexID = s.mNormalMapTexID ∧ t.mNumElements = s.mNumElements ∧
      t.mViewMat.view = s.mViewMat.view ∧ t.mLightInfo = s.mLightInfo ∧
      t.mPrevMouseLocation = s.mPrevMouseLocation ∧
      t.mLeftMouseButtonPressed = s.mLeftMouseButtonPressed ∧ t.cout = s.cout := by
  constructor
  · intro h
    exact ⟨h.1, h.2, h.3, h.4, h.5, h.6, h.7, h.8, h.9, h.10, h.11, h.12, h.13, h.14, h.15,
      h.16, h.17, h.18⟩
  · rintro ⟨h1, h2, h3, h4, h5, h6, h7, h8, h9, h10, h11, h12, h13, h14, h15, h16, h17, h18⟩
    exact ⟨h1, h2, h3, h4, h5, h6, h7, h8, h9, h10, h11, h12, h13, h14, h15, h16, h17, h18⟩

theorem drawCalls_append (xs ys : List (Command × Context K)) :
    drawCalls (xs ++ ys) = drawCalls xs ++ drawCalls ys := by
  simp [drawCalls, List.filterMap_append]

theorem frontWall_drawn (Ka Kd Ks : Vec3 K) (shininess : K) (s : OglRenderer K) :
    Drawn s (exec (mGlDraw_frontWall Ka Kd Ks shininess) s) := by
  show wp (mGlDraw_frontWall Ka Kd Ks shininess) (fun _ t => Drawn s t) s
  simp [Drawn, Stable, frame_iff, mGlDraw_frontWall, glDrawElements, drawCalls]
  by_cases h0 : s.mvao = 0
  · simp [h0]
  · simp only [h0, if_false, attribOf_ensure, true_and, implies_true]
    intro v e h
    exact elementBufferOf_ensure _ _ _ _ h

theorem rightWall_drawn (L : Libm K) (Ka Kd Ks : Vec3 K) (shininess : K) (s : OglRenderer K) :
    Drawn s (exec (mGlDraw_rightWall L Ka Kd Ks shininess) s) := by
  show wp (mGlDraw_rightWall L Ka Kd Ks shininess) (fun _ t => Drawn s t) s
  simp [Drawn, Stable, frame_iff, mGlDraw_rightWall, glDrawElements, drawCalls]

theorem leftWall_drawn (L : Libm K) (Ka Kd Ks : Vec3 K) (shininess : K) (s : OglRenderer K) :
    Drawn s (exec (mGlDraw_leftWall L Ka Kd Ks shininess) s) := by
  show wp (mGlDraw_leftWall L Ka Kd Ks shininess) (fun _ t => Drawn s t) s
  simp [Drawn, Stable, frame_iff, mGlDraw_leftWall, glDrawElements, drawCalls]

theorem backWall_drawn (L : Libm K) (Ka Kd Ks : Vec3 K) (shininess : K) (s : OglRenderer K) :
    Drawn s (exec (mGlDraw_backWall L Ka Kd Ks shininess) s) := by
  show wp (mGlDraw_backWall L Ka Kd Ks shininess) (fun _ t => Drawn s t) s
  simp [Drawn, Stable, frame_iff, mGlDraw_backWall, glDrawElements, drawCalls]

theorem floor_drawn (L : Libm K) (Ka Kd Ks : Vec3 K) (shininess : K) (s : OglRenderer K) :
    Drawn s (exec (mGlDraw_floor L Ka Kd Ks shininess) s) := by
  show wp (mGlDraw_floor L Ka Kd Ks shininess) (fun _ t => Drawn s t) s
  simp [Drawn, Stable, frame_iff, mGlDraw_floor, glDrawElements, drawCalls]

theorem begin_kept (s : OglRenderer K) : Kept s.mPrg0ID s (exec mGlDraw_begin s) := by
  show wp mGlDraw_begin (fun _ t => Kept s.mPrg0ID s t) s
  simp [Kept, Stable, frame_iff, mGlDraw_begin, glClear, drawCalls]
  refine ⟨?_, ?_, ?_⟩
  · intro k v h
    by_cases h1 : s.mViewMatrixUniformIdx = 0 <;> by_cases h2 : s.mLightUniformIdx = 0 <;>
      simp only [h1, h2, if_true, if_false] <;>
      first
        | exact h
        | exact Table.get_ensure_of_some _ _ _ _ _ h
        | exact Table.get_ensure_of_some _ _ _ _ _ (Table.get_ensure_of_some _ _ _ _ _ h)
  · intro k h1 h2
    simp [Table.get_ite, h1, h2]
  · intro k f h
    by_cases h1 : s.mFBO = 0
    · simpa [h1] using h
    · simp only [h1, if_false]
      exact Table.get_ensure_of_some _ _ _ _ _ h

theorem useProgram_kept (s : OglRenderer K) :
    Kept s.mPrg1ID s (exec (call fun s g => glUseProgram g s.mPrg1ID) s) := by
  simp [Kept, Stable, frame_iff]

theorem end_kept (s : OglRenderer K) : Kept s.gl.program s (exec mGlDraw_end s) := by
  show wp mGlDraw_end (fun _ t => Kept s.gl.program s t) s
  simp [Kept, Stable, frame_iff, mGlDraw_end, glBlitNamedFramebuffer, drawCalls]

theorem Stable.same_state (s : OglRenderer K) : Stable s s := by
  simp [Stable, frame_iff]

theorem Stable.followedBy {s t u : OglRenderer K} (h₁ : Stable s t) (h₂ : Stable t u) : Stable s u := by
  obtain ⟨a1, a2, a3, a4, a5, a6, ap, a7, a8, a9, a10, a11, a12⟩ := h₁
  obtain ⟨b1, b2, b3, b4, b5, b6, bp, b7, b8, b9, b10, b11, b12⟩ := h₂
  refine ⟨a1.andThen b1, b2.trans a2, b3.trans a3, b4.trans a4, b5.trans a5, b6.trans a6,
    bp.trans ap, ?_, ?_, ?_, ?_, ?_, ?_⟩
  · intro n
    rw [b7, a7]
  · intro v i
    rw [b8, a8]
  · intro v e h
    exact b9 v e (a9 v e h)
  · intro k v h
    exact b10 k v (a10 k v h)
  · intro k h1 h2
    rw [b11 k (by rw [a1.mViewMatrixUniformIdx]; exact h1) (by rw [a1.mLightUniformIdx]; exact h2),
      a11 k h1 h2]
  · intro k f h
    exact b12 k f (a12 k f h)

theorem viewportDirty_refreshed (L : Libm K) (s : OglRenderer K) :
    Refreshed L s (exec (mGlDraw_viewportDirty L) s) := by
  show wp (mGlDraw_viewportDirty L) (fun _ t => Refreshed L s t) s
  simp [Refreshed, frame_iff, mGlDraw_viewportDirty, mSetupRenderTarget, imageOf_put]
  refine ⟨?_, ?_⟩
  · intro n hn
    have h1 : ¬ n = s.gl.lastTexture + 1 := by omega
    have h2 : ¬ n = s.gl.lastTexture + 1 + 1 := by omega
    simp [h1, h2]
  · intro k hk
    by_cases h0 : s.mViewMatrixUniformIdx = 0 <;> simp [h0, hk]

theorem viewportDirty_camera (L : Libm K) (s : OglRenderer K)
    (hc : s.mViewMatrixUniformIdx ≠ 0) :
    (exec (mGlDraw_viewportDirty L) s).gl.buffers.get s.mViewMatrixUniformIdx =
      some (BufferData.viewMatrix (exec (mGlDraw_viewportDirty L) s).mViewMat) := by
  show wp (mGlDraw_viewportDirty L) (fun _ t => t.gl.buffers.get s.mViewMatrixUniformIdx =
      some (BufferData.viewMatrix t.mViewMat)) s
  simp [mGlDraw_viewportDirty, mSetupRenderTarget, hc]

theorem viewportDirty_rebuilt (L : Libm K) (s : OglRenderer K) :
    Rebuilt s (exec (mGlDraw_viewportDirty L) s) := by
  show wp (mGlDraw_viewportDirty L) (fun _ t => Rebuilt s t) s
  simp [Rebuilt, mGlDraw_viewportDirty, mSetupRenderTarget, imageOf_put]
  refine ⟨?_, ?_⟩
  · intro h
    simp [Ne.symm h]
  · intro k h1 h2
    simp [h1, h2]

theorem exec_mGlDraw (L : Libm K) (s : OglRenderer K) :
    exec (mGlDraw L) s =
      exec mGlDraw_end
        (exec (mGlDraw_floor L (vec3 (4 / 10)) (vec3 0) (vec3 1) 120)
          (exec (call fun s g => glUseProgram g s.mPrg1ID)
            (exec (mGlDraw_backWall L (vec3 1) (vec3 1) (vec3 1) 120)
              (exec (mGlDraw_leftWall L (vec3 1) (vec3 1) (vec3 1) 120)
                (exec (mGlDraw_rightWall L (vec3 1) (vec3 1) (vec3 1) 120)
                  (exec (mGlDraw_frontWall (vec3 (8 / 10)) (vec3 (8 / 10)) (vec3 1) 120)
                    (exec mGlDraw_begin
                      (if s.mViewportDirty = true then exec (mGlDraw_viewportDirty L) s
                        else s)))))))) := by
  unfold mGlDraw
  by_cases h : s.mViewportDirty = true <;>
    simp only [exec_get, h, if_true, if_false, exec_seq, exec_pure, Bool.false_eq_true]

/-- The blocks of `mGlDraw` after the block `if (mViewportDirty == true)`, from
any state: five draw calls, four under `mPrg0ID` and then one under `mPrg1ID`. -/
theorem mGlDraw_blocks (L : Libm K) (s : OglRenderer K) :
    Stable s
      (exec mGlDraw_end
        (exec (mGlDraw_floor L (vec3 (4 / 10)) (vec3 0) (vec3 1) 120)
          (exec (call fun s g => glUseProgram g s.mPrg1ID)
            (exec (mGlDraw_backWall L (vec3 1) (vec3 1) (vec3 1) 120)
              (exec (mGlDraw_leftWall L (vec3 1) (vec3 1) (vec3 1) 120)
                (exec (mGlDraw_rightWall L (vec3 1) (vec3 1) (vec3 1) 120)
                  (exec (mGlDraw_frontWall (vec3 (8 / 10)) (vec3 (8 / 10)) (vec3 1) 120)
                    (exec mGlDraw_begin s)))))))) ∧
    drawCalls
      (exec mGlDraw_end
        (exec (mGlDraw_floor L (vec3 (4 / 10)) (vec3 0) (vec3 1) 120)
          (exec (call fun s g => glUseProgram g s.mPrg1ID)
            (exec (mGlDraw_backWall L (vec3 1) (vec3 1) (vec3 1) 120)
              (exec (mGlDraw_leftWall L (vec3 1) (vec3 1) (vec3 1) 120)
                (exec (mGlDraw_rightWall L (vec3 1) (vec3 1) (vec3 1) 120)
                  (exec (mGlDraw_frontWall (vec3 (8 / 10)) (vec3 (8 / 10)) (vec3 1) 120)
                    (exec mGlDraw_begin s)))))))).commands =
      drawCalls s.commands ++
        [(s.mPrg0ID, s.mNumElements), (s.mPrg0ID, s.mNumElements), (s.mPrg0ID, s.mNumElements),
          (s.mPrg0ID, s.mNumElements), (s.mPrg1ID, s.mNumElements)] := by
  obtain ⟨S2, P2, C2⟩ := begin_kept s
  generalize exec mGlDraw_begin s = s2 at S2 P2 C2 ⊢
  obtain ⟨S3, P3, C3⟩ := frontWall_drawn (vec3 (8 / 10)) (vec3 (8 / 10)) (vec3 1) 120 s2
  generalize exec (mGlDraw_frontWall (vec3 (8 / 10)) (vec3 (8 / 10)) (vec3 1) 120) s2 = s3
    at S3 P3 C3 ⊢
  obtain ⟨S4, P4, C4⟩ := rightWall_drawn L (vec3 1) (vec3 1) (vec3 1) 120 s3
  generalize exec (mGlDraw_rightWall L (vec3 1) (vec3 1) (vec3 1) 120) s3 = s4 at S4 P4 C4 ⊢
  obtain ⟨S5, P5, C5⟩ := leftWall_drawn L (vec3 1) (vec3 1) (vec3 1) 120 s4
  generalize exec (mGlDraw_leftWall L (vec3 1) (vec3 1) (vec3 1) 120) s4 = s5 at S5 P5 C5 ⊢
  obtain ⟨S6, P6, C6⟩ := backWall_drawn L (vec3 1) (vec3 1) (vec3 1) 120 s5
  generalize exec (mGlDraw_backWall L (vec3 1) (vec3 1) (vec3 1) 120) s5 = s6 at S6 P6 C6 ⊢
  obtain ⟨S7, P7, C7⟩ := useProgram_kept s6
  generalize exec (call fun s g => glUseProgram g s.mPrg1ID) s6 = s7 at S7 P7 C7 ⊢
  obtain ⟨S8, P8, C8⟩ := floor_drawn L (vec3 (4 / 10)) (vec3 0) (vec3 1) 120 s7
  generalize exec (mGlDraw_floor L (vec3 (4 / 10)) (vec3 0) (vec3 1) 120) s7 = s8 at S8 P8 C8 ⊢
  obtain ⟨S9, -, C9⟩ := end_kept s8
  generalize exec mGlDraw_end s8 = s9 at S9 C9 ⊢
  have T3 := S2.followedBy S3
  have T4 := T3.followedBy S4
  have T5 := T4.followedBy S5
  have T6 := T5.followedBy S6
  have T7 := T6.followedBy S7
  have T8 := T7.followedBy S8
  refine ⟨T8.followedBy S9, ?_⟩
  rw [C9, C8, C7, C6, C5, C4, C3, C2, P7, P5, P4, P3, P2, T7.1.mNumElements, T6.1.mPrg1ID,
    T5.1.mNumElements, T4.1.mNumElements, T3.1.mNumElements, S2.1.mNumElements]
  simp

end Draw

/-! ## `mGlDraw` as a whole, and the events -/

section Frames

variable {K : Type} [Field K]

theorem mGlDraw_clean (L : Libm K) (s : OglRenderer K) (h : s.mViewportDirty = false) :
    Stable s (exec (mGlDraw L) s) := by
  rw [exec_mGlDraw]
  simp only [h, Bool.false_eq_true, if_false]
  exact (mGlDraw_blocks L s).1

theorem mGlDraw_dirty (L : Libm K) (s : OglRenderer K) (h : s.mViewportDirty = true) :
    Stable (exec (mGlDraw_viewportDirty L) s) (exec (mGlDraw L) s) := by
  rw [exec_mGlDraw]
  simp only [h, if_true]
  exact (mGlDraw_blocks L _).1

theorem mGlDraw_frame (L : Libm K) (s : OglRenderer K) : Frame s (exec (mGlDraw L) s) := by
  cases h : s.mViewportDirty
  · exact (mGlDraw_clean L s h).1
  · exact (viewportDirty_refreshed L s).1.andThen (mGlDraw_dirty L s h).1

theorem mGlDraw_mViewportDirty (L : Libm K) (s : OglRenderer K) :
    (exec (mGlDraw L) s).mViewportDirty = false := by
  cases h : s.mViewportDirty
  · rw [(mGlDraw_clean L s h).2.1, h]
  · rw [(mGlDraw_dirty L s h).2.1]
    exact (viewportDirty_refreshed L s).2.1

theorem mGlDraw_drawCalls (L : Libm K) (s : OglRenderer K) :
    drawCalls (exec (mGlDraw L) s).commands =
      drawCalls s.commands ++
        [(s.mPrg0ID, s.mNumElements), (s.mPrg0ID, s.mNumElements), (s.mPrg0ID, s.mNumElements),
          (s.mPrg0ID, s.mNumElements), (s.mPrg1ID, s.mNumElements)] := by
  rw [exec_mGlDraw]
  cases h : s.mViewportDirty
  · simp only [Bool.false_eq_true, if_false]
    exact (mGlDraw_blocks L s).2
  · simp only [if_true]
    rw [(mGlDraw_blocks L _).2]
    obtain ⟨hF, -, hC, -⟩ := viewportDirty_refreshed L s
    rw [hC, hF.mPrg0ID, hF.mPrg1ID, hF.mNumElements]

theorem Ready.of_stable {D : Driver} {L : Libm K} {s t : OglRenderer K} (h : Ready D L s)
    (hs : Stable s t) : Ready D L t := by
  obtain ⟨hF, -, hV, -, hT, -, hP, hI, hA, hE, hB, -, -⟩ := hs
  obtain ⟨⟨p0, p1, p2, p3⟩, ⟨g1, g2, g3, g4, g5, g6, g7, g8, g9, g10, g11, g12, g13, g14, g15, g16⟩,
    ⟨c1, c2, m, c3⟩, ⟨l1, l2, l3⟩, ⟨i1, i2, i3, i4, i5⟩⟩ := h
  refine ⟨⟨?_, ?_, by rw [hP, p2], by rw [hP, p3]⟩, ⟨?_, ?_, ?_, ?_, ?_, ?_, hB _ _ g7, hB _ _ g8, hB _ _ g9, hB _ _ g10,
    hB _ _ g11, ?_, ?_, ?_, ?_, hE _ _ g16⟩, ⟨?_, ?_, m, hB _ _ c3⟩, ⟨?_, ?_, ?_⟩,
    ⟨?_, ?_, ?_, ?_, ?_⟩⟩
  · rw [hF.mPrg0ID, p0]
  · rw [hF.mPrg1ID, p1]
  · rw [hF.mNumElements, g1]
  · rw [hF.mvao, g2]
  · rw [hF.mVtxBuffer, g3]
  · rw [hF.mTexCoordBuffer, g4]
  · rw [hF.mNormBuffer, g5]
  · rw [hF.mTangBuffer, g6]
  · rw [hA, g12]
  · rw [hA, g13]
  · rw [hA, g14]
  · rw [hA, g15]
  · rw [hF.mViewMatrixUniformIdx, c1]
  · rw [hF.view, c2]
  · rw [hF.mLightUniformIdx, l1]
  · rw [hF.mLightInfo, l2]
  · rw [hF.mLightInfo]
    exact hB _ _ l3
  · rw [hF.mDiffuseTexID, i1]
  · rw [hF.mNormalMapTexID, i2]
  · rw [hT]
    exact i3
  · rw [hI, i4]
  · rw [hI, i5]

theorem Ready.of_refreshed {D : Driver} {L : Libm K} {s t : OglRenderer K} (h : Ready D L s)
    (hr : Refreshed L s t)
    (hc : t.gl.buffers.get s.mViewMatrixUniformIdx = some (BufferData.viewMatrix t.mViewMat)) :
    Ready D L t := by
  obtain ⟨hF, -, -, -, -, -, -, -, hT, -, hP, hA, hI, hB⟩ := hr
  obtain ⟨⟨p0, p1, p2, p3⟩, ⟨g1, g2, g3, g4, g5, g6, g7, g8, g9, g10, g11, g12, g13, g14, g15, g16⟩,
    ⟨c1, c2, m, c3⟩, ⟨l1, l2, l3⟩, ⟨i1, i2, i3, i4, i5⟩⟩ := h
  rw [c1] at hB hc
  refine ⟨⟨?_, ?_, by rw [hP, p2], by rw [hP, p3]⟩,
    ⟨?_, ?_, ?_, ?_, ?_, ?_, ?_, ?_, ?_, ?_, ?_, ?_, ?_, ?_, ?_, ?_⟩,
    ⟨?_, ?_, _, hc⟩, ⟨?_, ?_, ?_⟩, ⟨?_, ?_, ?_, ?_, ?_⟩⟩
  · rw [hF.mPrg0ID, p0]
  · rw [hF.mPrg1ID, p1]
  · rw [hF.mNumElements, g1]
  · rw [hF.mvao, g2]
  · rw [hF.mVtxBuffer, g3]
  · rw [hF.mTexCoordBuffer, g4]
  · rw [hF.mNormBuffer, g5]
  · rw [hF.mTangBuffer, g6]
  · rw [hB 1 (by decide), g7]
  · rw [hB 2 (by decide), g8]
  · rw [hB 3 (by decide), g9]
  · rw [hB 4 (by decide), g10]
  · rw [hB 5 (by decide), g11]
  · rw [hA, g12]
  · rw [hA, g13]
  · rw [hA, g14]
  · rw [hA, g15]
  · rw [hA, g16]
  · rw [hF.mViewMatrixUniformIdx, c1]
  · rw [hF.view, c2]
  · rw [hF.mLightUniformIdx, l1]
  · rw [hF.mLightInfo, l2]
  · rw [hF.mLightInfo, hB 7 (by decide)]
    exact l3
  · rw [hF.mDiffuseTexID, i1]
  · rw [hF.mNormalMapTexID, i2]
  · rw [hT]
    omega
  · rw [hI 3 (by omega), i4]
  · rw [hI 4 (by omega), i5]

theorem mGlDraw_ready (D : Driver) (L : Libm K) (s : OglRenderer K) (h : Ready D L s) :
    Ready D L (exec (mGlDraw L) s) := by
  cases hd : s.mViewportDirty
  · exact h.of_stable (mGlDraw_clean L s hd)
  · refine (h.of_refreshed (viewportDirty_refreshed L s) ?_).of_stable (mGlDraw_dirty L s hd)
    apply viewportDirty_camera
    rw [h.2.2.1.1]
    decide

theorem exec_resizeCallback (width height : Int) (s : OglRenderer K) :
    exec (resizeCallback width height) s =
      { s with mViewportSize := (width, height), mViewportDirty := true } := rfl

theorem exec_handleMouseMove (L : Libm K) (xpos ypos : K) (s : OglRenderer K) :
    exec (handleMouseMove L xpos ypos) s = { s with mPrevMouseLocation := (xpos, ypos) } := by
  unfold handleMouseMove
  cases h : s.mLeftMouseButtonPressed <;>
    simp only [exec_get, h, if_true, if_false, exec_seq, exec_pure, exec_assign,
      Bool.false_eq_true]

theorem exec_handleMouseButton (button action mods : Int) (s : OglRenderer K) :
    exec (handleMouseButton button action mods) s =
      { s with mLeftMouseButtonPressed :=
        if button = GLFW_MOUSE_BUTTON_LEFT then
          if action = GLFW_PRESS then true
          else if action = GLFW_RELEASE then false else s.mLeftMouseButtonPressed
        else s.mLeftMouseButtonPressed } := by
  have hne : ¬ GLFW_RELEASE = GLFW_PRESS := by decide
  unfold handleMouseButton
  by_cases hb : button = GLFW_MOUSE_BUTTON_LEFT <;> by_cases hp : action = GLFW_PRESS <;>
    by_cases hr : action = GLFW_RELEASE <;>
    simp only [hb, hp, hr, hne, if_true, if_false, exec_assign, exec_pure]

theorem step_ready (D : Driver) (L : Libm K) (s : OglRenderer K) (e : Event K)
    (h : Ready D L s) : Ready D L (step L s e) := by
  cases e with
  | resize w h' =>
    simpa [step, Event.act, exec_resizeCallback, Ready, Programs, Geometry, Camera, Light,
      Images] using h
  | mouseMove x y =>
    simpa [step, Event.act, exec_handleMouseMove, Ready, Programs, Geometry, Camera, Light,
      Images] using h
  | mouseButton b a m =>
    simpa [step, Event.act, exec_handleMouseButton, Ready, Programs, Geometry, Camera, Light,
      Images] using h
  | draw => exact mGlDraw_ready D L s h

theorem run_ready (D : Driver) (L : Libm K) (es : List (Event K)) (s : OglRenderer K)
    (h : Ready D L s) : Ready D L (run L s es) := by
  induction es generalizing s with
  | nil => exact h
  | cons e es ih => exact ih _ (step_ready D L s e h)

end Frames

/-! ## glm: the normal matrix -/

section GlmLemmas

variable {K : Type} [Field K]

theorem inverse_mul_self (m : Mat3 K)
    (hd : m 0 0 * (m 1 1 * m 2 2 - m 1 2 * m 2 1) - m 0 1 * (m 1 0 * m 2 2 - m 1 2 * m 2 0) +
      m 0 2 * (m 1 0 * m 2 1 - m 1 1 * m 2 0) ≠ 0) :
    inverse m * m = 1 := by
  ext i j
  fin_cases i <;> fin_cases j <;>
    simp [inverse, Matrix.mul_apply, Fin.sum_univ_three] <;>
    field_simp <;> ring

theorem det_mat3 (m : Mat3 K) :
    m.det = m 0 0 * (m 1 1 * m 2 2 - m 1 2 * m 2 1) - m 0 1 * (m 1 0 * m 2 2 - m 1 2 * m 2 0) +
      m 0 2 * (m 1 0 * m 2 1 - m 1 1 * m 2 0) := by
  rw [Matrix.det_fin_three]
  ring

/-- The transpose of the glm inverse of an orthogonal 3x3 matrix is the
matrix. -/
theorem transpose_inverse_of_orthogonal (m : Mat3 K) (h : transpose m * m = 1) :
    transpose (inverse m) = m := by
  have hd : m.det ≠ 0 := by
    intro h0
    have := congrArg Matrix.det h
    rw [Matrix.det_mul, h0, mul_zero, Matrix.det_one] at this
    exact zero_ne_one this
  rw [det_mat3] at hd
  have h1 : inverse m * m = 1 := inverse_mul_self m hd
  have h2 : m * transpose m = 1 := (Matrix.mul_eq_one_comm).mp h
  have h3 : inverse m = transpose m := by
    calc inverse m = inverse m * (m * transpose m) := by rw [h2, mul_one]
      _ = (inverse m * m) * transpose m := by rw [mul_assoc]
      _ = transpose m := by rw [h1, one_mul]
  rw [h3]
  exact Matrix.transpose_transpose m

/-- The upper-left block of a product whose right factor has a bottom row
`(0, 0, 0, _)`. -/
theorem mat3_mul (a b : Mat4 K) (hb : ∀ j : Fin 3, b 3 (Fin.castSucc j) = 0) :
    mat3 (a * b) = mat3 a * mat3 b := by
  ext i j
  simp [mat3, Matrix.mul_apply, Fin.sum_univ_four, Fin.sum_univ_three, hb j]
  fin_cases i <;> fin_cases j <;> rfl

end GlmLemmas

section Walls

theorem castSucc_two : (Fin.castSucc (2 : Fin 3) : Fin 4) = 2 := rfl

variable {K : Type} [LinearOrderedField K]

theorem Orthogonal.mul {a b : Mat3 K} (ha : Orthogonal a) (hb : Orthogonal b) :
    Orthogonal (a * b) := by
  unfold Orthogonal transpose at *
  rw [Matrix.transpose_mul, mul_assoc, ← mul_assoc (Matrix.transpose a), ha, one_mul, hb]

theorem orthogonal_one : Orthogonal (1 : Mat3 K) := by
  simp [Orthogonal, transpose]

theorem Exact.inversesqrt_one {L : Libm K} (h : Exact L) :
    L.inversesqrt 1 * L.inversesqrt 1 = 1 := by
  have := h.2 1 one_pos
  rw [mul_one, sq] at this
  exact this

/-- A rotation about the Y axis, as `glm::rotate` builds it, is orthogonal. -/
theorem orthogonal_rotationY (L : Libm K) (h : Exact L) (angle : K) :
    Orthogonal (mat3 (rotation L angle ![0, 1, 0])) := by
  have hc := h.1 angle
  have hj := h.inversesqrt_one
  have hd : dot (![0, 1, 0] : Vec3 K) ![0, 1, 0] = 1 := by simp [dot]
  unfold Orthogonal transpose
  ext i j
  fin_cases i <;> fin_cases j <;>
    simp [mat3, rotation, normalize, hd, Matrix.mul_apply, Fin.sum_univ_three, castSucc_two]
  all_goals
    first
      | linear_combination hc + L.sin angle ^ 2 * hj
      | linear_combination ((1 - L.cos angle) *
          (L.cos angle + (1 - L.cos angle) * L.inversesqrt 1 * L.inversesqrt 1 + 1)) * hj
      | ring1

/-- The view of `mGlInit`, entry by entry. -/
theorem lookAt_eq (L : Libm K) :
    lookAt L ![0, 2, 5] ![0, 0, 0] ![0, 1, 0] =
      !![5 * L.inversesqrt 29 * L.inversesqrt (5 * L.inversesqrt 29 * (5 * L.inversesqrt 29)),
          0, 0, 0;
        0,
          5 * L.inversesqrt 29 *
            (5 * L.inversesqrt 29 *
              L.inversesqrt (5 * L.inversesqrt 29 * (5 * L.inversesqrt 29))),
          -(5 * L.inversesqrt 29 *
            L.inversesqrt (5 * L.inversesqrt 29 * (5 * L.inversesqrt 29)) *
            (2 * L.inversesqrt 29)),
          -(5 * L.inversesqrt 29 *
              (5 * L.inversesqrt 29 *
                L.inversesqrt (5 * L.inversesqrt 29 * (5 * L.inversesqrt 29))) * 2 +
            -(5 * L.inversesqrt 29 *
              L.inversesqrt (5 * L.inversesqrt 29 * (5 * L.inversesqrt 29)) *
              (2 * L.inversesqrt 29)) * 5);
        0, 2 * L.inversesqrt 29, 5 * L.inversesqrt 29,
          -(2 * L.inversesqrt 29) * 2 + -(5 * L.inversesqrt 29) * 5;
        0, 0, 0, 1] := by
  have hd : dot (![0, -2, -5] : Vec3 K) ![0, -2, -5] = 29 := by
    simp [dot]
    norm_num
  have hf : normalize L ((![0, 0, 0] : Vec3 K) - ![0, 2, 5]) =
      ![0, -(2 * L.inversesqrt 29), -(5 * L.inversesqrt 29)] := by
    ext k
    fin_cases k <;> simp [normalize, hd]
  have hc : cross ![0, -(2 * L.inversesqrt 29), -(5 * L.inversesqrt 29)] (![0, 1, 0] : Vec3 K) =
      ![5 * L.inversesqrt 29, 0, 0] := by
    ext k
    fin_cases k <;> simp [cross]
  have hs : normalize L (![5 * L.inversesqrt 29, 0, 0] : Vec3 K) =
      ![5 * L.inversesqrt 29 * L.inversesqrt (5 * L.inversesqrt 29 * (5 * L.inversesqrt 29)),
        0, 0] := by
    ext k
    fin_cases k <;> simp [normalize, dot]
  unfold lookAt
  simp only [hf, hc, hs]
  ext a b
  fin_cases a <;> fin_cases b <;> simp [cross, dot]

/-- The view of `mGlInit` has an orthogonal upper-left block. -/
theorem orthogonal_view (L : Libm K) (h : Exact L) :
    Orthogonal (mat3 (lookAt L ![0, 2, 5] ![0, 0, 0] ![0, 1, 0])) := by
  have hi := h.2 29 (by norm_num)
  have hi0 : L.inversesqrt 29 ≠ 0 := by
    intro h0
    rw [h0] at hi
    simp at hi
  have hx : (0 : K) < 5 * L.inversesqrt 29 * (5 * L.inversesqrt 29) := by
    have := mul_self_pos.mpr hi0
    nlinarith
  have hj := h.2 _ hx
  rw [lookAt_eq]
  generalize L.inversesqrt (5 * L.inversesqrt 29 * (5 * L.inversesqrt 29)) = j at hj
  generalize L.inversesqrt 29 = i at hi hj
  unfold Orthogonal transpose
  ext a b
  fin_cases a <;> fin_cases b <;>
    simp [mat3, Matrix.mul_apply, Fin.sum_univ_three, castSucc_two, Matrix.vecHead,
      Matrix.vecTail]
  all_goals
    first
      | linear_combination hj
      | linear_combination (25 * i ^ 2) * hj + hi
      | linear_combination (4 * i ^ 2) * hj + hi
      | linear_combination (-10 * i ^ 2) * hj

theorem mat3_translation_mul (v : Vec3 K) (r : Mat4 K)
    (hr : ∀ j : Fin 3, r 3 (Fin.castSucc j) = 0) :
    mat3 (translate 1 v * r) = mat3 r ∧ ∀ j : Fin 3, (translate 1 v * r) 3 (Fin.castSucc j) = 0 := by
  constructor
  · rw [mat3_mul _ _ hr]
    have : mat3 (translate 1 v) = 1 := by
      ext a b
      fin_cases a <;> fin_cases b <;> simp [mat3, translate, translation, castSucc_two, Matrix.vecHead, Matrix.vecTail]
    rw [this, one_mul]
  · intro j
    have h0 := hr 0
    have h1 := hr 1
    have h2 := hr 2
    simp only [castSucc_two, Fin.castSucc_zero, Fin.castSucc_one] at h0 h1 h2
    fin_cases j <;>
      simp [translate, translation, Matrix.mul_apply, Fin.sum_univ_four, castSucc_two, h0, h1, h2,
        Matrix.vecHead, Matrix.vecTail]

theorem rotate_bottom (L : Libm K) (angle : K) (v : Vec3 K) (j : Fin 3) :
    (rotate L 1 angle v) 3 (Fin.castSucc j) = 0 := by
  fin_cases j <;> simp [rotate, rotation, castSucc_two, Matrix.vecHead, Matrix.vecTail]

theorem mat3_rotate (L : Libm K) (angle : K) (v : Vec3 K) :
    mat3 (rotate L 1 angle v) = mat3 (rotation L angle v) := by
  simp [rotate]

/-- The normal matrix of a wall with a translation only. -/
theorem normalMatrix_translate (L : Libm K) (h : Exact L) (v : Vec3 K) :
    normalMatrix (lookAt L ![0, 2, 5] ![0, 0, 0] ![0, 1, 0]) (translate 1 v) =
      mat3 (lookAt L ![0, 2, 5] ![0, 0, 0] ![0, 1, 0] * translate 1 v) := by
  apply transpose_inverse_of_orthogonal
  have hb : ∀ j : Fin 3, (translate 1 v : Mat4 K) 3 (Fin.castSucc j) = 0 := by
    intro j
    fin_cases j <;>
      simp [translate, translation, castSucc_two, Matrix.vecHead, Matrix.vecTail]
  have hm : mat3 (translate 1 v : Mat4 K) = 1 := by
    ext a b
    fin_cases a <;> fin_cases b <;> simp [mat3, translate, translation, castSucc_two, Matrix.vecHead, Matrix.vecTail]
  rw [mat3_mul _ _ hb, hm, mul_one]
  exact orthogonal_view L h

/-- The normal matrix of a wall turned about the Y axis and then moved. -/
theorem normalMatrix_translate_rotateY (L : Libm K) (h : Exact L) (v : Vec3 K) (angle : K) :
    normalMatrix (lookAt L ![0, 2, 5] ![0, 0, 0] ![0, 1, 0])
        (translate 1 v * rotate L 1 angle ![0, 1, 0]) =
      mat3 (lookAt L ![0, 2, 5] ![0, 0, 0] ![0, 1, 0] *
        (translate 1 v * rotate L 1 angle ![0, 1, 0])) := by
  apply transpose_inverse_of_orthogonal
  obtain ⟨hm, hb⟩ := mat3_translation_mul v (rotate L 1 angle ![0, 1, 0]) (rotate_bottom L angle _)
  rw [mat3_mul _ _ hb, hm, mat3_rotate]
  exact (orthogonal_view L h).mul (orthogonal_rotationY L h angle)

end Walls

/-! ## Further facts about the blocks -/

section MoreBlocks

variable {K : Type} [Field K]

theorem frontWall_uniforms (Ka Kd Ks : Vec3 K) (shininess : K) (s : OglRenderer K) :
    (exec (mGlDraw_frontWall Ka Kd Ks shininess) s).gl.uniforms.get (s.gl.program, 0) =
        some (UniformValue.fmat4 (translate 1 ![0, 1 / 2, 1 / 2])) ∧
      (exec (mGlDraw_frontWall Ka Kd Ks shininess) s).gl.uniforms.get (s.gl.program, 7) =
        some (UniformValue.fmat3
          (normalMatrix s.mViewMat.view (translate 1 ![0, 1 / 2, 1 / 2]))) := by
  show wp (mGlDraw_frontWall Ka Kd Ks shininess) (fun _ t =>
    t.gl.uniforms.get (s.gl.program, 0) =
        some (UniformValue.fmat4 (translate 1 ![0, 1 / 2, 1 / 2])) ∧
      t.gl.uniforms.get (s.gl.program, 7) =
        some (UniformValue.fmat3
          (normalMatrix s.mViewMat.view (translate 1 ![0, 1 / 2, 1 / 2])))) s
  simp [mGlDraw_frontWall, glDrawElements]

theorem rightWall_uniforms (L : Libm K) (Ka Kd Ks : Vec3 K) (shininess : K)
    (s : OglRenderer K) :
    (exec (mGlDraw_rightWall L Ka Kd Ks shininess) s).gl.uniforms.get (s.gl.program, 0) =
        some (UniformValue.fmat4
          (translate 1 ![1 / 2, 1 / 2, 0] * rotate L 1 (radians 90) ![0, 1, 0])) ∧
      (exec (mGlDraw_rightWall L Ka Kd Ks shininess) s).gl.uniforms.get (s.gl.program, 7) =
        some (UniformValue.fmat3 (normalMatrix s.mViewMat.view
          (translate 1 ![1 / 2, 1 / 2, 0] * rotate L 1 (radians 90) ![0, 1, 0]))) := by
  show wp (mGlDraw_rightWall L Ka Kd Ks shininess) (fun _ t =>
    t.gl.uniforms.get (s.gl.program, 0) =
        some (UniformValue.fmat4
          (translate 1 ![1 / 2, 1 / 2, 0] * rotate L 1 (radians 90) ![0, 1, 0])) ∧
      t.gl.uniforms.get (s.gl.program, 7) =
        some (UniformValue.fmat3 (normalMatrix s.mViewMat.view
          (translate 1 ![1 / 2, 1 / 2, 0] * rotate L 1 (radians 90) ![0, 1, 0])))) s
  simp [mGlDraw_rightWall, glDrawElements]

theorem leftWall_uniforms (L : Libm K) (Ka Kd Ks : Vec3 K) (shininess : K)
    (s : OglRenderer K) :
    (exec (mGlDraw_leftWall L Ka Kd Ks shininess) s).gl.uniforms.get (s.gl.program, 0) =
        some (UniformValue.fmat4
          (translate 1 ![-(1 / 2), 1 / 2, 0] * rotate L 1 (radians (-90)) ![0, 1, 0])) ∧
      (exec (mGlDraw_leftWall L Ka Kd Ks shininess) s).gl.uniforms.get (s.gl.program, 7) =
        some (UniformValue.fmat3 (normalMatrix s.mViewMat.view
          (translate 1 ![-(1 / 2), 1 / 2, 0] * rotate L 1 (radians (-90)) ![0, 1, 0]))) := by
  show wp (mGlDraw_leftWall L Ka Kd Ks shininess) (fun _ t =>
    t.gl.uniforms.get (s.gl.program, 0) =
        some (UniformValue.fmat4
          (translate 1 ![-(1 / 2), 1 / 2, 0] * rotate L 1 (radians (-90)) ![0, 1, 0])) ∧
      t.gl.uniforms.get (s.gl.program, 7) =
        some (UniformValue.fmat3 (normalMatrix s.mViewMat.view
          (translate 1 ![-(1 / 2), 1 / 2, 0] * rotate L 1 (radians (-90)) ![0, 1, 0])))) s
  simp [mGlDraw_leftWall, glDrawElements]

theorem backWall_uniforms (L : Libm K) (Ka Kd Ks : Vec3 K) (shininess : K)
    (s : OglRenderer K) :
    (exec (mGlDraw_backWall L Ka Kd Ks shininess) s).gl.uniforms.get (s.gl.program, 0) =
        some (UniformValue.fmat4
          (translate 1 ![0, 1 / 2, -(1 / 2)] * rotate L 1 (radians 180) ![0, 1, 0])) ∧
      (exec (mGlDraw_backWall L Ka Kd Ks shininess) s).gl.uniforms.get (s.gl.program, 7) =
        some (UniformValue.fmat3 (normalMatrix s.mViewMat.view
          (translate 1 ![0, 1 / 2, -(1 / 2)] * rotate L 1 (radians 180) ![0, 1, 0]))) := by
  show wp (mGlDraw_backWall L Ka Kd Ks shininess) (fun _ t =>
    t.gl.uniforms.get (s.gl.program, 0) =
        some (UniformValue.fmat4
          (translate 1 ![0, 1 / 2, -(1 / 2)] * rotate L 1 (radians 180) ![0, 1, 0])) ∧
      t.gl.uniforms.get (s.gl.program, 7) =
        some (UniformValue.fmat3 (normalMatrix s.mViewMat.view
          (translate 1 ![0, 1 / 2, -(1 / 2)] * rotate L 1 (radians 180) ![0, 1, 0])))) s
  simp [mGlDraw_backWall, glDrawElements]

theorem sameView_mSetupGLSLProgram (D : Driver) (s : OglRenderer K) :
    SameView s (exec (mSetupGLSLProgram D) s) := by
  show wp (mSetupGLSLProgram D) (fun _ t => SameView s t) s
  simp [SameView, mSetupGLSLProgram]

theorem sameView_mSetupBuffers (s : OglRenderer K) : SameView s (exec mSetupBuffers s) := by
  show wp mSetupBuffers (fun _ t => SameView s t) s
  simp [SameView, mSetupBuffers]

theorem sameView_mSetupRenderTarget (s : OglRenderer K) :
    SameView s (exec mSetupRenderTarget s) := by
  show wp mSetupRenderTarget (fun _ t => SameView s t) s
  simp [SameView, mSetupRenderTarget]

theorem sameView_mGlInit_light (s : OglRenderer K) : SameView s (exec mGlInit_light s) := by
  show wp mGlInit_light (fun _ t => SameView s t) s
  simp [SameView, mGlInit_light]

theorem sameView_mLoadTextures (D : Driver) (s : OglRenderer K) :
    SameView s (exec (mLoadTextures D) s) := by
  show wp (mLoadTextures D) (fun _ t => SameView s t) s
  simp [SameView, mLoadTextures]

theorem mGlInit_viewMatrix_projection (L : Libm K) (s : OglRenderer K) :
    (exec (mGlInit_viewMatrix L) s).mViewMat.projection = projectionFor L s.mViewportSize := by
  show wp (mGlInit_viewMatrix L)
    (fun _ t => t.mViewMat.projection = projectionFor L s.mViewportSize) s
  simp [mGlInit_viewMatrix]

/-- The projection `mGlInit` leaves in `mViewMat` is the one for the viewport
size it starts from. -/
theorem mGlInit_projection (D : Driver) (L : Libm K) (s : OglRenderer K) :
    (exec (mGlInit D L) s).mViewMat.projection = projectionFor L s.mViewportSize := by
  rw [exec_mGlInit, (sameView_mLoadTextures D _).2, (sameView_mGlInit_light _).2]
  simp only [exec_assign]
  rw [(sameView_mSetupRenderTarget _).2, mGlInit_viewMatrix_projection,
    (sameView_mSetupBuffers _).1, (sameView_mSetupGLSLProgram D _).1]
  simp

/-- The projection `mGlDraw` leaves in `mViewMat` when the viewport is dirty is
the one for the current viewport size. -/
theorem mGlDraw_projection (L : Libm K) (s : OglRenderer K) (h : s.mViewportDirty = true) :
    (exec (mGlDraw L) s).mViewMat.projection = projectionFor L s.mViewportSize := by
  rw [(mGlDraw_dirty L s h).2.2.1]
  exact (viewportDirty_refreshed L s).2.2.2.2.1

theorem renderTarget_of_rebuilt {s t : OglRenderer K} (h : Rebuilt s t) :
    renderTarget t =
      some (⟨InternalFormat.GL_RGBA, s.mViewportSize.1, s.mViewportSize.2⟩,
        ⟨InternalFormat.GL_DEPTH24_STENCIL8, s.mViewportSize.1, s.mViewportSize.2⟩) := by
  obtain ⟨h1, h2, h3, -⟩ := h
  simp [renderTarget, h1, h2, h3]

theorem renderTarget_of_stable {s t : OglRenderer K} (h : Stable s t) (x : TexImage × TexImage)
    (hx : renderTarget s = some x) : renderTarget t = some x := by
  obtain ⟨-, -, -, hF, -, -, -, hI, -, -, -, -, hB⟩ := h
  unfold renderTarget at hx ⊢
  cases hf : s.gl.framebuffers.get s.mFBO with
  | none => simp [hf] at hx
  | some f =>
    rw [hF, hB _ _ hf]
    rw [hf] at hx
    simpa [hI] using hx

theorem renderTarget_mSetupRenderTarget (s : OglRenderer K) :
    renderTarget (exec mSetupRenderTarget s) =
      some (⟨InternalFormat.GL_RGBA, s.mViewportSize.1, s.mViewportSize.2⟩,
        ⟨InternalFormat.GL_DEPTH24_STENCIL8, s.mViewportSize.1, s.mViewportSize.2⟩) := by
  show wp mSetupRenderTarget (fun _ t => renderTarget t =
      some (⟨InternalFormat.GL_RGBA, s.mViewportSize.1, s.mViewportSize.2⟩,
        ⟨InternalFormat.GL_DEPTH24_STENCIL8, s.mViewportSize.1, s.mViewportSize.2⟩)) s
  simp [mSetupRenderTarget, renderTarget, imageOf_put]

/-- After a resize and the next frame the render target has the new size. -/
theorem renderTarget_resize_draw (L : Libm K) (s : OglRenderer K) (width height : Int) :
    renderTarget (step L (step L s (Event.resize width height)) Event.draw) =
      some (⟨InternalFormat.GL_RGBA, width, height⟩,
        ⟨InternalFormat.GL_DEPTH24_STENCIL8, width, height⟩) := by
  have hd : (step L s (Event.resize width height)).mViewportDirty = true := by
    simp [step, Event.act, exec_resizeCallback]
  have hs : (step L s (Event.resize width height)).mViewportSize = (width, height) := by
    simp [step, Event.act, exec_resizeCallback]
  have h := renderTarget_of_rebuilt (viewportDirty_rebuilt L (step L s (Event.resize width height)))
  rw [hs] at h
  exact renderTarget_of_stable (mGlDraw_dirty L _ hd) _ h

end MoreBlocks

/-! ## The rendering commands of a frame -/

section Log

variable {K : Type} [Field K]

theorem frontWall_issued (Ka Kd Ks : Vec3 K) (shininess : K) (s : OglRenderer K) :
    Issued (Command.drawElements s.mNumElements) s
        (exec (mGlDraw_frontWall Ka Kd Ks shininess) s) ∧
      Bindings s (exec (mGlDraw_frontWall Ka Kd Ks shininess) s) ∧
      (exec (mGlDraw_frontWall Ka Kd Ks shininess) s).gl.framebuffer = s.gl.framebuffer := by
  show wp (mGlDraw_frontWall Ka Kd Ks shininess) (fun _ t =>
    Issued (Command.drawElements s.mNumElements) s t ∧ Bindings s t ∧
      t.gl.framebuffer = s.gl.framebuffer) s
  simp [Issued, Bindings, mGlDraw_frontWall, glDrawElements]

theorem rightWall_issued (L : Libm K) (Ka Kd Ks : Vec3 K) (shininess : K) (s : OglRenderer K) :
    Issued (Command.drawElements s.mNumElements) s
        (exec (mGlDraw_rightWall L Ka Kd Ks shininess) s) ∧
      Bindings s (exec (mGlDraw_rightWall L Ka Kd Ks shininess) s) ∧
      (exec (mGlDraw_rightWall L Ka Kd Ks shininess) s).gl.framebuffer = s.gl.framebuffer := by
  show wp (mGlDraw_rightWall L Ka Kd Ks shininess) (fun _ t =>
    Issued (Command.drawElements s.mNumElements) s t ∧ Bindings s t ∧
      t.gl.framebuffer = s.gl.framebuffer) s
  simp [Issued, Bindings, mGlDraw_rightWall, glDrawElements]

theorem leftWall_issued (L : Libm K) (Ka Kd Ks : Vec3 K) (shininess : K) (s : OglRenderer K) :
    Issued (Command.drawElements s.mNumElements) s
        (exec (mGlDraw_leftWall L Ka Kd Ks shininess) s) ∧
      Bindings s (exec (mGlDraw_leftWall L Ka Kd Ks shininess) s) ∧
      (exec (mGlDraw_leftWall L Ka Kd Ks shininess) s).gl.framebuffer = s.gl.framebuffer := by
  show wp (mGlDraw_leftWall L Ka Kd Ks shininess) (fun _ t =>
    Issued (Command.drawElements s.mNumElements) s t ∧ Bindings s t ∧
      t.gl.framebuffer = s.gl.framebuffer) s
  simp [Issued, Bindings, mGlDraw_leftWall, glDrawElements]

theorem backWall_issued (L : Libm K) (Ka Kd Ks : Vec3 K) (shininess : K) (s : OglRenderer K) :
    Issued (Command.drawElements s.mNumElements) s
        (exec (mGlDraw_backWall L Ka Kd Ks shininess) s) ∧
      Bindings s (exec (mGlDraw_backWall L Ka Kd Ks shininess) s) ∧
      (exec (mGlDraw_backWall L Ka Kd Ks shininess) s).gl.framebuffer = s.gl.framebuffer := by
  show wp (mGlDraw_backWall L Ka Kd Ks shininess) (fun _ t =>
    Issued (Command.drawElements s.mNumElements) s t ∧ Bindings s t ∧
      t.gl.framebuffer = s.gl.framebuffer) s
  simp [Issued, Bindings, mGlDraw_backWall, glDrawElements]

theorem floor_issued (L : Libm K) (Ka Kd Ks : Vec3 K) (shininess : K) (s : OglRenderer K) :
    Issued (Command.drawElements s.mNumElements) s
        (exec (mGlDraw_floor L Ka Kd Ks shininess) s) ∧
      Bindings s (exec (mGlDraw_floor L Ka Kd Ks shininess) s) ∧
      (exec (mGlDraw_floor L Ka Kd Ks shininess) s).gl.framebuffer = s.gl.framebuffer := by
  show wp (mGlDraw_floor L Ka Kd Ks shininess) (fun _ t =>
    Issued (Command.drawElements s.mNumElements) s t ∧ Bindings s t ∧
      t.gl.framebuffer = s.gl.framebuffer) s
  simp [Issued, Bindings, mGlDraw_floor, glDrawElements]

theorem useProgram_bindings (s : OglRenderer K) :
    (exec (call fun s g => glUseProgram g s.mPrg1ID) s).commands = s.commands ∧
      Bindings s (exec (call fun s g => glUseProgram g s.mPrg1ID) s) ∧
      (exec (call fun s g => glUseProgram g s.mPrg1ID) s).gl.framebuffer = s.gl.framebuffer := by
  simp [Bindings]

theorem end_issued (s : OglRenderer K) :
    Issued (Command.blitNamedFramebuffer s.mFBO 0 (0, 0, s.mViewportSize.1, s.mViewportSize.2)
        (0, 0, s.mViewportSize.1, s.mViewportSize.2)) s (exec mGlDraw_end s) ∧
      Bindings s (exec mGlDraw_end s) := by
  show wp mGlDraw_end (fun _ t =>
    Issued (Command.blitNamedFramebuffer s.mFBO 0 (0, 0, s.mViewportSize.1, s.mViewportSize.2)
        (0, 0, s.mViewportSize.1, s.mViewportSize.2)) s t ∧ Bindings s t) s
  simp [Issued, Bindings, mGlDraw_end, glBlitNamedFramebuffer]

/-- The statements of `mGlDraw` up to `mSettings |= LIGHT_ON`: the clear is
issued with `mFBO` bound, the viewport at the viewport size and the clear color
the block found; the block ends with the clear color (0, 0, 0, 1) and the
camera and light blocks bound to slots 0 and 1. -/
theorem begin_cleared (s : OglRenderer K) :
    (exec mGlDraw_begin s).commands =
        s.commands ++ [(Command.clear true true true,
          glViewport (glBindFramebuffer s.gl s.mFBO) 0 0 s.mViewportSize.1 s.mViewportSize.2)] ∧
      (exec mGlDraw_begin s).gl.clearColor = ![0, 0, 0, 1] ∧
      (exec mGlDraw_begin s).gl.framebuffer = s.mFBO ∧
      (exec mGlDraw_begin s).gl.uniformBufferBase.get 0 = some s.mViewMatrixUniformIdx ∧
      (exec mGlDraw_begin s).gl.uniformBufferBase.get 1 = some s.mLightUniformIdx := by
  show wp mGlDraw_begin (fun _ t =>
    t.commands = s.commands ++ [(Command.clear true true true,
      glViewport (glBindFramebuffer s.gl s.mFBO) 0 0 s.mViewportSize.1 s.mViewportSize.2)] ∧
    t.gl.clearColor = ![0, 0, 0, 1] ∧ t.gl.framebuffer = s.mFBO ∧
    t.gl.uniformBufferBase.get 0 = some s.mViewMatrixUniformIdx ∧
    t.gl.uniformBufferBase.get 1 = some s.mLightUniformIdx) s
  simp [mGlDraw_begin, glClear]

theorem viewportDirty_clearColor (L : Libm K) (s : OglRenderer K) :
    (exec (mGlDraw_viewportDirty L) s).gl.clearColor = s.gl.clearColor := by
  show wp (mGlDraw_viewportDirty L) (fun _ t => t.gl.clearColor = s.gl.clearColor) s
  simp [mGlDraw_viewportDirty, mSetupRenderTarget]

end Log

/-! ## The camera block and the render target follow the viewport size -/

section Sync

variable {K : Type} [Field K]

/-- `Synced` reads the context and six members only. -/
theorem Synced.of_members {L : Libm K} {a b : OglRenderer K} (h : Synced L a)
    (hg : b.gl = a.gl) (h1 : b.mViewMatrixUniformIdx = a.mViewMatrixUniformIdx)
    (h2 : b.mViewMat.view = a.mViewMat.view) (h3 : b.mViewportSize = a.mViewportSize)
    (h4 : b.mLightUniformIdx = a.mLightUniformIdx) (h5 : b.mLightInfo = a.mLightInfo)
    (h6 : b.mFBO = a.mFBO) : Synced L b := by
  unfold Synced renderTarget at h ⊢
  rw [hg, h1, h2, h3, h4, h5, h6]
  exact h

theorem Synced.stays {L : Libm K} {s t : OglRenderer K} (h : Synced L s)
    (hs : Stable s t) : Synced L t := by
  have hT := renderTarget_of_stable hs _ h.2.2
  obtain ⟨hF, -, -, -, -, -, -, -, -, -, hB, -, -⟩ := hs
  refine ⟨?_, ?_, ?_⟩
  · rw [hF.mViewMatrixUniformIdx, hF.view, hF.mViewportSize]
    exact hB _ _ h.1
  · rw [hF.mLightUniformIdx, hF.mLightInfo]
    exact hB _ _ h.2.1
  · rw [hF.mViewportSize]
    exact hT

/-- The context of a state reached by blocks that keep the frame, seen from
the end of the frame. -/
theorem applied_of_stable {L : Libm K} {u a t : OglRenderer K} (hu : Synced L u)
    (ha : Stable u a) (ht : Stable u t)
    (h0 : a.gl.uniformBufferBase.get 0 = some u.mViewMatrixUniformIdx)
    (h1 : a.gl.uniformBufferBase.get 1 = some u.mLightUniformIdx) : Applied L t a.gl := by
  refine ⟨?_, ?_, ?_⟩
  · rw [h0, ht.1.mViewMatrixUniformIdx]
  · rw [h1, ht.1.mLightUniformIdx]
  · refine (hu.stays ha).of_members rfl ?_ ?_ ?_ ?_ ?_ ?_
    · exact ht.1.mViewMatrixUniformIdx.trans ha.1.mViewMatrixUniformIdx.symm
    · exact ht.1.view.trans ha.1.view.symm
    · exact ht.1.mViewportSize.trans ha.1.mViewportSize.symm
    · exact ht.1.mLightUniformIdx.trans ha.1.mLightUniformIdx.symm
    · exact ht.1.mLightInfo.trans ha.1.mLightInfo.symm
    · exact ht.2.2.2.1.trans ha.2.2.2.1.symm

/-- The block `if (mViewportDirty == true)` brings the camera block and the
render target to the viewport size. -/
theorem viewportDirty_synced (D : Driver) (L : Libm K) (s : OglRenderer K) (hr : Ready D L s) :
    Synced L (exec (mGlDraw_viewportDirty L) s) := by
  obtain ⟨-, -, ⟨c1, -, -⟩, ⟨l1, -, l3⟩, -⟩ := hr
  have hc := viewportDirty_camera L s (by rw [c1]; decide)
  have hT := renderTarget_of_rebuilt (viewportDirty_rebuilt L s)
  obtain ⟨hF, -, -, -, hp, hvp, -, -, -, -, -, -, -, hB⟩ := viewportDirty_refreshed L s
  refine ⟨?_, ?_, ?_⟩
  · rw [hF.mViewMatrixUniformIdx, hc, hF.mViewportSize, ← hp, ← hvp]
  · rw [hF.mLightUniformIdx, hF.mLightInfo, hB _ (by rw [l1, c1]; decide), l1]
    exact l3
  · rw [hF.mViewportSize]
    exact hT

/-- The state `mGlDraw` is in after the block `if (mViewportDirty == true)`. -/
theorem mGlDraw_entry (D : Driver) (L : Libm K) (s : OglRenderer K) (hr : Ready D L s)
    (hi : s.mViewportDirty = false → Synced L s) :
    Synced L (if s.mViewportDirty = true then exec (mGlDraw_viewportDirty L) s else s) ∧
      Frame s (if s.mViewportDirty = true then exec (mGlDraw_viewportDirty L) s else s) ∧
      (if s.mViewportDirty = true then exec (mGlDraw_viewportDirty L) s else s).commands =
        s.commands ∧
      (if s.mViewportDirty = true then exec (mGlDraw_viewportDirty L) s else s).gl.clearColor =
        s.gl.clearColor := by
  cases hd : s.mViewportDirty
  · rw [if_neg (by simp)]
    exact ⟨hi hd, Frame.same s, rfl, rfl⟩
  · rw [if_pos rfl]
    exact ⟨viewportDirty_synced D L s hr, (viewportDirty_refreshed L s).1,
      (viewportDirty_refreshed L s).2.2.1, viewportDirty_clearColor L s⟩

end Sync

/-! ## What a frame issues -/

section FrameLog

variable {K : Type} [Field K]

/-- The seven rendering commands of a frame and the contexts they run in: the
clear runs with `mFBO` bound, the viewport at the viewport size and the clear
color the frame found; the five draw calls run with `mFBO` bound; the draw
calls and the blit run with the camera and light blocks bound and in agreement
with the viewport size; the frame ends with the clear color (0, 0, 0, 1). -/
theorem mGlDraw_log (D : Driver) (L : Libm K) (s : OglRenderer K) (hr : Ready D L s)
    (hi : s.mViewportDirty = false → Synced L s) :
    ∃ g0 g1 g2 g3 g4 g5 g6 : Context K,
      (exec (mGlDraw L) s).commands =
        s.commands ++
          [(Command.clear true true true, g0), (Command.drawElements s.mNumElements, g1),
            (Command.drawElements s.mNumElements, g2),
            (Command.drawElements s.mNumElements, g3),
            (Command.drawElements s.mNumElements, g4),
            (Command.drawElements s.mNumElements, g5),
            (Command.blitNamedFramebuffer (exec (mGlDraw L) s).mFBO 0
              (0, 0, s.mViewportSize.1, s.mViewportSize.2)
              (0, 0, s.mViewportSize.1, s.mViewportSize.2), g6)] ∧
      (g0.framebuffer = (exec (mGlDraw L) s).mFBO ∧
        g0.viewport = (0, 0, s.mViewportSize.1, s.mViewportSize.2) ∧
        g0.clearColor = s.gl.clearColor) ∧
      (∀ g ∈ [g1, g2, g3, g4, g5, g6], Applied L (exec (mGlDraw L) s) g) ∧
      (∀ g ∈ [g1, g2, g3, g4, g5], g.framebuffer = (exec (mGlDraw L) s).mFBO) ∧
      (exec (mGlDraw L) s).gl.clearColor = ![0, 0, 0, 1] ∧ Synced L (exec (mGlDraw L) s) := by
  obtain ⟨hu, hF, hC, hK⟩ := mGlDraw_entry D L s hr hi
  rw [exec_mGlDraw]
  generalize (if s.mViewportDirty = true then exec (mGlDraw_viewportDirty L) s else s) = u
    at hu hF hC hK ⊢
  obtain ⟨S2, -, -⟩ := begin_kept u
  obtain ⟨I2, K2, F2, A2, B2⟩ := begin_cleared u
  generalize exec mGlDraw_begin u = s2 at S2 I2 K2 F2 A2 B2 ⊢
  obtain ⟨S3, -, -⟩ := frontWall_drawn (vec3 (8 / 10)) (vec3 (8 / 10)) (vec3 1) 120 s2
  obtain ⟨I3, ⟨U3, -, K3⟩, F3⟩ :=
    frontWall_issued (vec3 (8 / 10)) (vec3 (8 / 10)) (vec3 1) 120 s2
  generalize exec (mGlDraw_frontWall (vec3 (8 / 10)) (vec3 (8 / 10)) (vec3 1) 120) s2 = s3
    at S3 I3 U3 K3 F3 ⊢
  obtain ⟨S4, -, -⟩ := rightWall_drawn L (vec3 1) (vec3 1) (vec3 1) 120 s3
  obtain ⟨I4, ⟨U4, -, K4⟩, F4⟩ := rightWall_issued L (vec3 1) (vec3 1) (vec3 1) 120 s3
  generalize exec (mGlDraw_rightWall L (vec3 1) (vec3 1) (vec3 1) 120) s3 = s4
    at S4 I4 U4 K4 F4 ⊢
  obtain ⟨S5, -, -⟩ := leftWall_drawn L (vec3 1) (vec3 1) (vec3 1) 120 s4
  obtain ⟨I5, ⟨U5, -, K5⟩, F5⟩ := leftWall_issued L (vec3 1) (vec3 1) (vec3 1) 120 s4
  generalize exec (mGlDraw_leftWall L (vec3 1) (vec3 1) (vec3 1) 120) s4 = s5
    at S5 I5 U5 K5 F5 ⊢
  obtain ⟨S6, -, -⟩ := backWall_drawn L (vec3 1) (vec3 1) (vec3 1) 120 s5
  obtain ⟨I6, ⟨U6, -, K6⟩, F6⟩ := backWall_issued L (vec3 1) (vec3 1) (vec3 1) 120 s5
  generalize exec (mGlDraw_backWall L (vec3 1) (vec3 1) (vec3 1) 120) s5 = s6
    at S6 I6 U6 K6 F6 ⊢
  obtain ⟨S7, -, -⟩ := useProgram_kept s6
  obtain ⟨I7, ⟨U7, -, K7⟩, F7⟩ := useProgram_bindings s6
  generalize exec (call fun s g => glUseProgram g s.mPrg1ID) s6 = s7 at S7 I7 U7 K7 F7 ⊢
  obtain ⟨S8, -, -⟩ := floor_drawn L (vec3 (4 / 10)) (vec3 0) (vec3 1) 120 s7
  obtain ⟨I8, ⟨U8, -, K8⟩, F8⟩ := floor_issued L (vec3 (4 / 10)) (vec3 0) (vec3 1) 120 s7
  generalize exec (mGlDraw_floor L (vec3 (4 / 10)) (vec3 0) (vec3 1) 120) s7 = s8
    at S8 I8 U8 K8 F8 ⊢
  obtain ⟨S9, -, -⟩ := end_kept s8
  obtain ⟨I9, U9, -, K9⟩ := end_issued s8
  generalize exec mGlDraw_end s8 = s9 at S9 I9 U9 K9 ⊢
  have T3 := S2.followedBy S3
  have T4 := T3.followedBy S4
  have T5 := T4.followedBy S5
  have T6 := T5.followedBy S6
  have T7 := T6.followedBy S7
  have T8 := T7.followedBy S8
  have T9 := T8.followedBy S9
  have M9 : s9.mFBO = u.mFBO := T9.2.2.2.1
  refine ⟨glViewport (glBindFramebuffer u.gl u.mFBO) 0 0 u.mViewportSize.1 u.mViewportSize.2,
    s3.gl, s4.gl, s5.gl, s6.gl, s8.gl, s9.gl, ?_, ⟨?_, ?_, ?_⟩, ?_, ?_, ?_, hu.stays T9⟩
  · unfold Issued at I3 I4 I5 I6 I8 I9
    rw [I9, I8, I7, I6, I5, I4, I3, I2, hC, T8.1.mViewportSize, T8.2.2.2.1, M9,
      T7.1.mNumElements, T5.1.mNumElements, T4.1.mNumElements, T3.1.mNumElements,
      S2.1.mNumElements, hF.mNumElements, hF.mViewportSize]
    simp only [List.append_assoc, List.cons_append, List.nil_append]
  · rw [M9]
    simp only [glViewport, glBindFramebuffer]
  · rw [hF.mViewportSize]
    simp only [glViewport]
  · rw [← hK]
    simp only [glViewport, glBindFramebuffer]
  · intro g hg
    simp only [List.mem_cons, List.mem_singleton, List.not_mem_nil, or_false] at hg
    rcases hg with rfl | rfl | rfl | rfl | rfl | rfl
    · exact applied_of_stable hu T3 T9 (by rw [U3]; exact A2) (by rw [U3]; exact B2)
    · exact applied_of_stable hu T4 T9 (by rw [U4, U3]; exact A2) (by rw [U4, U3]; exact B2)
    · exact applied_of_stable hu T5 T9 (by rw [U5, U4, U3]; exact A2)
        (by rw [U5, U4, U3]; exact B2)
    · exact applied_of_stable hu T6 T9 (by rw [U6, U5, U4, U3]; exact A2)
        (by rw [U6, U5, U4, U3]; exact B2)
    · exact applied_of_stable hu T8 T9 (by rw [U8, U7, U6, U5, U4, U3]; exact A2)
        (by rw [U8, U7, U6, U5, U4, U3]; exact B2)
    · exact applied_of_stable hu T9 T9 (by rw [U9, U8, U7, U6, U5, U4, U3]; exact A2)
        (by rw [U9, U8, U7, U6, U5, U4, U3]; exact B2)
  · intro g hg
    simp only [List.mem_cons, List.mem_singleton, List.not_mem_nil, or_false] at hg
    rw [M9]
    rcases hg with rfl | rfl | rfl | rfl | rfl
    · rw [F3, F2]
    · rw [F4, F3, F2]
    · rw [F5, F4, F3, F2]
    · rw [F6, F5, F4, F3, F2]
    · rw [F8, F7, F6, F5, F4, F3, F2]
  · rw [K9, K8, K7, K6, K5, K4, K3, K2]

end FrameLog

/-! ## The draw calls of a frame -/

section DrawCalls

variable {K : Type} [Field K]

/-- C1: from every state reached after `init` (the viewport 800x600 at the
start, the dirty flag set or clear), one call of `mGlDraw` adds exactly five
indexed draw calls, each of `mNumElements` = 6 indices: the first four are
issued while `mPrg0ID` is the program in use and the fifth while `mPrg1ID` is,
where `mPrg0ID` is the program linked from the vertex stage and the mono-color
fragment stage and `mPrg1ID` the one linked from the vertex stage and the
textured fragment stage. -/
theorem C1_mGlDraw_five_draw_calls (D : Driver) (L : Libm K) (es : List (Event K)) :
    drawCalls (exec (mGlDraw L) (run L (init D L) es)).commands =
        drawCalls (run L (init D L) es).commands ++
          [((run L (init D L) es).mPrg0ID, 6), ((run L (init D L) es).mPrg0ID, 6),
            ((run L (init D L) es).mPrg0ID, 6), ((run L (init D L) es).mPrg0ID, 6),
            ((run L (init D L) es).mPrg1ID, 6)] ∧
      (run L (init D L) es).mNumElements = 6 ∧
      (run L (init D L) es).mPrg0ID ≠ (run L (init D L) es).mPrg1ID ∧
      stagesOf (run L (init D L) es).gl.programs (run L (init D L) es).mPrg0ID =
        [(ShaderType.GL_VERTEX_SHADER, some ShaderSource.vtx_plain),
          (ShaderType.GL_FRAGMENT_SHADER, some ShaderSource.frag_mono_color)] ∧
      stagesOf (run L (init D L) es).gl.programs (run L (init D L) es).mPrg1ID =
        [(ShaderType.GL_VERTEX_SHADER, some ShaderSource.vtx_plain),
          (ShaderType.GL_FRAGMENT_SHADER, some ShaderSource.frag_tex)] := by
  have hr : Ready D L (run L (init D L) es) := run_ready D L es _ (init_spec D L).2.1
  obtain ⟨⟨p0, p1, p2, p3⟩, ⟨g1, -⟩, -⟩ := hr
  refine ⟨?_, g1, ?_, ?_, ?_⟩
  · rw [mGlDraw_drawCalls, g1]
  · rw [p0, p1]
    decide
  · rw [p0, p2]
  · rw [p1, p3]

end DrawCalls

/-! ## The dirty flag -/

section DirtyFlag

variable {K : Type} [Field K]

theorem step_mViewportDirty (L : Libm K) (s : OglRenderer K) (e : Event K) :
    (step L s e).mViewportDirty =
      match e with
      | Event.resize _ _ => true
      | Event.draw => false
      | _ => s.mViewportDirty := by
  cases e with
  | resize w h => simp [step, Event.act, exec_resizeCallback]
  | mouseMove x y => simp [step, Event.act, exec_handleMouseMove]
  | mouseButton b a m => simp [step, Event.act, exec_handleMouseButton]
  | draw => simpa [step, Event.act] using mGlDraw_mViewportDirty L s

theorem run_append (L : Libm K) (s : OglRenderer K) (xs ys : List (Event K)) :
    run L s (xs ++ ys) = run L (run L s xs) ys := by
  simp [run, List.foldl_append]

theorem dirtyCleared_append (L : Libm K) (xs ys : List (Event K)) (s : OglRenderer K) :
    dirtyCleared L s (xs ++ ys) = dirtyCleared L s xs + dirtyCleared L (run L s xs) ys := by
  induction xs generalizing s with
  | nil => simp [dirtyCleared, run]
  | cons e xs ih =>
    have h := ih (step L s e)
    simp only [run] at h
    show dirtyCleared L s (e :: (xs ++ ys)) = _
    simp only [dirtyCleared, run, List.foldl_cons, h]
    omega

theorem dirtyCleared_no_draw (L : Libm K) (es : List (Event K)) (s : OglRenderer K)
    (hes : ∀ e ∈ es, e ≠ Event.draw) (hs : s.mViewportDirty = true) :
    (run L s es).mViewportDirty = true ∧ dirtyCleared L s es = 0 := by
  induction es generalizing s with
  | nil => exact ⟨hs, rfl⟩
  | cons e es ih =>
    have he : e ≠ Event.draw := hes e (List.mem_cons_self _ _)
    have h1 : (step L s e).mViewportDirty = true := by
      rw [step_mViewportDirty]
      cases e with
      | resize w h => rfl
      | mouseMove x y => exact hs
      | mouseButton b a m => exact hs
      | draw => exact absurd rfl he
    obtain ⟨h2, h3⟩ := ih (step L s e) (fun e' he' => hes e' (List.mem_cons_of_mem _ he')) h1
    refine ⟨h2, ?_⟩
    simp [dirtyCleared, h1, h3]

/-- C2: `mViewportDirty` is false when `init` returns; an event that turns it
from false to true is a `resizeCallback`, and every `resizeCallback` leaves it
true; it is false after every `mGlDraw`; and after a resize event, along the
events up to and including the next `mGlDraw`, the flag goes from true to false
exactly once. -/
theorem C2_mViewportDirty_transitions (D : Driver) (L : Libm K) :
    (init D L).mViewportDirty = false ∧
      (∀ (s : OglRenderer K) (e : Event K), s.mViewportDirty = false →
        (step L s e).mViewportDirty = true → ∃ width height, e = Event.resize width height) ∧
      (∀ (s : OglRenderer K) (width height : Int),
        (step L s (Event.resize width height)).mViewportDirty = true) ∧
      (∀ s : OglRenderer K, (step L s Event.draw).mViewportDirty = false) ∧
      ∀ (s : OglRenderer K) (width height : Int) (es : List (Event K)),
        (∀ e ∈ es, e ≠ Event.draw) →
          dirtyCleared L (step L s (Event.resize width height)) (es ++ [Event.draw]) = 1 := by
  refine ⟨(init_spec D L).2.2.2.2.1, ?_, ?_, ?_, ?_⟩
  · intro s e hs he
    rw [step_mViewportDirty] at he
    cases e with
    | resize w h => exact ⟨w, h, rfl⟩
    | mouseMove x y => simp [hs] at he
    | mouseButton b a m => simp [hs] at he
    | draw => simp at he
  · intro s w h
    rw [step_mViewportDirty]
  · intro s
    rw [step_mViewportDirty]
  · intro s w h es hes
    have h0 : (step L s (Event.resize w h)).mViewportDirty = true := by rw [step_mViewportDirty]
    obtain ⟨h1, h2⟩ := dirtyCleared_no_draw L es _ hes h0
    rw [dirtyCleared_append, h2]
    simp [dirtyCleared, h1, step_mViewportDirty]

/-- C2 at a concrete run: from `init`, a resize to 640x480, a mouse motion,
then a frame. -/
theorem C2_mViewportDirty_transitions_witness :
    (∃ width height, (Event.resize 640 480 : Event ℚ) = Event.resize width height) ∧
      dirtyCleared Libm.sample
        (step Libm.sample (init Driver.sample Libm.sample) (Event.resize 640 480))
        ([Event.mouseMove 1 2] ++ [Event.draw]) = 1 :=
  ⟨(C2_mViewportDirty_transitions Driver.sample Libm.sample).2.1
      (init Driver.sample Libm.sample) (Event.resize 640 480)
      (C2_mViewportDirty_transitions Driver.sample Libm.sample).1
      ((C2_mViewportDirty_transitions Driver.sample Libm.sample).2.2.1 _ 640 480),
    (C2_mViewportDirty_transitions Driver.sample Libm.sample).2.2.2.2
      (init Driver.sample Libm.sample) 640 480 [Event.mouseMove 1 2] (by simp)⟩

end DirtyFlag

/-! ## The mouse -/

section Mouse

variable {K : Type} [Field K]

theorem run_mouseMoves (L : Libm K) (moves : List (K × K)) (s : OglRenderer K) :
    (run L s (moves.map fun p => Event.mouseMove p.1 p.2)).mLeftMouseButtonPressed =
      s.mLeftMouseButtonPressed := by
  induction moves generalizing s with
  | nil => rfl
  | cons p moves ih =>
    simp only [List.map_cons, run, List.foldl_cons]
    exact (ih _).trans (by simp [step, Event.act, exec_handleMouseMove])

/-- C6: whatever `mLeftMouseButtonPressed` was, and whatever the motion events
in between, a press of the left button, the motion events, then a release of
the left button leave `mLeftMouseButtonPressed` false (it is true from the
press up to the release); `handleMouseMove` never changes the flag. -/
theorem C6_press_moves_release (L : Libm K) (s : OglRenderer K) (moves : List (K × K))
    (mods mods' : Int) :
    (run L s ([Event.mouseButton GLFW_MOUSE_BUTTON_LEFT GLFW_PRESS mods] ++
        (moves.map fun p => Event.mouseMove p.1 p.2) ++
        [Event.mouseButton GLFW_MOUSE_BUTTON_LEFT GLFW_RELEASE mods'])).mLeftMouseButtonPressed =
        false ∧
      (run L s ([Event.mouseButton GLFW_MOUSE_BUTTON_LEFT GLFW_PRESS mods] ++
        (moves.map fun p => Event.mouseMove p.1 p.2))).mLeftMouseButtonPressed = true ∧
      ∀ (t : OglRenderer K) (xpos ypos : K),
        (exec (handleMouseMove L xpos ypos) t).mLeftMouseButtonPressed =
          t.mLeftMouseButtonPressed := by
  refine ⟨?_, ?_, ?_⟩
  · rw [run_append]
    simp [run, step, Event.act, exec_handleMouseButton, GLFW_RELEASE, GLFW_PRESS]
  · rw [run_append, run_mouseMoves]
    simp [run, step, Event.act, exec_handleMouseButton]
  · intro t x y
    rw [exec_handleMouseMove]

end Mouse

/-! ## The render target -/

section RenderTarget

variable {K : Type} [Field K]

/-- C3: for every viewport size (w, h), `mSetupRenderTarget` leaves in `mFBO` a
framebuffer whose color attachment is an RGBA image of size (w, h) and whose
depth+stencil attachment is a DEPTH24_STENCIL8 image of size (w, h); running it
a second time at the same size gives attachments of the same formats and size;
and the same holds of the rebuild `mGlDraw` does after `resizeCallback`, once
or twice. -/
theorem C3_render_target_size (L : Libm K) (s : OglRenderer K) (w h : Int) :
    renderTarget (exec mSetupRenderTarget { s with mViewportSize := (w, h) }) =
        some (⟨InternalFormat.GL_RGBA, w, h⟩, ⟨InternalFormat.GL_DEPTH24_STENCIL8, w, h⟩) ∧
      renderTarget (exec mSetupRenderTarget
          (exec mSetupRenderTarget { s with mViewportSize := (w, h) })) =
        renderTarget (exec mSetupRenderTarget { s with mViewportSize := (w, h) }) ∧
      renderTarget (step L (step L s (Event.resize w h)) Event.draw) =
        some (⟨InternalFormat.GL_RGBA, w, h⟩, ⟨InternalFormat.GL_DEPTH24_STENCIL8, w, h⟩) ∧
      renderTarget (step L (step L (step L (step L s (Event.resize w h)) Event.draw)
          (Event.resize w h)) Event.draw) =
        renderTarget (step L (step L s (Event.resize w h)) Event.draw) := by
  refine ⟨?_, ?_, ?_, ?_⟩
  · rw [renderTarget_mSetupRenderTarget]
  · rw [renderTarget_mSetupRenderTarget, renderTarget_mSetupRenderTarget,
      (sameView_mSetupRenderTarget _).1]
  · exact renderTarget_resize_draw L s w h
  · rw [renderTarget_resize_draw, renderTarget_resize_draw]

end RenderTarget

/-! ## The projection -/

section Projection

variable {K : Type} [Field K] [CharZero K]

theorem perspective_ratio (L : Libm K) (fovy aspect zNear zFar : K)
    (ht : L.tan (fovy / 2) ≠ 0) :
    perspective L fovy aspect zNear zFar 1 1 / perspective L fovy aspect zNear zFar 0 0 =
      aspect := by
  simp only [perspective, Matrix.of_apply, Matrix.cons_val_zero, Matrix.cons_val_one,
    Matrix.head_cons]
  by_cases ha : aspect = 0
  · simp [ha]
  · field_simp

/-- In exact arithmetic: the projection `mGlInit` computes, and the one the
dirty branch of `mGlDraw` computes, is `glm::perspective` with the aspect
argument the quotient of the viewport width by the viewport height, as numbers
of the field and not as integers; so for a viewport (w, h) with h > 0 and a
nonzero `tan(fovy / 2)`, projection[1][1] / projection[0][0] is w / h in the
field, that is, times h it is w. -/
theorem projection_aspect_exact (D : Driver) (L : Libm K) (w h : Int) (hh : 0 < h)
    (ht : L.tan (radians 30 / 2) ≠ 0) :
    (∀ s : OglRenderer K, s.mViewportSize = (w, h) →
      (exec (mGlInit D L) s).mViewMat.projection =
        perspective L (radians 30) ((w : K) / (h : K)) (1 / 1000) 1000) ∧
    (∀ s : OglRenderer K, s.mViewportSize = (w, h) → s.mViewportDirty = true →
      (exec (mGlDraw L) s).mViewMat.projection =
        perspective L (radians 30) ((w : K) / (h : K)) (1 / 1000) 1000) ∧
    perspective L (radians 30) ((w : K) / (h : K)) (1 / 1000) 1000 1 1 /
        perspective L (radians 30) ((w : K) / (h : K)) (1 / 1000) 1000 0 0 = (w : K) / (h : K) ∧
    perspective L (radians 30) ((w : K) / (h : K)) (1 / 1000) 1000 1 1 /
        perspective L (radians 30) ((w : K) / (h : K)) (1 / 1000) 1000 0 0 * (h : K) = (w : K) := by
  have hK : (h : K) ≠ 0 := by
    have : h ≠ 0 := ne_of_gt hh
    exact_mod_cast this
  refine ⟨?_, ?_, perspective_ratio L _ _ _ _ ht, ?_⟩
  · intro s hs
    rw [mGlInit_projection, hs]
    rfl
  · intro s hs hd
    rw [mGlDraw_projection L s hd, hs]
    rfl
  · rw [perspective_ratio L _ _ _ _ ht]
    field_simp

/-- The exact ratio at the viewport of the constructor, 800x600, over the
rationals: 4/3 (the integer quotient would be 1). -/
theorem projection_aspect_exact_at_800x600 :
    (0 : Int) < 600 ∧ Libm.sample.tan (radians 30 / 2) ≠ 0 ∧
      perspective Libm.sample (radians 30) (((800 : Int) : ℚ) / ((600 : Int) : ℚ)) (1 / 1000) 1000
          1 1 /
        perspective Libm.sample (radians 30) (((800 : Int) : ℚ) / ((600 : Int) : ℚ)) (1 / 1000)
          1000 0 0 = ((800 : Int) : ℚ) / ((600 : Int) : ℚ) ∧
      ((800 : Int) : ℚ) / ((600 : Int) : ℚ) = 4 / 3 :=
  ⟨by decide, by simp [Libm.sample],
    (projection_aspect_exact Driver.sample Libm.sample 800 600 (by decide)
      (by simp [Libm.sample])).2.2.1,
    by norm_num⟩

end Projection

/-! ## The normal matrix -/

section NormalMatrix

variable {K : Type} [LinearOrderedField K]

/-- In exact arithmetic: for every view matrix and model matrix whose product
has an orthogonal upper-left 3x3 block (a rotation, no scale), the normal
matrix the renderer computes, `transpose(inverse(mat3(view * model)))`, is
`mat3(view * model)`; and under the view of `mGlInit`, with exact elementary
functions, this is what each of the four wall blocks of `mGlDraw` puts at
location 7 next to its model matrix at location 0. -/
theorem normalMatrix_of_rotation_exact :
    (∀ view model : Mat4 K, Orthogonal (mat3 (view * model)) →
      normalMatrix view model = mat3 (view * model)) ∧
    ∀ (L : Libm K) (s : OglRenderer K) (Ka Kd Ks : Vec3 K) (shininess : K), Exact L →
      s.mViewMat.view = lookAt L ![0, 2, 5] ![0, 0, 0] ![0, 1, 0] →
      NormalIsRotationPart s (exec (mGlDraw_frontWall Ka Kd Ks shininess) s) ∧
      NormalIsRotationPart s (exec (mGlDraw_rightWall L Ka Kd Ks shininess) s) ∧
      NormalIsRotationPart s (exec (mGlDraw_leftWall L Ka Kd Ks shininess) s) ∧
      NormalIsRotationPart s (exec (mGlDraw_backWall L Ka Kd Ks shininess) s) := by
  refine ⟨fun view model h => transpose_inverse_of_orthogonal _ h, ?_⟩
  intro L s Ka Kd Ks shininess hL hv
  refine ⟨?_, ?_, ?_, ?_⟩
  · obtain ⟨h0, h7⟩ := frontWall_uniforms Ka Kd Ks shininess s
    refine ⟨_, h0, ?_⟩
    rw [h7, hv, normalMatrix_translate L hL]
  · obtain ⟨h0, h7⟩ := rightWall_uniforms L Ka Kd Ks shininess s
    refine ⟨_, h0, ?_⟩
    rw [h7, hv, normalMatrix_translate_rotateY L hL]
  · obtain ⟨h0, h7⟩ := leftWall_uniforms L Ka Kd Ks shininess s
    refine ⟨_, h0, ?_⟩
    rw [h7, hv, normalMatrix_translate_rotateY L hL]
  · obtain ⟨h0, h7⟩ := backWall_uniforms L Ka Kd Ks shininess s
    refine ⟨_, h0, ?_⟩
    rw [h7, hv, normalMatrix_translate_rotateY L hL]

end NormalMatrix

section NormalMatrixWitness

theorem exact_real :
    Exact (⟨Real.cos, Real.sin, Real.tan, fun x => (Real.sqrt x)⁻¹⟩ : Libm ℝ) := by
  constructor
  · intro a
    exact Real.cos_sq_add_sin_sq a
  · intro x hx
    show ((Real.sqrt x)⁻¹) ^ 2 * x = 1
    have h := Real.sq_sqrt hx.le
    have h0 : Real.sqrt x ≠ 0 := (Real.sqrt_pos.mpr hx).ne'
    rw [inv_pow, h]
    field_simp

/-- The exact normal matrix at concrete inputs: over the rationals, the
identity view and the turn by the angle with cosine 3/5 and sine 4/5 about Y;
over the reals, the front wall block from the state `init` returns. -/
theorem normalMatrix_of_rotation_exact_sample :
    Orthogonal (mat3 ((1 : Mat4 ℚ) * !![3 / 5, 0, 4 / 5, 0; 0, 1, 0, 0; -(4 / 5), 0, 3 / 5, 0;
        0, 0, 0, 1])) ∧
      normalMatrix (1 : Mat4 ℚ) !![3 / 5, 0, 4 / 5, 0; 0, 1, 0, 0; -(4 / 5), 0, 3 / 5, 0;
          0, 0, 0, 1] =
        mat3 ((1 : Mat4 ℚ) * !![3 / 5, 0, 4 / 5, 0; 0, 1, 0, 0; -(4 / 5), 0, 3 / 5, 0;
          0, 0, 0, 1]) ∧
      NormalIsRotationPart
        (init Driver.sample (⟨Real.cos, Real.sin, Real.tan, fun x => (Real.sqrt x)⁻¹⟩ : Libm ℝ))
        (exec (mGlDraw_frontWall (vec3 1) (vec3 1) (vec3 1) 120)
          (init Driver.sample
            (⟨Real.cos, Real.sin, Real.tan, fun x => (Real.sqrt x)⁻¹⟩ : Libm ℝ))) := by
  have ho : Orthogonal (mat3 ((1 : Mat4 ℚ) * !![3 / 5, 0, 4 / 5, 0; 0, 1, 0, 0;
      -(4 / 5), 0, 3 / 5, 0; 0, 0, 0, 1])) := by
    rw [one_mul]
    unfold Orthogonal transpose
    ext a b
    fin_cases a <;> fin_cases b <;>
      simp [mat3, Matrix.mul_apply, Fin.sum_univ_three, castSucc_two, Matrix.vecHead,
        Matrix.vecTail] <;> norm_num
  exact ⟨ho, normalMatrix_of_rotation_exact.1 _ _ ho,
    (normalMatrix_of_rotation_exact.2 _ _ (vec3 1) (vec3 1) (vec3 1) 120 exact_real
      (init_spec Driver.sample _).2.1.2.2.1.2.1).1⟩

end NormalMatrixWitness

/-! ## The shader programs -/

section Shaders

variable {K : Type} [Field K]

/-- C7 as amended: `mSetupGLSLProgram` writes to `std::cout`, for each of the
three stages in turn (vertex, mono-color fragment, textured fragment), nothing
if the stage compiled and otherwise the stage's info log cut to 511
characters; it writes nothing else, whatever the link status of the programs;
and it ends with `mPrg0ID` and `mPrg1ID` naming the two program objects it
created, linked from the vertex stage with the mono-color fragment stage and
from the vertex stage with the textured fragment stage. -/
theorem C7_compile_failures_reported (D : Driver) (s : OglRenderer K) :
    (exec (mSetupGLSLProgram D) s).cout =
        s.cout ++ compileReport D ShaderType.GL_VERTEX_SHADER ShaderSource.vtx_plain ++
          compileReport D ShaderType.GL_FRAGMENT_SHADER ShaderSource.frag_mono_color ++
          compileReport D ShaderType.GL_FRAGMENT_SHADER ShaderSource.frag_tex ∧
      (exec (mSetupGLSLProgram D) s).mPrg0ID = s.gl.lastShader + 4 ∧
      (exec (mSetupGLSLProgram D) s).mPrg1ID = s.gl.lastShader + 5 ∧
      stagesOf (exec (mSetupGLSLProgram D) s).gl.programs (exec (mSetupGLSLProgram D) s).mPrg0ID =
        [(ShaderType.GL_VERTEX_SHADER, some ShaderSource.vtx_plain),
          (ShaderType.GL_FRAGMENT_SHADER, some ShaderSource.frag_mono_color)] ∧
      stagesOf (exec (mSetupGLSLProgram D) s).gl.programs (exec (mSetupGLSLProgram D) s).mPrg1ID =
        [(ShaderType.GL_VERTEX_SHADER, some ShaderSource.vtx_plain),
          (ShaderType.GL_FRAGMENT_SHADER, some ShaderSource.frag_tex)] := by
  refine wp_exec (mSetupGLSLProgram D) (fun t =>
    t.cout = s.cout ++ compileReport D ShaderType.GL_VERTEX_SHADER ShaderSource.vtx_plain ++
          compileReport D ShaderType.GL_FRAGMENT_SHADER ShaderSource.frag_mono_color ++
          compileReport D ShaderType.GL_FRAGMENT_SHADER ShaderSource.frag_tex ∧
      t.mPrg0ID = s.gl.lastShader + 4 ∧ t.mPrg1ID = s.gl.lastShader + 5 ∧
      stagesOf t.gl.programs t.mPrg0ID =
        [(ShaderType.GL_VERTEX_SHADER, some ShaderSource.vtx_plain),
          (ShaderType.GL_FRAGMENT_SHADER, some ShaderSource.frag_mono_color)] ∧
      stagesOf t.gl.programs t.mPrg1ID =
        [(ShaderType.GL_VERTEX_SHADER, some ShaderSource.vtx_plain),
          (ShaderType.GL_FRAGMENT_SHADER, some ShaderSource.frag_tex)]) s ?_
  simp [mSetupGLSLProgram, stagesOf, linked, compiled, compileReport]
  cases (D.compile ShaderType.GL_VERTEX_SHADER ShaderSource.vtx_plain).1 <;>
    cases (D.compile ShaderType.GL_FRAGMENT_SHADER ShaderSource.frag_mono_color).1 <;>
    cases (D.compile ShaderType.GL_FRAGMENT_SHADER ShaderSource.frag_tex).1 <;> simp

/-- C7 as stated fails: with a driver under which every stage compiles and
neither program links, `mSetupGLSLProgram` leaves `mPrg0ID` and `mPrg1ID`
naming programs whose link status is failure, with a nonempty info log, and
writes nothing to `std::cout`. -/
theorem C7_link_failure_not_reported :
    ((exec (mSetupGLSLProgram Driver.linkFails)
          (OglRenderer.construct (Context.fresh 800 600) : OglRenderer ℚ)).gl.programs.get
        (exec (mSetupGLSLProgram Driver.linkFails)
          (OglRenderer.construct (Context.fresh 800 600) : OglRenderer ℚ)).mPrg0ID).map
        (fun p => (p.linkStatus, p.infoLog)) = some (false, "error: link failed") ∧
      ((exec (mSetupGLSLProgram Driver.linkFails)
          (OglRenderer.construct (Context.fresh 800 600) : OglRenderer ℚ)).gl.programs.get
        (exec (mSetupGLSLProgram Driver.linkFails)
          (OglRenderer.construct (Context.fresh 800 600) : OglRenderer ℚ)).mPrg1ID).map
        (fun p => (p.linkStatus, p.infoLog)) = some (false, "error: link failed") ∧
      (exec (mSetupGLSLProgram Driver.linkFails)
        (OglRenderer.construct (Context.fresh 800 600) : OglRenderer ℚ)).cout = [] := by
  refine wp_exec (mSetupGLSLProgram Driver.linkFails) (fun t =>
    (t.gl.programs.get t.mPrg0ID).map (fun p => (p.linkStatus, p.infoLog)) =
        some (false, "error: link failed") ∧
      (t.gl.programs.get t.mPrg1ID).map (fun p => (p.linkStatus, p.infoLog)) =
        some (false, "error: link failed") ∧
      t.cout = []) _ ?_
  simp [mSetupGLSLProgram, linked, compiled, Driver.linkFails, OglRenderer.construct,
    Context.fresh]

end Shaders

/-! ## The quad -/

section Quad

variable {K : Type} [LinearOrderedField K]

theorem triangle_zero : (triangle 0 : Vec3 K × Vec3 K × Vec3 K) =
    (![-(1 / 2), 1 / 2, 0], ![-(1 / 2), -(1 / 2), 0], ![1 / 2, -(1 / 2), 0]) := by
  simp [triangle, idx, vertex, vtx]

theorem triangle_one : (triangle 1 : Vec3 K × Vec3 K × Vec3 K) =
    (![-(1 / 2), 1 / 2, 0], ![1 / 2, -(1 / 2), 0], ![1 / 2, 1 / 2, 0]) := by
  simp [triangle, idx, vertex, vtx]

theorem vertex_values : (vertex 0 : Vec3 K) = ![-(1 / 2), 1 / 2, 0] ∧
    (vertex 1 : Vec3 K) = ![1 / 2, 1 / 2, 0] ∧ (vertex 2 : Vec3 K) = ![1 / 2, -(1 / 2), 0] ∧
    (vertex 3 : Vec3 K) = ![-(1 / 2), -(1 / 2), 0] := by
  simp [vertex, vtx]

theorem edge_eq (a0 a1 a2 b0 b1 b2 : K) (p : Vec3 K) :
    edge ![a0, a1, a2] ![b0, b1, b2] p = (b0 - a0) * (p 1 - a1) - (p 0 - a0) * (b1 - a1) := by
  simp [edge]

theorem edge_const (a0 a1 a2 b0 b1 b2 c0 c1 c2 : K) :
    edge ![a0, a1, a2] ![b0, b1, b2] ![c0, c1, c2] =
      (b0 - a0) * (c1 - a1) - (c0 - a0) * (b1 - a1) := by
  simp [edge]

/-- The two triangles of the index list cover exactly the unit square. -/
theorem quad_cover (p : Vec3 K) :
    inUnitSquare p ↔ p 2 = 0 ∧ (inTriangle (triangle 0) p ∨ inTriangle (triangle 1) p) := by
  rw [triangle_zero, triangle_one]
  simp only [inUnitSquare, inTriangle, edge_eq]
  generalize p 0 = x
  generalize p 1 = y
  generalize p 2 = z
  constructor
  · rintro ⟨h1, h2, h3, h4, h5⟩
    refine ⟨h5, ?_⟩
    rcases le_total (x + y) 0 with h | h
    · left
      refine ⟨?_, ?_, ?_⟩ <;> linarith
    · right
      refine ⟨?_, ?_, ?_⟩ <;> linarith
  · rintro ⟨h5, h | h⟩
    · obtain ⟨h1, h2, h3⟩ := h
      refine ⟨?_, ?_, ?_, ?_, h5⟩ <;> linarith
    · obtain ⟨h1, h2, h3⟩ := h
      refine ⟨?_, ?_, ?_, ?_, h5⟩ <;> linarith

theorem windingNormal_triangles :
    windingNormal (triangle 0 : Vec3 K × Vec3 K × Vec3 K) = ![0, 0, 1] ∧
      windingNormal (triangle 1 : Vec3 K × Vec3 K × Vec3 K) = ![0, 0, 1] := by
  rw [triangle_zero, triangle_one]
  constructor <;> ext k <;> fin_cases k <;> simp [windingNormal, cross] <;> norm_num

theorem area_triangles :
    edge (triangle 0 : Vec3 K × Vec3 K × Vec3 K).1 (triangle 0).2.1 (triangle 0).2.2 / 2 = 1 / 2 ∧
      edge (triangle 1 : Vec3 K × Vec3 K × Vec3 K).1 (triangle 1).2.1 (triangle 1).2.2 / 2 =
        1 / 2 := by
  rw [triangle_zero, triangle_one]
  simp only [edge_const]
  constructor <;> norm_num

theorem mSetupBuffers_uploads (s : OglRenderer K) :
    (exec mSetupBuffers s).mNumElements = 6 ∧
      (exec mSetupBuffers s).gl.buffers.get (exec mSetupBuffers s).mVtxBuffer =
        some (BufferData.vec3s vtx) ∧
      (exec mSetupBuffers s).gl.buffers.get (exec mSetupBuffers s).mNormBuffer =
        some (BufferData.vec3s OglPractice.norm) ∧
      (∃ ebo, elementBufferOf (exec mSetupBuffers s).gl.vertexArrays (exec mSetupBuffers s).mvao =
          some ebo ∧
        (exec mSetupBuffers s).gl.buffers.get ebo = some (BufferData.uints idx)) := by
  refine wp_exec mSetupBuffers (fun t => t.mNumElements = 6 ∧
    t.gl.buffers.get t.mVtxBuffer = some (BufferData.vec3s vtx) ∧
    t.gl.buffers.get t.mNormBuffer = some (BufferData.vec3s OglPractice.norm) ∧
    (∃ ebo, elementBufferOf t.gl.vertexArrays t.mvao = some ebo ∧
      t.gl.buffers.get ebo = some (BufferData.uints idx))) s ?_
  simp [mSetupBuffers, elementBufferOf, idx]

/-- C8: the geometry of `mSetupBuffers` is the unit quad centered at the
origin in the XY plane, triangulated by its index list: the four positions are
the corners (-1/2, 1/2, 0), (1/2, 1/2, 0), (1/2, -1/2, 0), (-1/2, -1/2, 0);
`mNumElements` is 6, the length of the index list, which is what the element
buffer of the vertex array holds; every index is below 4; the indices form the
triangles 0-3-2 and 0-2-1, which share the diagonal 0-2, have signed area 1/2
each, and together cover exactly the square; and both wind counter-clockwise
seen from +Z: their winding normal is (0, 0, 1), and the normal list has one
entry for each of the four vertices, each of them (0, 0, 1). -/
theorem C8_unit_quad (s : OglRenderer K) :
    (vtx : List (Vec3 K)) =
        [![-(1 / 2), 1 / 2, 0], ![1 / 2, 1 / 2, 0], ![1 / 2, -(1 / 2), 0],
          ![-(1 / 2), -(1 / 2), 0]] ∧
      (exec mSetupBuffers s).mNumElements = 6 ∧ idx.length = 6 ∧
      (exec mSetupBuffers s).gl.buffers.get (exec mSetupBuffers s).mVtxBuffer =
        some (BufferData.vec3s vtx) ∧
      (exec mSetupBuffers s).gl.buffers.get (exec mSetupBuffers s).mNormBuffer =
        some (BufferData.vec3s OglPractice.norm) ∧
      (∃ ebo, elementBufferOf (exec mSetupBuffers s).gl.vertexArrays (exec mSetupBuffers s).mvao =
          some ebo ∧
        (exec mSetupBuffers s).gl.buffers.get ebo = some (BufferData.uints idx)) ∧
      (∀ i ∈ idx, i < (vtx : List (Vec3 K)).length) ∧
      idx = [0, 3, 2, 0, 2, 1] ∧
      (triangle 0 : Vec3 K × Vec3 K × Vec3 K) = (vertex 0, vertex 3, vertex 2) ∧
      (triangle 1 : Vec3 K × Vec3 K × Vec3 K) = (vertex 0, vertex 2, vertex 1) ∧
      edge (triangle 0 : Vec3 K × Vec3 K × Vec3 K).1 (triangle 0).2.1 (triangle 0).2.2 / 2 =
        1 / 2 ∧
      edge (triangle 1 : Vec3 K × Vec3 K × Vec3 K).1 (triangle 1).2.1 (triangle 1).2.2 / 2 =
        1 / 2 ∧
      (∀ p : Vec3 K, inUnitSquare p ↔ p 2 = 0 ∧ (inTriangle (triangle 0) p ∨ inTriangle (triangle 1) p)) ∧
      windingNormal (triangle 0 : Vec3 K × Vec3 K × Vec3 K) = ![0, 0, 1] ∧
      windingNormal (triangle 1 : Vec3 K × Vec3 K × Vec3 K) = ![0, 0, 1] ∧
      (OglPractice.norm : List (Vec3 K)) = [![0, 0, 1], ![0, 0, 1], ![0, 0, 1], ![0, 0, 1]] ∧
      (OglPractice.norm : List (Vec3 K)).length = (vtx : List (Vec3 K)).length ∧
      ∀ n ∈ (OglPractice.norm : List (Vec3 K)), n = ![0, 0, 1] := by
  have hv : (vertex 0 : Vec3 K) = ![-(1 / 2), 1 / 2, 0] ∧
      (vertex 1 : Vec3 K) = ![1 / 2, 1 / 2, 0] ∧ (vertex 2 : Vec3 K) = ![1 / 2, -(1 / 2), 0] ∧
      (vertex 3 : Vec3 K) = ![-(1 / 2), -(1 / 2), 0] := vertex_values
  refine ⟨rfl, (mSetupBuffers_uploads s).1, rfl, (mSetupBuffers_uploads s).2.1,
    (mSetupBuffers_uploads s).2.2.1, (mSetupBuffers_uploads s).2.2.2, ?_, rfl, ?_, ?_,
    area_triangles.1, area_triangles.2, quad_cover, windingNormal_triangles.1,
    windingNormal_triangles.2, rfl, rfl, ?_⟩
  · intro i hi
    simp [idx] at hi
    simp [vtx]
    omega
  · rw [triangle_zero, hv.1, hv.2.2.2, hv.2.2.1]
  · rw [triangle_one, hv.1, hv.2.2.1, hv.2.1]
  · intro n hn
    simp [OglPractice.norm] at hn
    exact hn

/-- C8 at the center of the quad, over the rationals. -/
theorem C8_unit_quad_witness :
    inUnitSquare (![0, 0, 0] : Vec3 ℚ) ∧
      ((![0, 0, 0] : Vec3 ℚ) 2 = 0 ∧
        (inTriangle (triangle 0) (![0, 0, 0] : Vec3 ℚ) ∨
          inTriangle (triangle 1) (![0, 0, 0] : Vec3 ℚ))) ∧
      (3 : Nat) < (vtx : List (Vec3 ℚ)).length :=
  ⟨by simp [inUnitSquare],
    ((C8_unit_quad (OglRenderer.construct (Context.fresh 800 600) : OglRenderer ℚ)).2.2.2.2.2.2.2.2.2.2.2.2.1
      ![0, 0, 0]).mp (by simp [inUnitSquare]),
    (C8_unit_quad (OglRenderer.construct (Context.fresh 800 600) : OglRenderer ℚ)).2.2.2.2.2.2.1 3
      (by simp [idx])⟩

end Quad

/-! ## The buffers after `init` -/

section Buffers

variable {K : Type} [Field K]

/-- A frame leaves the data store of every buffer but the camera block as it
was. -/
theorem mGlDraw_buffers (D : Driver) (L : Libm K) (s : OglRenderer K) (h : Ready D L s)
    (k : Nat) (hk : k ≠ s.mViewMatrixUniformIdx) :
    (exec (mGlDraw L) s).gl.buffers.get k = s.gl.buffers.get k := by
  have hl := h.2.2.2.1
  cases hd : s.mViewportDirty
  · obtain ⟨-, -, -, -, -, -, -, -, -, -, hB, hE, -⟩ := mGlDraw_clean L s hd
    by_cases hkl : k = s.mLightUniformIdx
    · rw [hkl, hl.1, hl.2.2]
      exact hB _ _ hl.2.2
    · exact hE k hk hkl
  · obtain ⟨hF, -, -, -, -, -, -, -, -, -, -, -, -, hR⟩ := viewportDirty_refreshed L s
    obtain ⟨-, -, -, -, -, -, -, -, -, -, hB, hE, -⟩ := mGlDraw_dirty L s hd
    by_cases hkl : k = s.mLightUniformIdx
    · have h7 : (7 : Nat) ≠ s.mViewMatrixUniformIdx := by rw [h.2.2.1.1]; decide
      rw [hkl, hl.1, hl.2.2]
      exact hB _ _ (by rw [hR 7 h7]; exact hl.2.2)
    · rw [hE k (by rw [hF.mViewMatrixUniformIdx]; exact hk)
        (by rw [hF.mLightUniformIdx]; exact hkl)]
      exact hR k hk

/-- No event writes the data store of a buffer other than the camera block. -/
theorem step_buffers (D : Driver) (L : Libm K) (s : OglRenderer K) (e : Event K)
    (h : Ready D L s) (k : Nat) (hk : k ≠ s.mViewMatrixUniformIdx) :
    (step L s e).gl.buffers.get k = s.gl.buffers.get k := by
  cases e with
  | resize w h' => simp [step, Event.act, exec_resizeCallback]
  | mouseMove x y => simp [step, Event.act, exec_handleMouseMove]
  | mouseButton b a m => simp [step, Event.act, exec_handleMouseButton]
  | draw => exact mGlDraw_buffers D L s h k hk

/-- C9: in every state reached from `init` by draws, resizes, mouse motions
and mouse buttons, the light block, the four attribute buffers and the index
buffer hold what `mGlInit` uploaded, none of them is the camera block, and
the next event, whichever it is, leaves the data store of every buffer other
than the camera block `mViewMatrixUniformIdx` as it was; this although the
light block is the buffer bound to `GL_UNIFORM_BUFFER` when `mGlInit` ends. -/
theorem C9_buffers_immutable (D : Driver) (L : Libm K) (es : List (Event K)) :
    (init D L).gl.uniformBuffer = (init D L).mLightUniformIdx ∧
      (run L (init D L) es).gl.buffers.get (run L (init D L) es).mLightUniformIdx =
        some (BufferData.lightInfo ⟨![0, 0, 5, 1], vec4 1, vec4 1, vec4 1⟩) ∧
      (run L (init D L) es).gl.buffers.get (run L (init D L) es).mVtxBuffer =
        some (BufferData.vec3s vtx) ∧
      (run L (init D L) es).gl.buffers.get (run L (init D L) es).mTexCoordBuffer =
        some (BufferData.vec2s texCoord) ∧
      (run L (init D L) es).gl.buffers.get (run L (init D L) es).mNormBuffer =
        some (BufferData.vec3s OglPractice.norm) ∧
      (run L (init D L) es).gl.buffers.get (run L (init D L) es).mTangBuffer =
        some (BufferData.vec3s tang) ∧
      (∃ ebo, elementBufferOf (run L (init D L) es).gl.vertexArrays (run L (init D L) es).mvao =
          some ebo ∧
        (run L (init D L) es).gl.buffers.get ebo = some (BufferData.uints idx) ∧
        ebo ≠ (run L (init D L) es).mViewMatrixUniformIdx) ∧
      (∀ k ∈ [(run L (init D L) es).mLightUniformIdx, (run L (init D L) es).mVtxBuffer,
          (run L (init D L) es).mTexCoordBuffer, (run L (init D L) es).mNormBuffer,
          (run L (init D L) es).mTangBuffer],
        k ≠ (run L (init D L) es).mViewMatrixUniformIdx) ∧
      ∀ (e : Event K) (k : Nat), k ≠ (run L (init D L) es).mViewMatrixUniformIdx →
        (step L (run L (init D L) es) e).gl.buffers.get k =
          (run L (init D L) es).gl.buffers.get k := by
  have hr : Ready D L (run L (init D L) es) := run_ready D L es _ (init_spec D L).2.1
  obtain ⟨-, ⟨g1, g2, g3, g4, g5, g6, g7, g8, g9, g10, g11, g12, g13, g14, g15, g16⟩,
    ⟨c1, c2, c3⟩, ⟨l1, l2, l3⟩, -⟩ := id hr
  refine ⟨(init_spec D L).2.2.2.2.2, ?_, ?_, ?_, ?_, ?_, ⟨5, ?_, g11, ?_⟩, ?_,
    fun e k hk => step_buffers D L _ e hr k hk⟩
  · rw [l1, l3, l2]
  · rw [g3, g7]
  · rw [g4, g8]
  · rw [g5, g9]
  · rw [g6, g10]
  · rw [g2, g16]
  · rw [c1]; decide
  · intro k hk
    rw [l1, g3, g4, g5, g6] at hk
    rw [c1]
    simp at hk
    omega

/-- C9 at a concrete run: from `init`, a resize to 640x480 and a frame, then
another frame, seen at the light block. -/
theorem C9_buffers_immutable_witness :
    (run Libm.sample (init Driver.sample Libm.sample)
        [Event.resize 640 480, Event.draw]).mLightUniformIdx ≠
      (run Libm.sample (init Driver.sample Libm.sample)
        [Event.resize 640 480, Event.draw]).mViewMatrixUniformIdx ∧
    (step Libm.sample
        (run Libm.sample (init Driver.sample Libm.sample) [Event.resize 640 480, Event.draw])
        Event.draw).gl.buffers.get
        (run Libm.sample (init Driver.sample Libm.sample)
          [Event.resize 640 480, Event.draw]).mLightUniformIdx =
      some (BufferData.lightInfo ⟨![0, 0, 5, 1], vec4 1, vec4 1, vec4 1⟩) :=
  ⟨(C9_buffers_immutable Driver.sample Libm.sample
      [Event.resize 640 480, Event.draw]).2.2.2.2.2.2.2.1 _ (List.mem_cons_self _ _),
    ((C9_buffers_immutable Driver.sample Libm.sample
      [Event.resize 640 480, Event.draw]).2.2.2.2.2.2.2.2 Event.draw _
        ((C9_buffers_immutable Driver.sample Libm.sample
          [Event.resize 640 480, Event.draw]).2.2.2.2.2.2.2.1 _ (List.mem_cons_self _ _))).trans
      (C9_buffers_immutable Driver.sample Libm.sample [Event.resize 640 480, Event.draw]).2.1⟩

end Buffers

/-! ## The rebuild of the render target -/

section Rebuild

variable {K : Type} [Field K]

/-- What a frame drawn with the viewport marked dirty does to the render
target: a new framebuffer with two new textures of the viewport size, and the
image of every texture that was there stays. -/
theorem mGlDraw_rebuild (L : Libm K) (s : OglRenderer K) (hd : s.mViewportDirty = true) :
    (exec (mGlDraw L) s).mFBO = s.gl.lastFramebuffer + 1 ∧
      (exec (mGlDraw L) s).gl.framebuffers.get (s.gl.lastFramebuffer + 1) =
        some ⟨s.gl.lastTexture + 1, s.gl.lastTexture + 2⟩ ∧
      imageOf (exec (mGlDraw L) s).gl.textures (s.gl.lastTexture + 1) =
        some ⟨InternalFormat.GL_RGBA, s.mViewportSize.1, s.mViewportSize.2⟩ ∧
      imageOf (exec (mGlDraw L) s).gl.textures (s.gl.lastTexture + 2) =
        some ⟨InternalFormat.GL_DEPTH24_STENCIL8, s.mViewportSize.1, s.mViewportSize.2⟩ ∧
      (∀ n, n ≤ s.gl.lastTexture →
        imageOf (exec (mGlDraw L) s).gl.textures n = imageOf s.gl.textures n) ∧
      (s.gl.lastFramebuffer + 1 ≠ s.mFBO →
        (exec (mGlDraw_viewportDirty L) s).gl.framebuffers.get s.mFBO = none) := by
  obtain ⟨-, -, -, -, -, -, r1, -, -, -, -, -, rI, -⟩ := viewportDirty_refreshed L s
  obtain ⟨b1, b2, b3, b4, -⟩ := viewportDirty_rebuilt L s
  obtain ⟨-, -, -, sF, -, -, -, sI, -, -, -, -, sB⟩ := mGlDraw_dirty L s hd
  rw [r1] at b1 b4
  refine ⟨by rw [sF, r1], sB _ _ b1, by rw [sI, b2], by rw [sI, b3], ?_, b4⟩
  intro n hn
  rw [sI, rI n hn]

/-- C10, as the code has it: after `init`, a resize to (w, h) and the next
frame, the rebuild has deleted the framebuffer of `mGlInit` and made a new one,
`mFBO = 2`, with the new textures 5 and 6 of size (w, h) attached; but the
textures 1 and 2 that were attached to the old framebuffer still exist with
their 800x600 images: `mGlDraw` deletes the framebuffer only, so two color and
two depth+stencil attachments made by the render target exist. -/
theorem C10_old_attachments_survive (D : Driver) (L : Libm K) (w h : Int) :
    (init D L).mFBO = 1 ∧ (init D L).gl.framebuffers.get 1 = some ⟨1, 2⟩ ∧
      (exec (mGlDraw_viewportDirty L) (step L (init D L) (Event.resize w h))).gl.framebuffers.get 1 =
        none ∧
      (step L (step L (init D L) (Event.resize w h)) Event.draw).mFBO = 2 ∧
      (step L (step L (init D L) (Event.resize w h)) Event.draw).gl.framebuffers.get 2 =
        some ⟨5, 6⟩ ∧
      imageOf (step L (step L (init D L) (Event.resize w h)) Event.draw).gl.textures 5 =
        some ⟨InternalFormat.GL_RGBA, w, h⟩ ∧
      imageOf (step L (step L (init D L) (Event.resize w h)) Event.draw).gl.textures 6 =
        some ⟨InternalFormat.GL_DEPTH24_STENCIL8, w, h⟩ ∧
      imageOf (step L (step L (init D L) (Event.resize w h)) Event.draw).gl.textures 1 =
        some ⟨InternalFormat.GL_RGBA, 800, 600⟩ ∧
      imageOf (step L (step L (init D L) (Event.resize w h)) Event.draw).gl.textures 2 =
        some ⟨InternalFormat.GL_DEPTH24_STENCIL8, 800, 600⟩ := by
  obtain ⟨⟨-, -, -, hT, hN, -, -⟩, -, -, ⟨f1, f2, f3, f4⟩, -, -⟩ := init_spec D L
  have hg : (step L (init D L) (Event.resize w h)).gl = (init D L).gl := by
    simp [step, Event.act, exec_resizeCallback]
  have hz : (step L (init D L) (Event.resize w h)).mViewportSize = (w, h) := by
    simp [step, Event.act, exec_resizeCallback]
  have hf : (step L (init D L) (Event.resize w h)).mFBO = (init D L).mFBO := by
    simp [step, Event.act, exec_resizeCallback]
  have hd : (step L (init D L) (Event.resize w h)).mViewportDirty = true := by
    simp [step, Event.act, exec_resizeCallback]
  have key := mGlDraw_rebuild L (step L (init D L) (Event.resize w h)) hd
  rw [hg, hz, hf, hT, hN, f1] at key
  obtain ⟨k1, k2, k3, k4, k5, k6⟩ := key
  exact ⟨f1, f2, k6 (by decide), k1, k2, k3, k4, (k5 1 (by decide)).trans f3,
    (k5 2 (by decide)).trans f4⟩

end Rebuild

/-! ## Resizes and frames -/

section Resize

variable {K : Type} [Field K]

theorem init_synced (D : Driver) (L : Libm K) : Synced L (init D L) := by
  obtain ⟨⟨hz, -, -, -, -, -, -⟩, ⟨-, -, ⟨c1, -, -⟩, ⟨l1, -, l3⟩, -⟩, ⟨p1, p2, p3⟩,
    ⟨f1, f2, f3, f4⟩, -, -⟩ := init_spec D L
  refine ⟨?_, ?_, ?_⟩
  · rw [c1, p3, hz, ← p1, ← p2]
  · rw [l1]
    exact l3
  · rw [hz]
    simp [renderTarget, f1, f2, f3, f4]

theorem step_synced (D : Driver) (L : Libm K) (s : OglRenderer K) (e : Event K)
    (hr : Ready D L s) (hi : s.mViewportDirty = false → Synced L s) :
    (step L s e).mViewportDirty = false → Synced L (step L s e) := by
  cases e with
  | resize w h => simp [step, Event.act, exec_resizeCallback]
  | mouseMove x y =>
    intro hd
    have hd' : s.mViewportDirty = false := by
      simpa [step, Event.act, exec_handleMouseMove] using hd
    refine (hi hd').of_members ?_ ?_ ?_ ?_ ?_ ?_ ?_ <;>
      simp [step, Event.act, exec_handleMouseMove]
  | mouseButton b a m =>
    intro hd
    have hd' : s.mViewportDirty = false := by
      simpa [step, Event.act, exec_handleMouseButton] using hd
    refine (hi hd').of_members ?_ ?_ ?_ ?_ ?_ ?_ ?_ <;>
      simp [step, Event.act, exec_handleMouseButton]
  | draw =>
    intro _
    obtain ⟨g0, g1, g2, g3, g4, g5, g6, -, -, -, -, -, h⟩ := mGlDraw_log D L s hr hi
    exact h

/-- In every state reached from `init`, `Ready` holds, and when the viewport
is not marked dirty the camera block and the render target are those for the
viewport size. -/
theorem run_synced (D : Driver) (L : Libm K) (es : List (Event K)) (s : OglRenderer K)
    (hr : Ready D L s) (hi : s.mViewportDirty = false → Synced L s) :
    (run L s es).mViewportDirty = false → Synced L (run L s es) := by
  induction es generalizing s with
  | nil => exact hi
  | cons e es ih => exact ih _ (step_ready D L s e hr) (step_synced D L s e hr hi)

theorem step_clearColor (D : Driver) (L : Libm K) (s : OglRenderer K) (e : Event K)
    (hr : Ready D L s) (hi : s.mViewportDirty = false → Synced L s) :
    (step L s e).gl.clearColor = if e.isDraw = true then ![0, 0, 0, 1] else s.gl.clearColor := by
  cases e with
  | resize w h => simp [step, Event.act, exec_resizeCallback, Event.isDraw]
  | mouseMove x y => simp [step, Event.act, exec_handleMouseMove, Event.isDraw]
  | mouseButton b a m => simp [step, Event.act, exec_handleMouseButton, Event.isDraw]
  | draw =>
    obtain ⟨g0, g1, g2, g3, g4, g5, g6, -, -, -, -, h, -⟩ := mGlDraw_log D L s hr hi
    simpa [Event.isDraw] using h

/-- The clear color after a sequence of events: (0, 0, 0, 1) once a frame was
drawn, and until then the one the sequence started with. -/
theorem run_clearColor (D : Driver) (L : Libm K) (es : List (Event K)) (s : OglRenderer K)
    (hr : Ready D L s) (hi : s.mViewportDirty = false → Synced L s) :
    (run L s es).gl.clearColor =
      if es.any Event.isDraw = true then ![0, 0, 0, 1] else s.gl.clearColor := by
  induction es generalizing s with
  | nil => simp [run]
  | cons e es ih =>
    have h := ih _ (step_ready D L s e hr) (step_synced D L s e hr hi)
    simp only [run] at h
    show (List.foldl (step L) (step L s e) es).gl.clearColor = _
    rw [h, step_clearColor D L s e hr hi]
    cases he : e.isDraw <;> cases hs : es.any Event.isDraw <;> simp [he, hs]

theorem clearColor_mSetupGLSLProgram (D : Driver) (s : OglRenderer K) :
    (exec (mSetupGLSLProgram D) s).gl.clearColor = s.gl.clearColor := by
  refine wp_exec (mSetupGLSLProgram D) (fun t => t.gl.clearColor = s.gl.clearColor) s ?_
  simp [mSetupGLSLProgram, linked, compiled]

theorem clearColor_mSetupBuffers (s : OglRenderer K) :
    (exec mSetupBuffers s).gl.clearColor = s.gl.clearColor := by
  show wp mSetupBuffers (fun _ t => t.gl.clearColor = s.gl.clearColor) s
  simp [mSetupBuffers]

theorem clearColor_mGlInit_viewMatrix (L : Libm K) (s : OglRenderer K) :
    (exec (mGlInit_viewMatrix L) s).gl.clearColor = s.gl.clearColor := by
  show wp (mGlInit_viewMatrix L) (fun _ t => t.gl.clearColor = s.gl.clearColor) s
  simp [mGlInit_viewMatrix]

theorem clearColor_mSetupRenderTarget (s : OglRenderer K) :
    (exec mSetupRenderTarget s).gl.clearColor = s.gl.clearColor := by
  show wp mSetupRenderTarget (fun _ t => t.gl.clearColor = s.gl.clearColor) s
  simp [mSetupRenderTarget]

theorem clearColor_mGlInit_light (s : OglRenderer K) :
    (exec mGlInit_light s).gl.clearColor = s.gl.clearColor := by
  show wp mGlInit_light (fun _ t => t.gl.clearColor = s.gl.clearColor) s
  simp [mGlInit_light]

theorem clearColor_mLoadTextures (D : Driver) (s : OglRenderer K) :
    (exec (mLoadTextures D) s).gl.clearColor = s.gl.clearColor := by
  show wp (mLoadTextures D) (fun _ t => t.gl.clearColor = s.gl.clearColor) s
  simp [mLoadTextures]

/-- `mGlInit` never sets the clear color: when it returns the clear color is
the initial one of the context, (0, 0, 0, 0). -/
theorem init_clearColor (D : Driver) (L : Libm K) :
    (init D L).gl.clearColor = ![0, 0, 0, 0] := by
  unfold init
  rw [exec_mGlInit, clearColor_mLoadTextures, clearColor_mGlInit_light]
  simp only [exec_assign]
  rw [clearColor_mSetupRenderTarget, clearColor_mGlInit_viewMatrix, clearColor_mSetupBuffers,
    clearColor_mSetupGLSLProgram]
  simp [OglRenderer.construct, Context.fresh]

/-- C11: for every sequence of events after `init` (resizes, frames, mouse
events), the next frame keeps `mViewportSize` and issues a clear, five draw
calls and a blit; at each of the five draw calls and at the blit uniform slot 0
is bound to the camera block, which holds the view, the projection for the
current `mViewportSize` and their product, slot 1 is bound to the light block,
which holds `mLightInfo`, and both attachments of the render target `mFBO`
have the size `mViewportSize`; the draw calls run with `mFBO` bound and the
blit reads from it. A resize sets `mViewportSize`, so it is applied to the
camera block and the render target before the next frame draws. -/
theorem C11_resize_applied (D : Driver) (L : Libm K) (es : List (Event K)) :
    (step L (run L (init D L) es) Event.draw).mViewportSize =
        (run L (init D L) es).mViewportSize ∧
      (∀ w h : Int, (step L (run L (init D L) es) (Event.resize w h)).mViewportSize = (w, h)) ∧
      ∃ g0 g1 g2 g3 g4 g5 g6 : Context K,
        (step L (run L (init D L) es) Event.draw).commands =
          (run L (init D L) es).commands ++
            [(Command.clear true true true, g0),
              (Command.drawElements (run L (init D L) es).mNumElements, g1),
              (Command.drawElements (run L (init D L) es).mNumElements, g2),
              (Command.drawElements (run L (init D L) es).mNumElements, g3),
              (Command.drawElements (run L (init D L) es).mNumElements, g4),
              (Command.drawElements (run L (init D L) es).mNumElements, g5),
              (Command.blitNamedFramebuffer (step L (run L (init D L) es) Event.draw).mFBO 0
                (0, 0, (run L (init D L) es).mViewportSize.1,
                  (run L (init D L) es).mViewportSize.2)
                (0, 0, (run L (init D L) es).mViewportSize.1,
                  (run L (init D L) es).mViewportSize.2), g6)] ∧
        (∀ g ∈ [g1, g2, g3, g4, g5, g6],
          Applied L (step L (run L (init D L) es) Event.draw) g) ∧
        ∀ g ∈ [g1, g2, g3, g4, g5],
          g.framebuffer = (step L (run L (init D L) es) Event.draw).mFBO := by
  have hr : Ready D L (run L (init D L) es) := run_ready D L es _ (init_spec D L).2.1
  have hi := run_synced D L es _ (init_spec D L).2.1 (fun _ => init_synced D L)
  obtain ⟨g0, g1, g2, g3, g4, g5, g6, hc, -, ha, hf, -, -⟩ := mGlDraw_log D L _ hr hi
  refine ⟨(mGlDraw_frame L _).mViewportSize, ?_, g0, g1, g2, g3, g4, g5, g6, hc, ha, hf⟩
  intro w h
  simp [step, Event.act, exec_resizeCallback]

/-- C11 at a concrete run: from `init`, a resize to 640x480; the frame that
follows draws at 640x480. -/
theorem C11_resize_applied_witness :
    (step Libm.sample
        (run Libm.sample (init Driver.sample Libm.sample) [Event.resize 640 480])
        Event.draw).mViewportSize = (640, 480) :=
  (C11_resize_applied Driver.sample Libm.sample [Event.resize 640 480]).1.trans
    ((C11_resize_applied Driver.sample Libm.sample []).2.1 640 480)

/-- C12, as the code has it: in every frame the clear of color, depth and
stencil is the first rendering command and the only clear; it runs with `mFBO`
bound and the viewport set to the current size; but `glClearColor(0, 0, 0, 1)`
comes after `glClear`, so the clear color in effect at the clear is
(0, 0, 0, 1) only once an earlier frame was drawn: in the first frame after
`init` it is the initial clear color of the context, (0, 0, 0, 0), which is not
opaque black. -/
theorem C12_clear_before_clearColor (D : Driver) (L : Libm K) (es : List (Event K)) :
    (∃ (g : Context K) (rest : List (Command × Context K)),
        (step L (run L (init D L) es) Event.draw).commands =
          (run L (init D L) es).commands ++ (Command.clear true true true, g) :: rest ∧
        (∀ c ∈ rest, c.1 ≠ Command.clear true true true) ∧
        g.framebuffer = (step L (run L (init D L) es) Event.draw).mFBO ∧
        g.viewport =
          (0, 0, (run L (init D L) es).mViewportSize.1, (run L (init D L) es).mViewportSize.2) ∧
        g.clearColor = if es.any Event.isDraw = true then ![0, 0, 0, 1] else ![0, 0, 0, 0]) ∧
      (∃ (g : Context K) (rest : List (Command × Context K)),
        (step L (init D L) Event.draw).commands = (Command.clear true true true, g) :: rest ∧
        g.viewport = (0, 0, 800, 600) ∧ g.clearColor = ![0, 0, 0, 0] ∧
        g.clearColor ≠ ![0, 0, 0, 1]) := by
  have first : ∀ es : List (Event K),
      ∃ (g : Context K) (rest : List (Command × Context K)),
        (step L (run L (init D L) es) Event.draw).commands =
          (run L (init D L) es).commands ++ (Command.clear true true true, g) :: rest ∧
        (∀ c ∈ rest, c.1 ≠ Command.clear true true true) ∧
        g.framebuffer = (step L (run L (init D L) es) Event.draw).mFBO ∧
        g.viewport =
          (0, 0, (run L (init D L) es).mViewportSize.1, (run L (init D L) es).mViewportSize.2) ∧
        g.clearColor = if es.any Event.isDraw = true then ![0, 0, 0, 1] else ![0, 0, 0, 0] := by
    intro es
    have hr : Ready D L (run L (init D L) es) := run_ready D L es _ (init_spec D L).2.1
    have hi := run_synced D L es _ (init_spec D L).2.1 (fun _ => init_synced D L)
    have hk := run_clearColor D L es _ (init_spec D L).2.1 (fun _ => init_synced D L)
    rw [init_clearColor] at hk
    obtain ⟨g0, g1, g2, g3, g4, g5, g6, hc, ⟨h1, h2, h3⟩, -, -, -, -⟩ := mGlDraw_log D L _ hr hi
    refine ⟨g0, _, hc, ?_, h1, h2, h3.trans hk⟩
    intro c hc'
    simp only [List.mem_cons, List.mem_singleton, List.not_mem_nil, or_false] at hc'
    rcases hc' with rfl | rfl | rfl | rfl | rfl | rfl <;> simp
  refine ⟨first es, ?_⟩
  obtain ⟨g, rest, hc, -, -, hv, hk⟩ := first []
  obtain ⟨⟨hz, hn, -, -, -, -, -⟩, -⟩ := init_spec D L
  have e : run L (init D L) [] = init D L := rfl
  rw [e, hn] at hc
  rw [e, hz] at hv
  simp only [List.any_nil, Bool.false_eq_true, if_false] at hk
  refine ⟨g, rest, by simpa using hc, hv, hk, ?_⟩
  rw [hk]
  intro h
  have := congrFun h 3
  simp at this

end Resize

/-! ## Rounding to binary32 -/

section Rounding

theorem ilog2_spec (fuel n : Nat) (h1 : 1 ≤ n) (hf : n ≤ fuel) :
    2 ^ F32.ilog2 fuel n ≤ n ∧ n < 2 ^ (F32.ilog2 fuel n + 1) := by
  induction fuel generalizing n with
  | zero => omega
  | succ f ih =>
    unfold F32.ilog2
    by_cases h : n < 2
    · simp only [h, if_true]
      omega
    · simp only [h, if_false]
      obtain ⟨h2, h3⟩ := ih (n / 2) (by omega) (by omega)
      constructor
      · calc 2 ^ (F32.ilog2 f (n / 2) + 1) = 2 ^ F32.ilog2 f (n / 2) * 2 := pow_succ _ _
          _ ≤ n / 2 * 2 := Nat.mul_le_mul_right _ h2
          _ ≤ n := Nat.div_mul_le_self n 2
      · have h4 : n < (n / 2 + 1) * 2 := by omega
        have h5 : n / 2 + 1 ≤ 2 ^ (F32.ilog2 f (n / 2) + 1) := h3
        calc n < (n / 2 + 1) * 2 := h4
          _ ≤ 2 ^ (F32.ilog2 f (n / 2) + 1) * 2 := Nat.mul_le_mul_right _ h5
          _ = 2 ^ (F32.ilog2 f (n / 2) + 1 + 1) := (pow_succ _ _).symm

theorem log2_spec (n : Nat) (h1 : 1 ≤ n) :
    2 ^ F32.log2 n ≤ n ∧ n < 2 ^ (F32.log2 n + 1) :=
  ilog2_spec n n h1 le_rfl

/-- The integer `nearestEven` picks is within one half of the quotient. -/
theorem nearestEven_spec (N D : Nat) (hD : 1 ≤ D) :
    |((F32.nearestEven N D : Nat) : ℚ) - (N : ℚ) / D| ≤ 1 / 2 := by
  have hD' : (0 : ℚ) < D := by exact_mod_cast hD
  have hN : (N : ℚ) = (D : ℚ) * ((N / D : Nat) : ℚ) + ((N % D : Nat) : ℚ) := by
    exact_mod_cast (Nat.div_add_mod N D).symm
  have hr : ((N % D : Nat) : ℚ) < D := by exact_mod_cast Nat.mod_lt N hD
  have hr0 : (0 : ℚ) ≤ ((N % D : Nat) : ℚ) := Nat.cast_nonneg _
  have hq : (N : ℚ) / D = ((N / D : Nat) : ℚ) + ((N % D : Nat) : ℚ) / D := by
    rw [hN]
    field_simp
    ring
  rw [hq]
  unfold F32.nearestEven
  simp only
  by_cases h1 : 2 * (N % D) < D
  · simp only [h1, if_true]
    have h1' : 2 * ((N % D : Nat) : ℚ) < D := by exact_mod_cast h1
    rw [abs_le]
    constructor
    · have : ((N % D : Nat) : ℚ) / D ≤ 1 / 2 := by
        rw [div_le_iff₀ hD']
        linarith
      linarith
    · have : (0 : ℚ) ≤ ((N % D : Nat) : ℚ) / D := div_nonneg hr0 hD'.le
      linarith
  · simp only [h1, if_false]
    have h1' : (D : ℚ) ≤ 2 * ((N % D : Nat) : ℚ) := by exact_mod_cast Nat.le_of_not_lt h1
    have hge : 1 / 2 ≤ ((N % D : Nat) : ℚ) / D := by
      rw [le_div_iff₀ hD']
      linarith
    have hle : ((N % D : Nat) : ℚ) / D ≤ 1 := by
      rw [div_le_iff₀ hD']
      linarith
    by_cases h2 : D < 2 * (N % D)
    · simp only [h2, if_true]
      push_cast
      rw [abs_le]
      constructor <;> linarith
    · simp only [h2, if_false]
      have h3 : ((N % D : Nat) : ℚ) / D = 1 / 2 := by
        have : 2 * (N % D) = D := by omega
        have h' : 2 * ((N % D : Nat) : ℚ) = D := by exact_mod_cast this
        rw [div_eq_iff hD'.ne']
        linarith
      by_cases h4 : N / D % 2 = 0
      · simp only [h4, if_true]
        rw [abs_le]
        constructor <;> linarith
      · simp only [h4, if_false]
        push_cast
        rw [abs_le]
        constructor <;> linarith

theorem zpow_two_of_nonneg (k : Int) (hk : 0 ≤ k) : (2 : ℚ) ^ k = ((2 ^ k.toNat : Nat) : ℚ) := by
  have h : (2 : ℚ) ^ k = (2 : ℚ) ^ ((k.toNat : Nat) : Int) := by rw [Int.toNat_of_nonneg hk]
  rw [h, zpow_natCast]
  push_cast
  rfl

theorem zpow_two_of_neg (k : Int) (hk : k < 0) :
    (2 : ℚ) ^ k = (((2 ^ (-k).toNat : Nat) : ℚ))⁻¹ := by
  have h : (2 : ℚ) ^ k = ((2 : ℚ) ^ (-k))⁻¹ := by rw [zpow_neg, inv_inv]
  rw [h, zpow_two_of_nonneg (-k) (by omega)]

theorem belowPow_iff (n d : Nat) (hd : 1 ≤ d) (k : Int) :
    F32.belowPow n d k = true ↔ (n : ℚ) / d < 2 ^ k := by
  have hd' : (0 : ℚ) < d := by exact_mod_cast hd
  unfold F32.belowPow
  by_cases hk : 0 ≤ k
  · simp only [hk, if_true, decide_eq_true_eq]
    rw [zpow_two_of_nonneg k hk, div_lt_iff₀ hd']
    constructor
    · intro h
      have : ((n : Nat) : ℚ) < ((d * 2 ^ k.toNat : Nat) : ℚ) := by exact_mod_cast h
      push_cast at this ⊢
      linarith
    · intro h
      have : ((n : Nat) : ℚ) < ((d * 2 ^ k.toNat : Nat) : ℚ) := by
        push_cast at h ⊢
        linarith
      exact_mod_cast this
  · simp only [hk, if_false, decide_eq_true_eq]
    have hp : (0 : ℚ) < ((2 ^ (-k).toNat : Nat) : ℚ) := by positivity
    rw [zpow_two_of_neg k (by omega), div_lt_iff₀ hd', ← div_eq_inv_mul, lt_div_iff₀ hp]
    constructor
    · intro h
      exact_mod_cast h
    · intro h
      exact_mod_cast h

/-- The binade of `n / d` as `quantum` finds it. -/
theorem binade_spec (n d : Nat) (hn : 1 ≤ n) (hd : 1 ≤ d) :
    (2 : ℚ) ^ (if F32.belowPow n d ((F32.log2 n : Int) - (F32.log2 d : Int)) then
        (F32.log2 n : Int) - (F32.log2 d : Int) - 1
        else (F32.log2 n : Int) - (F32.log2 d : Int)) ≤ (n : ℚ) / d ∧
      (n : ℚ) / d < (2 : ℚ) ^ ((if F32.belowPow n d ((F32.log2 n : Int) - (F32.log2 d : Int)) then
        (F32.log2 n : Int) - (F32.log2 d : Int) - 1
        else (F32.log2 n : Int) - (F32.log2 d : Int)) + 1) := by
  have hd' : (0 : ℚ) < d := by exact_mod_cast hd
  obtain ⟨n1, n2⟩ := log2_spec n hn
  obtain ⟨d1, d2⟩ := log2_spec d hd
  have n1' : (2 : ℚ) ^ (F32.log2 n : Int) ≤ n := by
    rw [zpow_natCast]
    exact_mod_cast n1
  have d2' : (d : ℚ) < (2 : ℚ) ^ ((F32.log2 d : Int) + 1) := by
    have : (d : ℚ) < (2 : ℚ) ^ (F32.log2 d + 1) := by exact_mod_cast d2
    rw [show ((F32.log2 d : Int) + 1) = ((F32.log2 d + 1 : Nat) : Int) by push_cast; rfl,
      zpow_natCast]
    exact this
  have n2' : (n : ℚ) < (2 : ℚ) ^ ((F32.log2 n : Int) + 1) := by
    have : (n : ℚ) < (2 : ℚ) ^ (F32.log2 n + 1) := by exact_mod_cast n2
    rw [show ((F32.log2 n : Int) + 1) = ((F32.log2 n + 1 : Nat) : Int) by push_cast; rfl,
      zpow_natCast]
    exact this
  have d1' : (2 : ℚ) ^ (F32.log2 d : Int) ≤ d := by
    rw [zpow_natCast]
    exact_mod_cast d1
  have h2 : (0 : ℚ) < 2 := by norm_num
  have lo : (2 : ℚ) ^ ((F32.log2 n : Int) - (F32.log2 d : Int) - 1) ≤ (n : ℚ) / d := by
    rw [le_div_iff₀ hd']
    have e : (2 : ℚ) ^ ((F32.log2 n : Int) - (F32.log2 d : Int) - 1) *
        (2 : ℚ) ^ ((F32.log2 d : Int) + 1) = (2 : ℚ) ^ (F32.log2 n : Int) := by
      rw [← zpow_add₀ h2.ne']
      congr 1
      ring
    have hp : (0 : ℚ) < (2 : ℚ) ^ ((F32.log2 n : Int) - (F32.log2 d : Int) - 1) :=
      zpow_pos h2 _
    calc (2 : ℚ) ^ ((F32.log2 n : Int) - (F32.log2 d : Int) - 1) * d
        ≤ (2 : ℚ) ^ ((F32.log2 n : Int) - (F32.log2 d : Int) - 1) *
          (2 : ℚ) ^ ((F32.log2 d : Int) + 1) := by
          exact mul_le_mul_of_nonneg_left d2'.le hp.le
      _ = (2 : ℚ) ^ (F32.log2 n : Int) := e
      _ ≤ n := n1'
  have hi : (n : ℚ) / d < (2 : ℚ) ^ ((F32.log2 n : Int) - (F32.log2 d : Int) + 1) := by
    rw [div_lt_iff₀ hd']
    have e : (2 : ℚ) ^ ((F32.log2 n : Int) - (F32.log2 d : Int) + 1) *
        (2 : ℚ) ^ (F32.log2 d : Int) = (2 : ℚ) ^ ((F32.log2 n : Int) + 1) := by
      rw [← zpow_add₀ h2.ne']
      congr 1
      ring
    have hp : (0 : ℚ) < (2 : ℚ) ^ ((F32.log2 n : Int) - (F32.log2 d : Int) + 1) :=
      zpow_pos h2 _
    calc (n : ℚ) < (2 : ℚ) ^ ((F32.log2 n : Int) + 1) := n2'
      _ = (2 : ℚ) ^ ((F32.log2 n : Int) - (F32.log2 d : Int) + 1) *
          (2 : ℚ) ^ (F32.log2 d : Int) := e.symm
      _ ≤ (2 : ℚ) ^ ((F32.log2 n : Int) - (F32.log2 d : Int) + 1) * d :=
          mul_le_mul_of_nonneg_left d1' hp.le
  by_cases hb : F32.belowPow n d ((F32.log2 n : Int) - (F32.log2 d : Int)) = true
  · simp only [hb, if_true]
    refine ⟨lo, ?_⟩
    rw [show (F32.log2 n : Int) - (F32.log2 d : Int) - 1 + 1 =
      (F32.log2 n : Int) - (F32.log2 d : Int) by ring]
    exact (belowPow_iff n d hd _).mp hb
  · simp only [hb, if_false]
    refine ⟨?_, hi⟩
    have := (belowPow_iff n d hd ((F32.log2 n : Int) - (F32.log2 d : Int))).not.mp hb
    exact not_lt.mp this

/-- The integer `round` picks is within one half of the scaled quotient. -/
theorem round_scaled (n d : Nat) (hd : 1 ≤ d) (qe : Int) :
    |(((if qe < 0 then F32.nearestEven (n * 2 ^ (-qe).toNat) d
        else F32.nearestEven n (d * 2 ^ qe.toNat) : Nat)) : ℚ) - (n : ℚ) / d * 2 ^ (-qe)| ≤
      1 / 2 := by
  have hd' : (0 : ℚ) < d := by exact_mod_cast hd
  by_cases hq : qe < 0
  · simp only [hq, if_true]
    have h := nearestEven_spec (n * 2 ^ (-qe).toNat) d hd
    have e : (((n * 2 ^ (-qe).toNat : Nat)) : ℚ) / d = (n : ℚ) / d * 2 ^ (-qe) := by
      rw [zpow_two_of_nonneg (-qe) (by omega)]
      push_cast
      ring
    rw [e] at h
    exact h
  · simp only [hq, if_false]
    have hp : 1 ≤ d * 2 ^ qe.toNat := Nat.one_le_iff_ne_zero.mpr (by positivity)
    have h := nearestEven_spec n (d * 2 ^ qe.toNat) hp
    have e : (n : ℚ) / ((d * 2 ^ qe.toNat : Nat) : ℚ) = (n : ℚ) / d * 2 ^ (-qe) := by
      rw [zpow_neg, zpow_two_of_nonneg qe (by omega)]
      push_cast
      field_simp
    rw [e] at h
    exact h

/-- Rounding in the normal range: the result is finite, with 24 significant
bits, and within `2^-24` of the rounded value, relative to it. -/
theorem round_spec (s : Bool) (n d : Nat) (hn : 1 ≤ n) (hd : 1 ≤ d)
    (hlo : (2 : ℚ) ^ (-126 : Int) ≤ (n : ℚ) / d) (hhi : (n : ℚ) / d < (2 : ℚ) ^ (127 : Int)) :
    ∃ (m : Nat) (e : Int), F32.round s n d = F32.finite s m e ∧ 2 ^ 23 ≤ m ∧ m < 2 ^ 24 ∧
      |(m : ℚ) * 2 ^ e - (n : ℚ) / d| ≤ (n : ℚ) / d * 2 ^ (-24 : Int) := by
  have h2 : (0 : ℚ) < 2 := by norm_num
  obtain ⟨b1, b2⟩ := binade_spec n d hn hd
  generalize hE : (if F32.belowPow n d ((F32.log2 n : Int) - (F32.log2 d : Int)) then
        (F32.log2 n : Int) - (F32.log2 d : Int) - 1
        else (F32.log2 n : Int) - (F32.log2 d : Int)) = E at b1 b2
  have hE1 : -126 ≤ E := by
    by_contra hc
    have h1 : E + 1 ≤ -126 := by omega
    have h3 := zpow_le_zpow_right₀ (show (1 : ℚ) ≤ 2 by norm_num) h1
    exact lt_irrefl _ (lt_of_lt_of_le b2 (le_trans h3 hlo))
  have hE2 : E ≤ 126 := by
    by_contra hc
    have h1 : (127 : Int) ≤ E := by omega
    have h3 := zpow_le_zpow_right₀ (show (1 : ℚ) ≤ 2 by norm_num) h1
    exact lt_irrefl _ (lt_of_lt_of_le hhi (le_trans h3 b1))
  have hq : F32.quantum n d = E - 23 := by
    unfold F32.quantum
    simp only [hE]
    omega
  have hs := round_scaled n d hd (E - 23)
  generalize hM : (if E - 23 < 0 then F32.nearestEven (n * 2 ^ (-(E - 23)).toNat) d
        else F32.nearestEven n (d * 2 ^ (E - 23).toNat)) = M at hs
  have hy1 : (2 : ℚ) ^ (23 : Int) ≤ (n : ℚ) / d * 2 ^ (-(E - 23)) := by
    have e : (2 : ℚ) ^ (23 : Int) = 2 ^ E * 2 ^ (-(E - 23)) := by
      rw [← zpow_add₀ h2.ne']
      congr 1
      ring
    rw [e]
    exact mul_le_mul_of_nonneg_right b1 (zpow_pos h2 _).le
  have hy2 : (n : ℚ) / d * 2 ^ (-(E - 23)) < (2 : ℚ) ^ (24 : Int) := by
    have e : (2 : ℚ) ^ (24 : Int) = 2 ^ (E + 1) * 2 ^ (-(E - 23)) := by
      rw [← zpow_add₀ h2.ne']
      congr 1
      ring
    rw [e]
    exact mul_lt_mul_of_pos_right b2 (zpow_pos h2 _)
  rw [abs_le] at hs
  have hM1 : 2 ^ 23 ≤ M := by
    have : ((2 ^ 23 : Nat) : ℚ) - 1 < (M : ℚ) := by
      have e : ((2 ^ 23 : Nat) : ℚ) = (2 : ℚ) ^ (23 : Int) := by norm_num
      rw [e]
      linarith [hs.1]
    have : (2 ^ 23 : Nat) - 1 < M := by
      have h' : (((2 ^ 23 - 1 : Nat)) : ℚ) < (M : ℚ) := by
        push_cast
        linarith
      exact_mod_cast h'
    omega
  have hM2 : M ≤ 2 ^ 24 := by
    have : (M : ℚ) < ((2 ^ 24 : Nat) : ℚ) + 1 := by
      have e : ((2 ^ 24 : Nat) : ℚ) = (2 : ℚ) ^ (24 : Int) := by norm_num
      rw [e]
      linarith [hs.2]
    have : M < 2 ^ 24 + 1 := by exact_mod_cast this
    omega
  have herr : |(M : ℚ) * 2 ^ (E - 23) - (n : ℚ) / d| ≤ (n : ℚ) / d * 2 ^ (-24 : Int) := by
    have hp : (0 : ℚ) < 2 ^ (E - 23) := zpow_pos h2 _
    have e1 : (M : ℚ) * 2 ^ (E - 23) - (n : ℚ) / d =
        ((M : ℚ) - (n : ℚ) / d * 2 ^ (-(E - 23))) * 2 ^ (E - 23) := by
      have : (2 : ℚ) ^ (-(E - 23)) * 2 ^ (E - 23) = 1 := by
        rw [← zpow_add₀ h2.ne']
        simp
      rw [sub_mul, mul_assoc, this, mul_one]
    have e2 : (1 / 2 : ℚ) * 2 ^ (E - 23) = 2 ^ E * 2 ^ (-24 : Int) := by
      have : (1 / 2 : ℚ) = 2 ^ (-1 : Int) := by norm_num
      rw [this, ← zpow_add₀ h2.ne', ← zpow_add₀ h2.ne']
      congr 1
      ring
    rw [e1, abs_mul, abs_of_pos hp]
    calc |(M : ℚ) - (n : ℚ) / d * 2 ^ (-(E - 23))| * 2 ^ (E - 23)
        ≤ 1 / 2 * 2 ^ (E - 23) := by
          apply mul_le_mul_of_nonneg_right _ hp.le
          rw [abs_le]
          exact hs
      _ = 2 ^ E * 2 ^ (-24 : Int) := e2
      _ ≤ (n : ℚ) / d * 2 ^ (-24 : Int) :=
          mul_le_mul_of_nonneg_right b1 (zpow_pos h2 _).le
  have hn0 : n ≠ 0 := by omega
  unfold F32.round
  simp only [hn0, if_false, hq, hM]
  by_cases hc : M = 2 ^ 24
  · simp only [hc, if_true]
    have h104 : ¬ (104 < E - 23 + 1) := by omega
    simp only [h104, if_false]
    refine ⟨2 ^ 23, E - 23 + 1, rfl, le_rfl, by norm_num, ?_⟩
    have e : (((2 ^ 23 : Nat)) : ℚ) * 2 ^ (E - 23 + 1) = (M : ℚ) * 2 ^ (E - 23) := by
      rw [hc, zpow_add_one₀ h2.ne']
      push_cast
      ring
    rw [e]
    exact herr
  · simp only [hc, if_false]
    have h104 : ¬ (104 < E - 23) := by omega
    simp only [h104, if_false]
    exact ⟨M, E - 23, rfl, hM1, by omega, herr⟩

theorem toRat_finite (m : Nat) (e : Int) :
    F32.toRat (F32.finite false m e) = (m : ℚ) * 2 ^ e := by
  simp [F32.toRat]

/-- The product of two positive finite floats in the normal range. -/
theorem mul_spec (ma mb : Nat) (ea eb : Int) (ha : 1 ≤ ma) (hb : 1 ≤ mb)
    (hlo : (2 : ℚ) ^ (-126 : Int) ≤ (ma : ℚ) * 2 ^ ea * ((mb : ℚ) * 2 ^ eb))
    (hhi : (ma : ℚ) * 2 ^ ea * ((mb : ℚ) * 2 ^ eb) < (2 : ℚ) ^ (127 : Int)) :
    ∃ (m : Nat) (e : Int),
      F32.mul (F32.finite false ma ea) (F32.finite false mb eb) = F32.finite false m e ∧
      2 ^ 23 ≤ m ∧ m < 2 ^ 24 ∧
      |(m : ℚ) * 2 ^ e - (ma : ℚ) * 2 ^ ea * ((mb : ℚ) * 2 ^ eb)| ≤
        (ma : ℚ) * 2 ^ ea * ((mb : ℚ) * 2 ^ eb) * 2 ^ (-24 : Int) := by
  have h2 : (2 : ℚ) ≠ 0 := by norm_num
  have hm : 1 ≤ ma * mb := Nat.one_le_iff_ne_zero.mpr (by positivity)
  unfold F32.mul
  by_cases hk : 0 ≤ ea + eb
  · simp only [hk, if_true, Bool.xor_false]
    have e : (((ma * mb * 2 ^ (ea + eb).toNat : Nat)) : ℚ) / ((1 : Nat) : ℚ) =
        (ma : ℚ) * 2 ^ ea * ((mb : ℚ) * 2 ^ eb) := by
      have : (2 : ℚ) ^ ea * 2 ^ eb = ((2 ^ (ea + eb).toNat : Nat) : ℚ) := by
        rw [← zpow_add₀ h2, zpow_two_of_nonneg _ hk]
      push_cast at this ⊢
      rw [div_one]
      linear_combination (ma : ℚ) * mb * (-this)
    rw [← e] at hlo hhi ⊢
    exact round_spec false _ 1 (Nat.one_le_iff_ne_zero.mpr (by positivity)) le_rfl hlo hhi
  · simp only [hk, if_false, Bool.xor_false]
    have e : (((ma * mb : Nat)) : ℚ) / ((2 ^ (-(ea + eb)).toNat : Nat) : ℚ) =
        (ma : ℚ) * 2 ^ ea * ((mb : ℚ) * 2 ^ eb) := by
      have : (2 : ℚ) ^ ea * 2 ^ eb = (((2 ^ (-(ea + eb)).toNat : Nat)) : ℚ)⁻¹ := by
        rw [← zpow_add₀ h2, zpow_two_of_neg _ (by omega)]
      rw [div_eq_mul_inv, ← this]
      push_cast
      ring
    rw [← e] at hlo hhi ⊢
    exact round_spec false _ _ hm (Nat.one_le_iff_ne_zero.mpr (by positivity)) hlo hhi

/-- The quotient of two positive finite floats in the normal range. -/
theorem div_spec (ma mb : Nat) (ea eb : Int) (ha : 1 ≤ ma) (hb : 1 ≤ mb)
    (hlo : (2 : ℚ) ^ (-126 : Int) ≤ (ma : ℚ) * 2 ^ ea / ((mb : ℚ) * 2 ^ eb))
    (hhi : (ma : ℚ) * 2 ^ ea / ((mb : ℚ) * 2 ^ eb) < (2 : ℚ) ^ (127 : Int)) :
    ∃ (m : Nat) (e : Int),
      F32.div (F32.finite false ma ea) (F32.finite false mb eb) = F32.finite false m e ∧
      2 ^ 23 ≤ m ∧ m < 2 ^ 24 ∧
      |(m : ℚ) * 2 ^ e - (ma : ℚ) * 2 ^ ea / ((mb : ℚ) * 2 ^ eb)| ≤
        (ma : ℚ) * 2 ^ ea / ((mb : ℚ) * 2 ^ eb) * 2 ^ (-24 : Int) := by
  have h2 : (2 : ℚ) ≠ 0 := by norm_num
  have hb0 : mb ≠ 0 := by omega
  have hb' : (mb : ℚ) ≠ 0 := by exact_mod_cast hb0
  unfold F32.div
  simp only [hb0, if_false, Bool.xor_false]
  by_cases hk : 0 ≤ ea - eb
  · simp only [hk, if_true]
    have e : (((ma * 2 ^ (ea - eb).toNat : Nat)) : ℚ) / (mb : ℚ) =
        (ma : ℚ) * 2 ^ ea / ((mb : ℚ) * 2 ^ eb) := by
      have : (2 : ℚ) ^ ea / 2 ^ eb = ((2 ^ (ea - eb).toNat : Nat) : ℚ) := by
        rw [← zpow_sub₀ h2, zpow_two_of_nonneg _ hk]
      have hp : (2 : ℚ) ^ eb ≠ 0 := zpow_ne_zero _ h2
      push_cast at this ⊢
      rw [← this]
      field_simp
      ring
    rw [← e] at hlo hhi ⊢
    exact round_spec false _ _ (Nat.one_le_iff_ne_zero.mpr (by positivity)) hb hlo hhi
  · simp only [hk, if_false]
    have e : ((ma : Nat) : ℚ) / (((mb * 2 ^ (eb - ea).toNat : Nat)) : ℚ) =
        (ma : ℚ) * 2 ^ ea / ((mb : ℚ) * 2 ^ eb) := by
      have : (2 : ℚ) ^ eb / 2 ^ ea = ((2 ^ (eb - ea).toNat : Nat) : ℚ) := by
        rw [← zpow_sub₀ h2, zpow_two_of_nonneg _ (by omega)]
      have hp : (2 : ℚ) ^ ea ≠ 0 := zpow_ne_zero _ h2
      have hq : (2 : ℚ) ^ eb ≠ 0 := zpow_ne_zero _ h2
      push_cast at this ⊢
      rw [← this]
      field_simp
    rw [← e] at hlo hhi ⊢
    exact round_spec false _ _ ha (Nat.one_le_iff_ne_zero.mpr (by positivity)) hlo hhi

theorem nearestEven_one (N : Nat) : F32.nearestEven N 1 = N := by
  simp [F32.nearestEven, Nat.mod_one]

/-- The conversion of a positive `int` below `2^24` is exact. -/
theorem ofInt_spec (w : Int) (hw : 0 < w) (hw2 : w < 2 ^ 24) :
    ∃ (m : Nat) (e : Int), F32.ofInt w = F32.finite false m e ∧ 1 ≤ m ∧
      (m : ℚ) * 2 ^ e = (w : ℚ) := by
  have h2 : (0 : ℚ) < 2 := by norm_num
  obtain ⟨n, rfl⟩ : ∃ n : Nat, w = (n : Int) := ⟨w.toNat, (Int.toNat_of_nonneg hw.le).symm⟩
  have hn : 1 ≤ n := by omega
  have hn2 : n < 2 ^ 24 := by exact_mod_cast hw2
  obtain ⟨b1, b2⟩ := binade_spec n 1 hn le_rfl
  have hq : F32.quantum n 1 = max ((if F32.belowPow n 1 ((F32.log2 n : Int) - (F32.log2 1 : Int))
      then (F32.log2 n : Int) - (F32.log2 1 : Int) - 1
      else (F32.log2 n : Int) - (F32.log2 1 : Int)) - 23) (-149) := rfl
  generalize (if F32.belowPow n 1 ((F32.log2 n : Int) - (F32.log2 1 : Int)) then
        (F32.log2 n : Int) - (F32.log2 1 : Int) - 1
        else (F32.log2 n : Int) - (F32.log2 1 : Int)) = E at b1 b2 hq
  simp only [Nat.cast_one, div_one] at b1 b2
  have hE0 : 0 ≤ E := by
    by_contra hc
    have h1 : E ≤ -1 := by omega
    have h3 := zpow_le_zpow_right₀ (show (1 : ℚ) ≤ 2 by norm_num) h1
    have h4 : (1 : ℚ) ≤ n := by exact_mod_cast hn
    have h5 : (2 : ℚ) ^ (-1 : Int) = 1 / 2 := by norm_num
    have h6 : (2 : ℚ) ^ (E + 1) ≤ 2 ^ (0 : Int) :=
      zpow_le_zpow_right₀ (show (1 : ℚ) ≤ 2 by norm_num) (by omega)
    simp only [zpow_zero] at h6
    linarith
  have hE1 : E ≤ 23 := by
    by_contra hc
    have h1 : (24 : Int) ≤ E := by omega
    have h3 := zpow_le_zpow_right₀ (show (1 : ℚ) ≤ 2 by norm_num) h1
    have h4 : (n : ℚ) < 2 ^ (24 : Int) := by
      have : (n : ℚ) < ((2 ^ 24 : Nat) : ℚ) := by exact_mod_cast hn2
      norm_num at this ⊢
      exact this
    exact lt_irrefl _ (lt_of_lt_of_le h4 (le_trans h3 b1))
  obtain ⟨k, hk⟩ : ∃ k : Nat, E = 23 - (k : Int) := ⟨(23 - E).toNat, by omega⟩
  have hq' : F32.quantum n 1 = -(k : Int) := by
    rw [hq]
    omega
  have hm : n * 2 ^ k < 2 ^ 24 := by
    have h3 : (n : ℚ) * 2 ^ (k : Int) < 2 ^ (E + 1) * 2 ^ (k : Int) :=
      mul_lt_mul_of_pos_right b2 (zpow_pos h2 _)
    rw [← zpow_add₀ h2.ne', show E + 1 + (k : Int) = ((24 : Nat) : Int) by omega, zpow_natCast,
      zpow_natCast] at h3
    exact_mod_cast h3
  have hval : (((n * 2 ^ k : Nat)) : ℚ) * 2 ^ (-(k : Int)) = ((n : Int) : ℚ) := by
    push_cast
    rw [zpow_neg, zpow_natCast]
    field_simp
  have hneg : decide ((n : Int) < 0) = false := by simp
  have hn0 : n ≠ 0 := by omega
  unfold F32.ofInt F32.round
  simp only [hneg, Int.natAbs_ofNat, hn0, if_false, hq']
  by_cases hk0 : k = 0
  · subst hk0
    simp only [Nat.cast_zero, neg_zero, lt_self_iff_false, if_false, Int.toNat_zero, pow_zero,
      mul_one, nearestEven_one]
    have h24 : ¬ n = 2 ^ 24 := by omega
    simp only [h24, if_false]
    norm_num
    refine ⟨n, 0, ⟨rfl, rfl⟩, hn, ?_⟩
    simp
  · have hlt : -(k : Int) < 0 := by omega
    simp only [hlt, if_true, neg_neg, Int.toNat_ofNat, nearestEven_one]
    have h24 : ¬ n * 2 ^ k = 2 ^ 24 := by omega
    have h104 : ¬ (104 : Int) < -(k : Int) := by omega
    simp only [h24, if_false, h104]
    exact ⟨n * 2 ^ k, -(k : Int), rfl, Nat.one_le_iff_ne_zero.mpr (by positivity), hval⟩

end Rounding

/-! ## The projection on floats -/

section ProjectionF

/-- Four roundings, each within `2^-24`, leave the ratio of the two diagonal
entries within `2^-21` of the aspect ratio. -/
theorem ratio_bound (X a t p p00 p11 : ℚ) (hX : 0 < X) (ht : 0 < t)
    (ha : |a - X| ≤ X * (1 / 16777216)) (hp : |p - a * t| ≤ a * t * (1 / 16777216))
    (h00 : |p00 - 1 / p| ≤ 1 / p * (1 / 16777216))
    (h11 : |p11 - 1 / t| ≤ 1 / t * (1 / 16777216)) :
    0 < p00 ∧ |p11 / p00 - X| ≤ X * (1 / 2097152) := by
  rw [abs_le] at ha hp h00 h11
  have a0 : 0 < a := by nlinarith [ha.1]
  have at0 : 0 < a * t := mul_pos a0 ht
  have p0 : 0 < p := by nlinarith [hp.1]
  have ip0 : 0 < 1 / p := one_div_pos.mpr p0
  have p000 : 0 < p00 := by nlinarith [h00.1]
  have e1 : 1 / p * p = 1 := by field_simp
  have e2 : 1 / t * t = 1 := by field_simp
  have q1 : (1 - 1 / 16777216) ≤ p00 * p := by
    have h := mul_le_mul_of_nonneg_right h00.1 p0.le
    have e : -(1 / p * (1 / 16777216)) * p = -(1 / 16777216) * (1 / p * p) := by ring
    rw [e, e1, sub_mul, e1] at h
    linarith
  have q2 : p00 * p ≤ (1 + 1 / 16777216) := by
    have h := mul_le_mul_of_nonneg_right h00.2 p0.le
    have e : 1 / p * (1 / 16777216) * p = 1 / 16777216 * (1 / p * p) := by ring
    rw [e, e1, sub_mul, e1] at h
    linarith
  have r1 : (1 - 1 / 16777216) ≤ p11 * t := by
    have h := mul_le_mul_of_nonneg_right h11.1 ht.le
    have e : -(1 / t * (1 / 16777216)) * t = -(1 / 16777216) * (1 / t * t) := by ring
    rw [e, e2, sub_mul, e2] at h
    linarith
  have r2 : p11 * t ≤ (1 + 1 / 16777216) := by
    have h := mul_le_mul_of_nonneg_right h11.2 ht.le
    have e : 1 / t * (1 / 16777216) * t = 1 / 16777216 * (1 / t * t) := by ring
    rw [e, e2, sub_mul, e2] at h
    linarith
  have s1 : (1 - 1 / 16777216) * (a * t) ≤ p := by linarith [hp.1]
  have s2 : p ≤ (1 + 1 / 16777216) * (a * t) := by linarith [hp.2]
  have u1 : (1 - 1 / 16777216) * X ≤ a := by linarith [ha.1]
  have u2 : a ≤ (1 + 1 / 16777216) * X := by linarith [ha.2]
  -- upper bound
  have up1 : p00 * p ≤ (1 + 1 / 16777216) * (1 + 1 / 16777216) * (X * t * p00) := by
    have h1 : p00 * p ≤ p00 * ((1 + 1 / 16777216) * (a * t)) :=
      mul_le_mul_of_nonneg_left s2 p000.le
    have h2 : p00 * ((1 + 1 / 16777216) * (a * t)) ≤
        p00 * ((1 + 1 / 16777216) * ((1 + 1 / 16777216) * X * t)) := by
      apply mul_le_mul_of_nonneg_left _ p000.le
      apply mul_le_mul_of_nonneg_left _ (by norm_num)
      exact mul_le_mul_of_nonneg_right u2 ht.le
    calc p00 * p ≤ p00 * ((1 + 1 / 16777216) * ((1 + 1 / 16777216) * X * t)) := h1.trans h2
      _ = (1 + 1 / 16777216) * (1 + 1 / 16777216) * (X * t * p00) := by ring
  have lo1 : (1 - 1 / 16777216) * (1 - 1 / 16777216) * (X * t * p00) ≤ p00 * p := by
    have h1 : p00 * ((1 - 1 / 16777216) * (a * t)) ≤ p00 * p :=
      mul_le_mul_of_nonneg_left s1 p000.le
    have h2 : p00 * ((1 - 1 / 16777216) * ((1 - 1 / 16777216) * X * t)) ≤
        p00 * ((1 - 1 / 16777216) * (a * t)) := by
      apply mul_le_mul_of_nonneg_left _ p000.le
      apply mul_le_mul_of_nonneg_left _ (by norm_num)
      exact mul_le_mul_of_nonneg_right u1 ht.le
    calc (1 - 1 / 16777216) * (1 - 1 / 16777216) * (X * t * p00)
        = p00 * ((1 - 1 / 16777216) * ((1 - 1 / 16777216) * X * t)) := by ring
      _ ≤ p00 * p := h2.trans h1
  have hi : p11 * t ≤ (X + X * (1 / 2097152)) * p00 * t := by
    have h1 : (1 - 1 / 16777216 : ℚ) ≤ (1 + 1 / 16777216) * (1 + 1 / 16777216) * (X * t * p00) :=
      q1.trans up1
    have e : (X + X * (1 / 2097152)) * p00 * t = (1 + 1 / 2097152) * (X * t * p00) := by ring
    rw [e]
    generalize X * t * p00 = Y at h1
    linarith
  have lo : (X - X * (1 / 2097152)) * p00 * t ≤ p11 * t := by
    have h1 : (1 - 1 / 16777216) * (1 - 1 / 16777216) * (X * t * p00) ≤
        (1 + 1 / 16777216 : ℚ) := lo1.trans q2
    have e : (X - X * (1 / 2097152)) * p00 * t = (1 - 1 / 2097152) * (X * t * p00) := by ring
    rw [e]
    generalize X * t * p00 = Y at h1
    linarith
  refine ⟨p000, ?_⟩
  rw [abs_le]
  constructor
  · rw [le_sub_iff_add_le, le_div_iff₀ p000]
    have := le_of_mul_le_mul_right lo ht
    linarith
  · rw [sub_le_iff_le_add, div_le_iff₀ p000]
    have := le_of_mul_le_mul_right hi ht
    linarith

/-- The aspect argument of the projection: the quotient of the two sizes,
rounded once. -/
theorem aspect_spec (w h : Int) (hw : 0 < w) (hw2 : w < 2 ^ 24) (hh : 0 < h) (hh2 : h < 2 ^ 24) :
    ∃ (m : Nat) (e : Int), F32.div (F32.ofInt w) (F32.ofInt h) = F32.finite false m e ∧
      2 ^ 23 ≤ m ∧ m < 2 ^ 24 ∧
      |(m : ℚ) * 2 ^ e - (w : ℚ) / h| ≤ (w : ℚ) / h * 2 ^ (-24 : Int) := by
  obtain ⟨mw, ew, ew', hmw, vw⟩ := ofInt_spec w hw hw2
  obtain ⟨mh, eh, eh', hmh, vh⟩ := ofInt_spec h hh hh2
  have hw1 : (1 : ℚ) ≤ w := by exact_mod_cast hw
  have hh1 : (1 : ℚ) ≤ h := by exact_mod_cast hh
  have hw3 : (w : ℚ) < 16777216 := by exact_mod_cast hw2
  have hh3 : (h : ℚ) < 16777216 := by exact_mod_cast hh2
  have hh0 : (0 : ℚ) < h := by linarith
  have lo : (2 : ℚ) ^ (-126 : Int) ≤ (w : ℚ) / h := by
    rw [le_div_iff₀ hh0]
    have h1 : (2 : ℚ) ^ (-126 : Int) ≤ 1 / 16777216 := by norm_num
    have h3 := mul_le_mul_of_nonneg_right h1 hh0.le
    generalize (2 : ℚ) ^ (-126 : Int) * (h : ℚ) = c at h3 ⊢
    linarith
  have hi : (w : ℚ) / h < (2 : ℚ) ^ (127 : Int) := by
    rw [div_lt_iff₀ hh0]
    have h1 : (16777216 : ℚ) ≤ (2 : ℚ) ^ (127 : Int) := by norm_num
    have h3 := mul_le_mul_of_nonneg_left hh1 (le_trans (by norm_num) h1)
    rw [mul_one] at h3
    generalize (2 : ℚ) ^ (127 : Int) * (h : ℚ) = c at h3 ⊢
    generalize (2 : ℚ) ^ (127 : Int) = c' at h1 h3
    linarith
  rw [ew', eh']
  rw [← vw, ← vh] at lo hi ⊢
  exact div_spec mw mh ew eh hmw hmh lo hi

theorem lit_one : F32.lit 1 1 = F32.finite false 8388608 (-23) := by decide

theorem pow_lo : (2 : ℚ) ^ (-126 : Int) ≤ 1 / 2 ^ 100 := by norm_num

theorem pow_hi : (2 : ℚ) ^ (100 : Nat) ≤ (2 : ℚ) ^ (127 : Int) := by norm_num

/-- The two diagonal entries of the float projection, for a viewport below
`2^24` a side and a `tanf` value between `2^-40` and `2^40`. -/
theorem projection_ratio_float (L : Libm32) (w h : Int) (hw : 0 < w) (hw2 : w < 2 ^ 24)
    (hh : 0 < h) (hh2 : h < 2 ^ 24) (mt : Nat) (et : Int)
    (htan : L.tan (F32.div (radiansF (F32.lit 30 1)) (F32.lit 2 1)) = F32.finite false mt et)
    (hmt : 1 ≤ mt) (tlo : 1 / 2 ^ 40 ≤ (mt : ℚ) * 2 ^ et) (thi : (mt : ℚ) * 2 ^ et ≤ 2 ^ 40) :
    0 < F32.toRat (projectionForF L (w, h) 0 0) ∧
      |F32.toRat (projectionForF L (w, h) 1 1) / F32.toRat (projectionForF L (w, h) 0 0) -
          (w : ℚ) / h| ≤ (w : ℚ) / h * (1 / 2097152) := by
  obtain ⟨m, e, ha, hm1, hm2, herr⟩ := aspect_spec w h hw hw2 hh hh2
  have P00 : projectionForF L (w, h) 0 0 =
      F32.div (F32.lit 1 1) (F32.mul (F32.div (F32.ofInt w) (F32.ofInt h))
        (L.tan (F32.div (radiansF (F32.lit 30 1)) (F32.lit 2 1)))) := rfl
  have P11 : projectionForF L (w, h) 1 1 =
      F32.div (F32.lit 1 1) (L.tan (F32.div (radiansF (F32.lit 30 1)) (F32.lit 2 1))) := rfl
  rw [P00, P11, ha, htan, lit_one]
  have u24 : (2 : ℚ) ^ (-24 : Int) = 1 / 16777216 := by norm_num
  rw [u24] at herr
  have hw1 : (1 : ℚ) ≤ w := by exact_mod_cast hw
  have hh1 : (1 : ℚ) ≤ h := by exact_mod_cast hh
  have hw3 : (w : ℚ) ≤ 16777216 := by
    have : (w : ℚ) < 16777216 := by exact_mod_cast hw2
    exact this.le
  have hh3 : (h : ℚ) ≤ 16777216 := by
    have : (h : ℚ) < 16777216 := by exact_mod_cast hh2
    exact this.le
  have hh0 : (0 : ℚ) < h := by linarith
  have X1 : 1 / 16777216 ≤ (w : ℚ) / h := by
    rw [le_div_iff₀ hh0]
    linarith
  have X2 : (w : ℚ) / h ≤ 16777216 := by
    rw [div_le_iff₀ hh0]
    nlinarith
  generalize (w : ℚ) / h = X at herr X1 X2 ⊢
  have X0 : 0 < X := by linarith
  have t0 : (0 : ℚ) < (mt : ℚ) * 2 ^ et := lt_of_lt_of_le (by norm_num) tlo
  rw [abs_le] at herr
  have a1 : 1 / 2 ^ 25 ≤ (m : ℚ) * 2 ^ e := by nlinarith [herr.1]
  have a2 : (m : ℚ) * 2 ^ e ≤ 2 ^ 25 := by nlinarith [herr.2]
  have a0 : (0 : ℚ) < (m : ℚ) * 2 ^ e := lt_of_lt_of_le (by norm_num) a1
  have at1 : 1 / 2 ^ 65 ≤ (m : ℚ) * 2 ^ e * ((mt : ℚ) * 2 ^ et) := by
    have := mul_le_mul a1 tlo (by norm_num) a0.le
    calc (1 : ℚ) / 2 ^ 65 = 1 / 2 ^ 25 * (1 / 2 ^ 40) := by norm_num
      _ ≤ _ := this
  have at2 : (m : ℚ) * 2 ^ e * ((mt : ℚ) * 2 ^ et) ≤ 2 ^ 65 := by
    have := mul_le_mul a2 thi t0.le (by norm_num)
    calc _ ≤ (2 : ℚ) ^ 25 * 2 ^ 40 := this
      _ = 2 ^ 65 := by norm_num
  have at0 : (0 : ℚ) < (m : ℚ) * 2 ^ e * ((mt : ℚ) * 2 ^ et) := mul_pos a0 t0
  obtain ⟨mp, ep, hp, hp1, hp2, perr⟩ := mul_spec m mt e et (by omega) hmt
    (le_trans pow_lo (le_trans (by norm_num) at1))
    (lt_of_le_of_lt at2 (lt_of_lt_of_le (by norm_num) pow_hi))
  rw [hp]
  rw [u24] at perr
  have perr' := abs_le.mp perr
  have p1 : 1 / 2 ^ 66 ≤ (mp : ℚ) * 2 ^ ep := by
    generalize (m : ℚ) * 2 ^ e * ((mt : ℚ) * 2 ^ et) = Y at at1 at2 perr'
    have := perr'.1
    norm_num at at1 ⊢
    linarith
  have p2 : (mp : ℚ) * 2 ^ ep ≤ 2 ^ 66 := by
    generalize (m : ℚ) * 2 ^ e * ((mt : ℚ) * 2 ^ et) = Y at at1 at2 perr'
    have := perr'.2
    norm_num at at2 ⊢
    linarith
  have p0 : (0 : ℚ) < (mp : ℚ) * 2 ^ ep := lt_of_lt_of_le (by norm_num) p1
  have one : ((8388608 : Nat) : ℚ) * 2 ^ (-23 : Int) = 1 := by norm_num
  have ip1 : 1 / 2 ^ 66 ≤ ((8388608 : Nat) : ℚ) * 2 ^ (-23 : Int) / ((mp : ℚ) * 2 ^ ep) := by
    rw [one]
    exact one_div_le_one_div_of_le p0 p2
  have ip2 : ((8388608 : Nat) : ℚ) * 2 ^ (-23 : Int) / ((mp : ℚ) * 2 ^ ep) ≤ 2 ^ 66 := by
    rw [one, div_le_iff₀ p0]
    have := mul_le_mul_of_nonneg_left p1 (show (0 : ℚ) ≤ 2 ^ 66 by norm_num)
    norm_num at this ⊢
    linarith
  have it1 : 1 / 2 ^ 40 ≤ ((8388608 : Nat) : ℚ) * 2 ^ (-23 : Int) / ((mt : ℚ) * 2 ^ et) := by
    rw [one]
    exact one_div_le_one_div_of_le t0 thi
  have it2 : ((8388608 : Nat) : ℚ) * 2 ^ (-23 : Int) / ((mt : ℚ) * 2 ^ et) ≤ 2 ^ 40 := by
    rw [one, div_le_iff₀ t0]
    have := mul_le_mul_of_nonneg_left tlo (show (0 : ℚ) ≤ 2 ^ 40 by norm_num)
    norm_num at this ⊢
    linarith
  obtain ⟨m0, e0, h0, -, -, err0⟩ := div_spec 8388608 mp (-23) ep (by norm_num) (by omega)
    (le_trans pow_lo (le_trans (by norm_num) ip1))
    (lt_of_le_of_lt ip2 (lt_of_lt_of_le (by norm_num) pow_hi))
  obtain ⟨m1, e1, h1, -, -, err1⟩ := div_spec 8388608 mt (-23) et (by norm_num) hmt
    (le_trans pow_lo (le_trans (by norm_num) it1))
    (lt_of_le_of_lt it2 (lt_of_lt_of_le (by norm_num) pow_hi))
  rw [h0, h1, toRat_finite, toRat_finite]
  rw [one, u24] at err0 err1
  exact ratio_bound X _ _ _ _ _ X0 t0 (abs_le.mpr herr) perr err0 err1

theorem aspect_zero (h : Int) (hh : 0 < h) (hh2 : h < 2 ^ 24) :
    F32.div (F32.ofInt 0) (F32.ofInt h) = F32.finite false 0 (-149) := by
  obtain ⟨mh, eh, eh', hmh, -⟩ := ofInt_spec h hh hh2
  have h0 : F32.ofInt 0 = F32.finite false 0 (-149) := by decide
  have hm : mh ≠ 0 := by omega
  rw [eh', h0]
  simp [F32.div, F32.round, hm]

/-- C4 as amended: for a viewport (w, h) with 0 ≤ w < 2^24 and 0 < h < 2^24,
`mGlInit` and the dirty branch of `mGlDraw` store the perspective matrix whose
aspect argument is the quotient of the two sizes in the number type, not the
integer quotient. In the program's floats that argument is `(float)w / h`: zero
for w = 0, and otherwise a finite float within `2^-24` of w / h, relative to
it; projection[0][0] is `1 / (aspect * tan(fovy / 2))` and projection[1][1] is
`1 / tan(fovy / 2)`, each operation rounded; and for w > 0, when `tanf` returns
a float between `2^-40` and `2^40`, projection[1][1] / projection[0][0] is
within `2^-21` of w / h, relative to it. -/
theorem C4_projection_aspect_rounded {K : Type} [Field K] (D : Driver) (L : Libm K)
    (F : Libm32) (w h : Int) (hw2 : w < 2 ^ 24) (hh : 0 < h) (hh2 : h < 2 ^ 24) :
    (∀ s : OglRenderer K, s.mViewportSize = (w, h) →
      (exec (mGlInit D L) s).mViewMat.projection =
        perspective L (radians 30) ((w : K) / (h : K)) (1 / 1000) 1000) ∧
    (∀ s : OglRenderer K, s.mViewportSize = (w, h) → s.mViewportDirty = true →
      (exec (mGlDraw L) s).mViewMat.projection =
        perspective L (radians 30) ((w : K) / (h : K)) (1 / 1000) 1000) ∧
    (w = 0 → F32.div (F32.ofInt w) (F32.ofInt h) = F32.finite false 0 (-149)) ∧
    (0 < w → ∃ (m : Nat) (e : Int),
      F32.div (F32.ofInt w) (F32.ofInt h) = F32.finite false m e ∧ 2 ^ 23 ≤ m ∧ m < 2 ^ 24 ∧
      |(m : ℚ) * 2 ^ e - (w : ℚ) / h| ≤ (w : ℚ) / h * (1 / 16777216)) ∧
    projectionForF F (w, h) 0 0 =
      F32.div (F32.lit 1 1) (F32.mul (F32.div (F32.ofInt w) (F32.ofInt h))
        (F.tan (F32.div (radiansF (F32.lit 30 1)) (F32.lit 2 1)))) ∧
    projectionForF F (w, h) 1 1 =
      F32.div (F32.lit 1 1) (F.tan (F32.div (radiansF (F32.lit 30 1)) (F32.lit 2 1))) ∧
    ∀ (mt : Nat) (et : Int), 0 < w →
      F.tan (F32.div (radiansF (F32.lit 30 1)) (F32.lit 2 1)) = F32.finite false mt et →
      1 ≤ mt → 1 / 2 ^ 40 ≤ (mt : ℚ) * 2 ^ et → (mt : ℚ) * 2 ^ et ≤ 2 ^ 40 →
      0 < F32.toRat (projectionForF F (w, h) 0 0) ∧
        |F32.toRat (projectionForF F (w, h) 1 1) / F32.toRat (projectionForF F (w, h) 0 0) -
            (w : ℚ) / h| ≤ (w : ℚ) / h * (1 / 2097152) := by
  refine ⟨?_, ?_, ?_, ?_, rfl, rfl, ?_⟩
  · intro s hs
    rw [mGlInit_projection, hs]
    rfl
  · intro s hs hd
    rw [mGlDraw_projection L s hd, hs]
    rfl
  · intro h0
    rw [h0]
    exact aspect_zero h hh hh2
  · intro hw0
    obtain ⟨m, e, h1, h3, h4, h5⟩ := aspect_spec w h hw0 hw2 hh hh2
    have u24 : (2 : ℚ) ^ (-24 : Int) = 1 / 16777216 := by norm_num
    rw [u24] at h5
    exact ⟨m, e, h1, h3, h4, h5⟩
  · intro mt et hw0 htan hmt tlo thi
    exact projection_ratio_float F w h hw0 hw2 hh hh2 mt et htan hmt tlo thi

/-- C4 as amended at 1920x1080, with `tanf` returning `8990883 * 2^-25`: the
ratio of the two diagonal entries is within `2^-21` of 16/9. -/
theorem C4_projection_aspect_rounded_witness :
    (0 : Int) < 1920 ∧ (1920 : Int) < 2 ^ 24 ∧ (0 : Int) < 1080 ∧ (1080 : Int) < 2 ^ 24 ∧
      0 < F32.toRat (projectionForF Libm32.sample (1920, 1080) 0 0) ∧
      |F32.toRat (projectionForF Libm32.sample (1920, 1080) 1 1) /
            F32.toRat (projectionForF Libm32.sample (1920, 1080) 0 0) -
          ((1920 : Int) : ℚ) / (1080 : Int)| ≤ ((1920 : Int) : ℚ) / (1080 : Int) * (1 / 2097152) :=
  ⟨by decide, by decide, by decide, by decide,
    (C4_projection_aspect_rounded Driver.sample Libm.sample Libm32.sample 1920 1080 (by decide)
      (by decide) (by decide)).2.2.2.2.2.2 8990883 (-25) (by decide) rfl (by decide)
      (by norm_num) (by norm_num)⟩

/-- C4 fails on the program's floats: at the 800x600 viewport of the
constructor the aspect argument `(float)800 / 600` is `11184811 * 2^-23`, not
4/3; and at 1920x1080, with `tanf` returning `8990883 * 2^-25`,
projection[1][1] / projection[0][0] is 3913339/2201253, not 16/9. -/
theorem C4_float_quotient_not_exact :
    F32.div (F32.ofInt 800) (F32.ofInt 600) = F32.finite false 11184811 (-23) ∧
      F32.toRat (F32.div (F32.ofInt 800) (F32.ofInt 600)) ≠ (800 : ℚ) / 600 ∧
      F32.toRat (projectionForF Libm32.sample (1920, 1080) 1 1) /
          F32.toRat (projectionForF Libm32.sample (1920, 1080) 0 0) = 3913339 / 2201253 ∧
      F32.toRat (projectionForF Libm32.sample (1920, 1080) 1 1) /
          F32.toRat (projectionForF Libm32.sample (1920, 1080) 0 0) ≠ (1920 : ℚ) / 1080 := by
  have ha : F32.div (F32.ofInt 800) (F32.ofInt 600) = F32.finite false 11184811 (-23) := by
    decide
  have h00 : projectionForF Libm32.sample (1920, 1080) 0 0 = F32.finite false 8805012 (-22) := by
    decide
  have h11 : projectionForF Libm32.sample (1920, 1080) 1 1 = F32.finite false 15653356 (-22) := by
    decide
  rw [ha, h00, h11, toRat_finite, toRat_finite, toRat_finite]
  refine ⟨rfl, ?_, ?_, ?_⟩ <;> norm_num

end ProjectionF

/-! ## The normal matrix on floats -/

section FrontWallF

end FrontWallF

section NormalMatrixF

variable {K : Type} [LinearOrderedField K]

end NormalMatrixF

section NormalMatrixFWitness

end NormalMatrixFWitness

end OglPractice
